import Mathlib

/-!
Shallow embedding of the cooklang semantic-analysis pass
(`src/analysis/ast_walker.rs` of goal-group-uca/cooklang-rs) in Lean 4,
together with proofs of the specification claims about it.

Conventions:
* Machine integers (`usize`, `u32`) are modelled as `Nat`; the relevant
  quantities (table indices, step counters) stay far from overflow and the
  source performs no wrapping arithmetic on them.
* Source spans are opaque in the analyzer (only stored and forwarded), so a
  `Span` is an abstract `Nat` token.
* Types that live in the crate but outside `src/` (the diagnostic report,
  the recipe model helpers, the metadata typed parser, the unit converter)
  are modelled from the spec; each such definition carries a doc comment
  starting with `Modelled from the spec:`.
* The constructor named `Section` in Rust is rendered `sectionKind` /
  `sectionEv` where the Lean keyword would clash.
-/

namespace Cooklang

/-- Opaque source span: the analyzer only stores and forwards spans, never
computes with them, so an abstract token suffices. -/
def Span := Nat

deriving instance DecidableEq, Repr for Span

instance (n : Nat) : OfNat Span n := ⟨n⟩

/-- A value together with the source span it was parsed from
(mirrors `crate::located::Located`). -/
structure Located (α : Type) where
  val : α
  span : Span
deriving DecidableEq, Repr

/-- Whitespace trim on a character list (structurally recursive, so the
kernel can evaluate concrete runs; the library `String.trim` is defined by
well-founded recursion and does not reduce). -/
def trimChars (l : List Char) : List Char :=
  ((l.dropWhile Char.isWhitespace).reverse.dropWhile Char.isWhitespace).reverse

/-- Whitespace trim on strings: the model of Rust's `str::trim`. -/
def strTrim (s : String) : String := ⟨trimChars s.data⟩

/-- Character-wise lowercasing: the model of Rust's `str::to_lowercase`. -/
def strLower (s : String) : String := ⟨s.data.map Char.toLower⟩

/-- The model of `str::starts_with`. -/
def strStartsWith (s p : String) : Bool := p.data.isPrefixOf s.data

/-- The model of `str::ends_with`. -/
def strEndsWith (s p : String) : Bool := p.data.reverse.isPrefixOf s.data.reverse

/-- The model of the byte-range slice `&key[1..len-1]` on the config keys
(drop one character on each side). -/
def strDropEnds (s : String) : String := ⟨((s.data.drop 1).reverse.drop 1).reverse⟩

/-- The model of `str::is_empty`. -/
def strIsEmpty (s : String) : Bool := s.data.isEmpty

/-- The model of `str::contains(char::is_alphanumeric)`. -/
def strAnyAlphanum (s : String) : Bool := s.data.any Char.isAlphanum

/-- Modelled from the spec: a piece of source text with its span; the real
`ast::Text` is a list of fragments, of which the analyzer only uses the
joined text, the trimmed text and the span.  Both `text_trimmed` and
`text_outer_trimmed` are modelled as the whitespace trim `strTrim`. -/
structure SpannedText where
  text : String
  span : Span
deriving DecidableEq, Repr

def SpannedText.text_trimmed (t : SpannedText) : String := strTrim t.text

def SpannedText.text_outer_trimmed (t : SpannedText) : String := strTrim t.text

/-- Modelled from the spec: diagnostic severity (`crate::error::Severity`). -/
inductive Severity where
  | error
  | warning
deriving DecidableEq, Repr

/-- Modelled from the spec: diagnostic stage (`crate::error::Stage`):
parse-stage diagnostics come from the parser, analysis-stage ones from this
pass. -/
inductive Stage where
  | parse
  | analysis
deriving DecidableEq, Repr

/-- Modelled from the spec: a diagnostic label, a span with an optional
caption. -/
structure Label where
  span : Span
  caption : Option String
deriving DecidableEq, Repr

/-- Modelled from the spec: a spanned diagnostic with severity, stage,
primary message, labels (the first being the primary label when present)
and hints.  The `set_source` error-chain attachment of the real
`SourceDiag` carries no information the claims mention and is dropped. -/
structure SourceDiag where
  severity : Severity
  stage : Stage
  message : String
  labels : List Label
  hints : List String
deriving DecidableEq, Repr

/-- Mirror of the `error!` macro of `ast_walker.rs`: an analysis-stage error
with one primary label. -/
def mkError (msg : String) (l : Label) : SourceDiag :=
  { severity := .error, stage := .analysis, message := msg, labels := [l], hints := [] }

/-- Mirror of the `warning!` macro of `ast_walker.rs`. -/
def mkWarning (msg : String) (l : Label) : SourceDiag :=
  { severity := .warning, stage := .analysis, message := msg, labels := [l], hints := [] }

/-- Modelled from the spec: `SourceDiag::unlabeled`. -/
def SourceDiag.unlabeled (msg : String) (sev : Severity) (stage : Stage) : SourceDiag :=
  { severity := sev, stage := stage, message := msg, labels := [], hints := [] }

/-- Modelled from the spec: the `.label(...)` builder appends a secondary
label. -/
def SourceDiag.label (d : SourceDiag) (l : Label) : SourceDiag :=
  { d with labels := d.labels ++ [l] }

/-- Modelled from the spec: the `.hint(...)` builder appends a hint. -/
def SourceDiag.hint (d : SourceDiag) (h : String) : SourceDiag :=
  { d with hints := d.hints ++ [h] }

/-- Modelled from the spec: `add_hint` has the same effect as `hint`. -/
def SourceDiag.add_hint (d : SourceDiag) (h : String) : SourceDiag :=
  { d with hints := d.hints ++ [h] }

/-- Modelled from the spec: the diagnostic report is an append-only list of
diagnostics. -/
def SourceReport := List SourceDiag

deriving instance DecidableEq, Repr for SourceReport

/-- Modelled from the spec: `SourceReport::error` classifies the diagnostic
as an error and appends it. -/
def SourceReport.error (r : SourceReport) (d : SourceDiag) : SourceReport :=
  List.append r [{ d with severity := .error }]

/-- Modelled from the spec: `SourceReport::warn` classifies the diagnostic
as a warning and appends it. -/
def SourceReport.warn (r : SourceReport) (d : SourceDiag) : SourceReport :=
  List.append r [{ d with severity := .warning }]

/-- Modelled from the spec: `SourceReport::push` appends an
already-classified diagnostic. -/
def SourceReport.push (r : SourceReport) (d : SourceDiag) : SourceReport :=
  List.append r [d]

/-- Modelled from the spec: `SourceReport::retain` keeps the diagnostics
satisfying the predicate. -/
def SourceReport.retain (r : SourceReport) (p : SourceDiag → Bool) : SourceReport :=
  List.filter p r

instance : HAppend SourceReport (List SourceDiag) SourceReport :=
  ⟨fun r l => List.append r l⟩

/-- The modifier bitset of `crate::ast::Modifiers` restricted to its five
named flags (`REF`, `NEW`, `RECIPE`, `HIDDEN`, `OPT`); the analyzer uses no
other bit. -/
structure Modifiers where
  ref : Bool
  new : Bool
  recipe : Bool
  hidden : Bool
  opt : Bool
deriving DecidableEq, Repr

namespace Modifiers

def empty : Modifiers := ⟨false, false, false, false, false⟩

def REF : Modifiers := ⟨true, false, false, false, false⟩

def NEW : Modifiers := ⟨false, true, false, false, false⟩

def RECIPE : Modifiers := ⟨false, false, true, false, false⟩

def HIDDEN : Modifiers := ⟨false, false, false, true, false⟩

def OPT : Modifiers := ⟨false, false, false, false, true⟩

/-- Bitwise intersection (`&`). -/
def and (a b : Modifiers) : Modifiers :=
  ⟨a.ref && b.ref, a.new && b.new, a.recipe && b.recipe, a.hidden && b.hidden, a.opt && b.opt⟩

/-- Bitwise union (`|`). -/
def or (a b : Modifiers) : Modifiers :=
  ⟨a.ref || b.ref, a.new || b.new, a.recipe || b.recipe, a.hidden || b.hidden, a.opt || b.opt⟩

/-- Bitwise complement (`!`) within the five modelled flags. -/
def not (a : Modifiers) : Modifiers :=
  ⟨!a.ref, !a.new, !a.recipe, !a.hidden, !a.opt⟩

/-- `bitflags` `contains`: all bits of `b` are set in `a`. -/
def contains (a b : Modifiers) : Bool :=
  a.and b == b

/-- `bitflags` `intersects`: some bit of `b` is set in `a`. -/
def intersects (a b : Modifiers) : Bool :=
  a.and b != empty

def is_empty (a : Modifiers) : Bool :=
  a == empty

/-- Modelled from the spec: the names of the set flags, in the order the
spec lists them (`REF`, `NEW`, `RECIPE`, `HIDDEN`, `OPT`); mirrors
`bitflags` `iter_names`. -/
def iter_names (a : Modifiers) : List String :=
  (if a.ref then ["REF"] else []) ++ (if a.new then ["NEW"] else []) ++
    (if a.recipe then ["RECIPE"] else []) ++ (if a.hidden then ["HIDDEN"] else []) ++
    (if a.opt then ["OPT"] else [])

/-- Modelled from the spec: the `Display` of a modifier set joins the set
flag names. -/
def display (a : Modifiers) : String :=
  String.intercalate " | " a.iter_names

end Modifiers

/-- `super::DefineMode`. -/
inductive DefineMode where
  | all
  | components
  | steps
  | text
deriving DecidableEq, Repr

/-- `super::DuplicateMode`. -/
inductive DuplicateMode where
  | new
  | reference
deriving DecidableEq, Repr

/-- The extension bits the analyzer reads (`crate::Extensions`). -/
structure Extensions where
  temperature : Bool
  modes : Bool
  advanced_units : Bool
deriving DecidableEq, Repr

/-- Modelled from the spec: a scalar quantity value
(`crate::quantity::Value`): number, range or text.  Numbers and range
endpoints are `f64` in the source; the analyzer never computes with them,
so they are abstracted to `Int`. -/
inductive Value where
  | number (n : Int)
  | range (a b : Int)
  | text (s : String)
deriving DecidableEq, Repr

/-- Modelled from the spec: `Value::is_text`. -/
def Value.is_text : Value → Bool
  | .text _ => true
  | _ => false

/-- Modelled from the spec: textual display of a value, used only inside
diagnostic messages. -/
def Value.display : Value → String
  | .number n => toString n
  | .range a b => toString a ++ "-" ++ toString b
  | .text s => s

/-- Modelled from the spec: `crate::quantity::ScalableValue`:
`Fixed`, `Linear` or `ByServings`. -/
inductive ScalableValue where
  | fixed (v : Value)
  | linear (v : Value)
  | byServings (vs : List Value)
deriving DecidableEq, Repr

/-- Modelled from the spec: `ScalableValue::is_text` (only a fixed text
value is text; used for the cookware text-value warning). -/
def ScalableValue.is_text : ScalableValue → Bool
  | .fixed v => v.is_text
  | _ => false

/-- A quantity: a value and an optional unit string
(`crate::quantity::Quantity`). -/
structure Quantity (α : Type) where
  value : α
  unit : Option String
deriving DecidableEq, Repr

/-- `Quantity::new`. -/
def Quantity.mk' {α : Type} (value : α) (unit : Option String) : Quantity α :=
  { value := value, unit := unit }

/-- Modelled from the spec: the physical quantity a unit measures, as
reported by the external unit converter. -/
inductive PhysicalQuantity where
  | time
  | other (name : String)
deriving DecidableEq, Repr

/-- Modelled from the spec: display of a physical quantity (used in timer
diagnostics). -/
def PhysicalQuantity.display : PhysicalQuantity → String
  | .time => "time"
  | .other n => n

/-- Modelled from the spec: result of a unit lookup through the converter
(`crate::quantity::UnitInfo`). -/
inductive UnitInfo where
  | known (physical_quantity : PhysicalQuantity)
  | unknown
deriving DecidableEq, Repr

/-- Modelled from the spec: the kinds of unit incompatibility the converter
can report (`crate::quantity::IncompatibleUnits`).  `missingUnit`'s flag
tells whether the side missing the unit is the left argument of
`compatible_unit` (the already-stored quantity). -/
inductive IncompatibleUnits where
  | missingUnit (foundIsLeft : Bool)
  | differentPhysicalQuantities (a b : PhysicalQuantity)
  | unknownDifferentUnits
deriving DecidableEq, Repr

/-- Modelled from the spec: result of the optional recipe-reference
existence checker. -/
inductive RecipeRefCheckResult where
  | found
  | notFound (hints : List String)
deriving DecidableEq, Repr

/-- `IngredientReferenceTarget` (`crate::model`): what an ingredient
reference points at.  (`Section` is rendered `sectionKind` because
`section` is a Lean keyword.) -/
inductive IngredientRefTarget where
  | ingredient
  | step
  | sectionKind
deriving DecidableEq, Repr

/-- Modelled from the spec: `IngredientRelation`
(`Definition { referenced_from, defined_in_step }` or
`Reference { references_to, target }`). -/
inductive IngredientRelation where
  | definition (referenced_from : List Nat) (defined_in_step : Bool)
  | reference (references_to : Nat) (target : IngredientRefTarget)
deriving DecidableEq, Repr

/-- Modelled from the spec: `IngredientRelation::referenced_from` (the
back-reference list of a definition). -/
def IngredientRelation.referenced_from : IngredientRelation → List Nat
  | .definition l _ => l
  | .reference _ _ => []

def IngredientRelation.is_definition : IngredientRelation → Bool
  | .definition _ _ => true
  | .reference _ _ => false

/-- Modelled from the spec: `is_defined_in_step`, `some` only on a
definition. -/
def IngredientRelation.is_defined_in_step : IngredientRelation → Option Bool
  | .definition _ d => some d
  | .reference _ _ => none

/-- Modelled from the spec: `ComponentRelation` for cookware (no target
kind: a cookware reference always targets cookware). -/
inductive ComponentRelation where
  | definition (referenced_from : List Nat) (defined_in_step : Bool)
  | reference (references_to : Nat)
deriving DecidableEq, Repr

def ComponentRelation.referenced_from : ComponentRelation → List Nat
  | .definition l _ => l
  | .reference _ => []

def ComponentRelation.is_definition : ComponentRelation → Bool
  | .definition _ _ => true
  | .reference _ => false

def ComponentRelation.is_defined_in_step : ComponentRelation → Option Bool
  | .definition _ d => some d
  | .reference _ => none

/-- Modelled from the spec: an output ingredient
(`crate::model::Ingredient` with scalable quantity). -/
structure Ingredient where
  name : String
  aliasName : Option String
  quantity : Option (Quantity ScalableValue)
  note : Option String
  modifiers : Modifiers
  relation : IngredientRelation
deriving DecidableEq, Repr

/-- Modelled from the spec: an output cookware item
(`crate::model::Cookware`); its quantity is a bare scalable value. -/
structure Cookware where
  name : String
  aliasName : Option String
  quantity : Option ScalableValue
  note : Option String
  modifiers : Modifiers
  relation : ComponentRelation
deriving DecidableEq, Repr

/-- Modelled from the spec: an output timer (`crate::model::Timer`). -/
structure Timer where
  name : Option String
  quantity : Option (Quantity ScalableValue)
deriving DecidableEq, Repr

/-- Modelled from the spec: a step item (`crate::model::Item`); indices
point into the recipe's component tables. -/
inductive Item where
  | text (value : String)
  | ingredientIdx (index : Nat)
  | cookwareIdx (index : Nat)
  | timerIdx (index : Nat)
  | inlineQuantity (index : Nat)
deriving DecidableEq, Repr

/-- Modelled from the spec: a step (`crate::model::Step`). -/
structure Step where
  items : List Item
  number : Nat
deriving DecidableEq, Repr

/-- Modelled from the spec: section content (`crate::Content`), a step or a
text block. -/
inductive Content where
  | step (s : Step)
  | text (t : String)
deriving DecidableEq, Repr

def Content.is_text : Content → Bool
  | .text _ => true
  | .step _ => false

def Content.is_step : Content → Bool
  | .step _ => true
  | .text _ => false

/-- Modelled from the spec: a recipe section: an optional name and an
ordered list of content blocks. -/
structure Section where
  name : Option String
  content : List Content
deriving DecidableEq, Repr

/-- Modelled from the spec: `Section::default()`. -/
def Section.default : Section := { name := none, content := [] }

/-- Modelled from the spec: `Section::new(name)`. -/
def Section.mk' (name : Option String) : Section := { name := name, content := [] }

/-- Modelled from the spec: a section is empty when it has no content
("An empty section (no content) is never pushed into `sections`"). -/
def Section.is_empty (s : Section) : Bool :=
  s.content.isEmpty

/-- Modelled from the spec: the recipe metadata: an ordered map of raw
entries plus the typed `servings` slot. -/
structure Metadata where
  map : List (String × String)
  servings : Option (List Int)
deriving DecidableEq, Repr

/-- Modelled from the spec: ordered-map insert: update in place if the key
exists, else append. -/
def mapInsert : List (String × String) → String → String → List (String × String)
  | [], k, v => [(k, v)]
  | (k', v') :: rest, k, v =>
    if k' == k then (k, v) :: rest else (k', v') :: mapInsert rest k v

/-- Modelled from the spec: `Metadata::insert`: every entry lands in the
plain map; the special key `servings` is additionally parsed by the
external metadata value parser (`parseServings`), and a failed parse
reports a warning (`true` in the second component) while the entry remains
a regular map entry. -/
def Metadata.insert (parseServings : String → Option (List Int)) (m : Metadata)
    (k v : String) : Metadata × Bool :=
  if k == "servings" then
    match parseServings v with
    | some s => ({ map := mapInsert m.map k v, servings := some s }, false)
    | none => ({ map := mapInsert m.map k v, servings := m.servings }, true)
  else
    ({ map := mapInsert m.map k v, servings := m.servings }, false)

/-- The produced recipe (`ScalableRecipe`). -/
structure ScalableRecipe where
  metadata : Metadata
  sections : List Section
  ingredients : List Ingredient
  cookware : List Cookware
  timers : List Timer
  inline_quantities : List (Quantity Value)
deriving DecidableEq, Repr

/-- Modelled from the spec: an AST quantity value
(`crate::ast::QuantityValue`): single scalar with an optional auto-scale
marker span, or one value per serving.  The `span` fields model the
`span()` method of the corresponding AST node. -/
inductive QuantityValueAst where
  | single (value : Value) (valueSpan : Span) (autoScale : Option Span) (span : Span)
  | many (values : List Value) (span : Span)
deriving DecidableEq, Repr

def QuantityValueAst.span : QuantityValueAst → Span
  | .single _ _ _ s => s
  | .many _ s => s

/-- Modelled from the spec: an AST quantity (`crate::ast::Quantity`): a
value and an optional unit text. -/
structure QuantityAst where
  value : QuantityValueAst
  unit : Option SpannedText
deriving DecidableEq, Repr

/-- `ast::IntermediateRefMode`. -/
inductive IntermediateRefMode where
  | number
  | relative
deriving DecidableEq, Repr

/-- `ast::IntermediateTargetKind` (`Section` rendered `sectionKind`). -/
inductive IntermediateTargetKind where
  | step
  | sectionKind
deriving DecidableEq, Repr

/-- `ast::IntermediateData`: the `=N` / `=~N` payload of an intermediate
preparation reference.  `val` is a signed integer in the source; the parser
guarantees it non-negative (asserted in `resolve_intermediate_ref`). -/
structure IntermediateData where
  ref_mode : IntermediateRefMode
  target_kind : IntermediateTargetKind
  val : Int
deriving DecidableEq, Repr

/-- Modelled from the spec: the AST ingredient event payload
(`ast::Ingredient`). -/
structure AstIngredient where
  name : SpannedText
  aliasName : Option SpannedText
  quantity : Option (Located QuantityAst)
  note : Option SpannedText
  modifiers : Located Modifiers
  intermediate_data : Option (Located IntermediateData)
deriving DecidableEq, Repr

/-- Modelled from the spec: the AST cookware event payload
(`ast::Cookware`); its quantity is a bare quantity value. -/
structure AstCookware where
  name : SpannedText
  aliasName : Option SpannedText
  quantity : Option (Located QuantityValueAst)
  note : Option SpannedText
  modifiers : Located Modifiers
deriving DecidableEq, Repr

/-- Modelled from the spec: the AST timer event payload (`ast::Timer`). -/
structure AstTimer where
  name : Option SpannedText
  quantity : Option (Located QuantityAst)
deriving DecidableEq, Repr

/-- `parser::BlockKind`. -/
inductive BlockKind where
  | step
  | text
deriving DecidableEq, Repr

/-- The parser event stream alphabet (`parser::Event`); `Start`/`End` are
rendered `startEv`/`endEv` and `Section` `sectionEv`. -/
inductive Event where
  | metadataEv (key value : SpannedText)
  | sectionEv (name : Option SpannedText)
  | startEv (kind : BlockKind)
  | endEv (kind : BlockKind)
  | textEv (t : SpannedText)
  | ingredientEv (i : Located AstIngredient)
  | cookwareEv (c : Located AstCookware)
  | timerEv (t : Located AstTimer)
  | errorEv (d : SourceDiag)
  | warningEv (d : SourceDiag)
deriving DecidableEq, Repr

/-- Modelled from the spec: the capabilities the analyzer borrows from the
outside: the temperature-regex finder (already specialised to its `find`
behavior; `none` models `temperature_regex()` returning `Err`), the unit
converter queries, the optional recipe-reference checker and the metadata
`servings` parser.  `compatibleUnit old new` returns `some e` exactly when
the source `old.compatible_unit(new, converter)` returns `Err(e)`. -/
structure AnalysisEnv where
  temperatureRegexFn : Option (String → Option (String × Quantity Value × String))
  compatibleUnit :
    Quantity ScalableValue → Quantity ScalableValue → Option IncompatibleUnits
  unitInfo : String → UnitInfo
  recipeRefChecker : Option (String → RecipeRefCheckResult)
  parseServings : String → Option (List Int)

/-- The per-component source-location side tables (`Locations`); the
metadata map is keyed by trimmed key text. -/
structure Locations where
  ingredients : List (Located AstIngredient)
  cookware : List (Located AstCookware)
  metadata : List (String × (SpannedText × SpannedText))

/-- Modelled from the spec: `HashMap` insert for the location table (the
analyzer only ever looks entries up by key, so an association list with
replace-on-insert is an adequate model). -/
def locInsert : List (String × (SpannedText × SpannedText)) → String →
    (SpannedText × SpannedText) → List (String × (SpannedText × SpannedText))
  | [], k, v => [(k, v)]
  | (k', v') :: rest, k, v =>
    if k' == k then (k, v) :: rest else (k', v') :: locInsert rest k v

def locGet (l : List (String × (SpannedText × SpannedText))) (k : String) :
    Option (SpannedText × SpannedText) :=
  (l.find? (fun p => p.1 == k)).map Prod.snd

/-- The walker state (`RecipeCollector`), with the borrowed environment
inlined. -/
structure RecipeCollector where
  extensions : Extensions
  temperature_regex : Option (String → Option (String × Quantity Value × String))
  env : AnalysisEnv
  content : ScalableRecipe
  current_section : Section
  define_mode : DefineMode
  duplicate_mode : DuplicateMode
  auto_scale_ingredients : Bool
  ctx : SourceReport
  locations : Locations
  step_counter : Nat

/-- The constant hint attached to implicit-reference diagnostics
(`IMPLICIT_REF_WARN`). -/
def IMPLICIT_REF_WARN : String := "The reference (&) is implicit"

/-- Index of the last element satisfying `p` (mirrors Rust's
`Iterator::rposition` as used on the component tables). -/
def rposition {α : Type} (p : α → Bool) : List α → Option Nat
  | [] => none
  | a :: as =>
    match rposition p as with
    | some i => some (i + 1)
    | none => if p a then some 0 else none

/-- Placeholder span for source positions that the source obtains by
`unwrap` on options that are always `some` at that point. -/
def Span.dummy : Span := (0 : Nat)

/-- Content indices of the steps of a section, counting from `k`
(helper for `enumerate().filter_map(is_step)`). -/
def stepIndicesFrom (k : Nat) : List Content → List Nat
  | [] => []
  | c :: cs => (if c.is_step then [k] else []) ++ stepIndicesFrom (k + 1) cs

/-- Content indices of the steps of a section, in order: the model of
`content.iter().enumerate().filter_map(|(i, c)| c.is_step().then_some(i))`. -/
def stepIndices (content : List Content) : List Nat :=
  stepIndicesFrom 0 content

/-- Modelled from the spec: `ScalableValue::from_ast`: a single value
without marker is `Fixed`, with marker `Linear` (text stays `Fixed`, per
the spec's auto-scale-on-text scenario), `Many` becomes `ByServings`. -/
def ScalableValue.from_ast : QuantityValueAst → ScalableValue
  | .single v _ none _ => .fixed v
  | .single v _ (some _) _ => if v.is_text then .fixed v else .linear v
  | .many vs _ => .byServings vs

/-- Modelled from the spec: display of a scalable value (used only inside
the timer text-value diagnostic message). -/
def ScalableValue.display : ScalableValue → String
  | .fixed v => v.display
  | .linear v => v.display
  | .byServings vs => String.intercalate "|" (vs.map Value.display)

/-- The free function `note_reference_error` of `ast_walker.rs`. -/
def note_reference_error (span : Span) (implicit : Bool) : SourceDiag :=
  let e := ((mkError "Note not allowed in reference" ⟨span, some "remove this"⟩).hint
    "Add the note in the definition of the ingredient")
  if implicit then e.add_hint IMPLICIT_REF_WARN else e

/-- The free function `conflicting_reference_quantity_error` of
`ast_walker.rs`. -/
def conflicting_reference_quantity_error (ref_quantity_span def_span : Span)
    (implicit : Bool) : SourceDiag :=
  let e := (((mkError "Conflicting component reference quantities"
    ⟨ref_quantity_span, some "remove this"⟩).label
      ⟨def_span, some "definition with quantity outside a step here"⟩).hint
    "If the component is not defined in a step and has a quantity, its references cannot have a quantity")
  if implicit then e.add_hint IMPLICIT_REF_WARN else e

/-- The free function `text_val_in_ref_warn` of `ast_walker.rs`. -/
def text_val_in_ref_warn (text_quantity_span number_quantity_span : Span)
    (implicit : Bool) : SourceDiag :=
  let w := (((mkWarning "Text value may prevent calculating total amount"
    ⟨text_quantity_span, some "this text"⟩).label
      ⟨number_quantity_span, some "cannot be added to this value"⟩).hint
    "Use numeric values so they can be added together")
  if implicit then w.add_hint IMPLICIT_REF_WARN else w

/-- `RecipeCollector::metadata` (lines 174-249 of `ast_walker.rs`). -/
def RecipeCollector.metadataFn (col : RecipeCollector) (key value : SpannedText) :
    RecipeCollector :=
  let col := { col with locations :=
    { col.locations with
      metadata := locInsert col.locations.metadata key.text_trimmed (key, value) } }
  let key_t := key.text_trimmed
  let value_t := value.text_outer_trimmed
  let invalid_value := fun (possible : List String) =>
    (((mkError ("Invalid value for config key '" ++ key_t ++ "': " ++ value_t)
      ⟨value.span, some "this value is not supported"⟩).label
        ⟨key.span, some "by this key"⟩).hint
      ("Possible values are: " ++ toString possible))
  if col.extensions.modes && strStartsWith key_t "[" && strEndsWith key_t "]" then
    let special_key := strDropEnds key_t
    match special_key with
    | "define" => match value_t with
      | "all" => { col with define_mode := .all }
      | "default" => { col with define_mode := .all }
      | "components" => { col with define_mode := .components }
      | "ingredients" => { col with define_mode := .components }
      | "steps" => { col with define_mode := .steps }
      | "text" => { col with define_mode := .text }
      | _ => { col with ctx :=
          (col.ctx.error (invalid_value ["all", "components", "steps", "text"])) }
    | "mode" => match value_t with
      | "all" => { col with define_mode := .all }
      | "default" => { col with define_mode := .all }
      | "components" => { col with define_mode := .components }
      | "ingredients" => { col with define_mode := .components }
      | "steps" => { col with define_mode := .steps }
      | "text" => { col with define_mode := .text }
      | _ => { col with ctx :=
          (col.ctx.error (invalid_value ["all", "components", "steps", "text"])) }
    | "duplicate" => match value_t with
      | "new" => { col with duplicate_mode := .new }
      | "default" => { col with duplicate_mode := .new }
      | "reference" => { col with duplicate_mode := .reference }
      | "ref" => { col with duplicate_mode := .reference }
      | _ => { col with ctx := col.ctx.error (invalid_value ["new", "reference"]) }
    | "auto scale" => match value_t with
      | "true" => { col with auto_scale_ingredients := true }
      | "false" => { col with auto_scale_ingredients := false }
      | "default" => { col with auto_scale_ingredients := false }
      | _ => { col with ctx := col.ctx.error (invalid_value ["true", "false"]) }
    | "auto_scale" => match value_t with
      | "true" => { col with auto_scale_ingredients := true }
      | "false" => { col with auto_scale_ingredients := false }
      | "default" => { col with auto_scale_ingredients := false }
      | _ => { col with ctx := col.ctx.error (invalid_value ["true", "false"]) }
    | _ =>
      let col := { col with ctx := (col.ctx.warn
        ((mkWarning ("Unknown config metadata key: " ++ key_t) ⟨key.span, none⟩).hint
          "Possible config keys are '[mode]', '[duplicate]' and '[auto scale]'")) }
      { col with content := { col.content with metadata :=
        { col.content.metadata with
          map := mapInsert col.content.metadata.map key_t value_t } } }
  else
    let r := col.content.metadata.insert col.env.parseServings key_t value_t
    let col := { col with content := { col.content with metadata := r.1 } }
    if r.2 then
      { col with ctx := (col.ctx.warn
        ((((mkWarning ("Unsupported value for special key: '" ++ key.text_trimmed ++ "'")
          ⟨value.span, some "this value"⟩).label
            ⟨key.span, some "is not supported by this key"⟩).hint
          "It will be a regular metadata entry"))) }
    else col

/-- `RecipeCollector::value` (lines 813-884): lowers an AST quantity value
to a scalable value, emitting the auto-scale-on-text error, the
`Many`-vs-servings errors and the redundant-auto-scale warning.  The
function only reads the collector and appends to its report, so it is
modelled as a pure function returning the diagnostics it emits, in
order. -/
def RecipeCollector.valueFn (col : RecipeCollector) (value : QuantityValueAst)
    (is_ingredient : Bool) : ScalableValue × List SourceDiag :=
  let marker_span : Option Span :=
    match value with
    | .single _ _ (some auto_scale_marker) _ => some auto_scale_marker
    | _ => none
  let ds : List SourceDiag :=
    match value with
    | .single v _ (some auto_scale_marker) _ =>
      if v.is_text then
        [(mkError "Text value with auto scale marker"
          ⟨auto_scale_marker, some "remove this"⟩).hint "Text cannot be scaled"]
      else []
    | .many vs vspan =>
      match col.content.metadata.servings with
      | some s =>
        let servings_meta_span :=
          (((locGet col.locations.metadata "servings").map (fun p => p.2.span)).getD
            Span.dummy)
        if s.length != vs.length then
          [((mkError ("Many values conflict: " ++ toString s.length ++
              " servings defined but " ++ toString vs.length ++ " values in the quantity")
            ⟨vspan, some "number of values do not match servings"⟩).label
              ⟨servings_meta_span, some "servings defined here"⟩)]
        else []
      | none =>
        [mkError ("Many values conflict: not servings defined but " ++
            toString vs.length ++ " values in the quantity")
          ⟨vspan, none⟩]
    | _ => []
  let v := ScalableValue.from_ast value
  if is_ingredient && col.auto_scale_ingredients then
    match v with
    | .fixed value' =>
      if !value'.is_text then (.linear value', ds) else (.fixed value', ds)
    | .linear value' =>
      (.linear value', ds ++
        [(mkWarning "Redundant auto scale marker"
          ⟨marker_span.getD Span.dummy, some "remove this"⟩).hint
          "Every ingredient is already marked to auto scale"])
    | v' => (v', ds)
  else (v, ds)

/-- `RecipeCollector::quantity` (lines 801-811). -/
def RecipeCollector.quantityFn (col : RecipeCollector) (q : Located QuantityAst)
    (is_ingredient : Bool) : Quantity ScalableValue × List SourceDiag :=
  let r := col.valueFn q.val.value is_ingredient
  (Quantity.mk' r.1 (q.val.unit.map (fun t => t.text_trimmed)), r.2)

/-- `RecipeCollector::resolve_intermediate_ref` (lines 542-674).  The
function only reads the collector, so it is modelled as a pure function
returning `Except`.  The source asserts `val` non-negative (a parser
invariant) and casts it to `u32`; `Int.toNat` coincides with that cast on
the asserted domain. -/
def RecipeCollector.resolve_intermediate_ref (col : RecipeCollector)
    (inter_data : Located IntermediateData) : Except SourceDiag IngredientRelation :=
  let d := inter_data.val
  let val : Nat := d.val.toNat
  if val == 0 then
    match d.ref_mode with
    | .number =>
      .error ((mkError "Invalid intermediate preparation reference: number is 0"
        ⟨inter_data.span, none⟩).hint "Step and section numbers start at 1")
    | .relative =>
      .error ((mkError "Invalid intermediate preparation reference: relative reference to self"
        ⟨inter_data.span, none⟩).hint "Relative reference value has to be greater than 0")
  else
    match d.target_kind, d.ref_mode with
    | .step, .number =>
      match (stepIndices col.current_section.content).get? (val - 1) with
      | none =>
        .error ((mkError "Invalid intermediate preparation reference: value out of bounds"
          ⟨inter_data.span, none⟩).hint
          ("The value has to be a previous step number: " ++
            (match col.step_counter - 1 with
              | 0 => "no steps before this one"
              | 1 => "1"
              | max => "1 to " ++ toString max)))
      | some index => .ok (.reference index .step)
    | .step, .relative =>
      match (stepIndices col.current_section.content).reverse.get? (val - 1) with
      | none =>
        .error ((mkError "Invalid intermediate preparation reference: value out of bounds"
          ⟨inter_data.span, none⟩).hint
          ("The current section " ++
            (match col.step_counter - 1 with
              | 0 => "has no"
              | before => "only has " ++ toString before) ++
            " steps before this one"))
      | some index => .ok (.reference index .step)
    | .sectionKind, .number =>
      let index := val - 1
      if index ≥ col.content.sections.length then
        .error ((mkError "Invalid intermediate preparation reference: value out of bounds"
          ⟨inter_data.span, none⟩).hint
          ("The value has to be a previous section number: " ++
            (match col.content.sections.length with
              | 0 => "no sections before this one"
              | 1 => "1"
              | max => "1 to " ++ toString max)))
      else .ok (.reference index .sectionKind)
    | .sectionKind, .relative =>
      if val > col.content.sections.length then
        .error ((mkError "Invalid intermediate preparation reference: value out of bounds"
          ⟨inter_data.span, none⟩).hint
          ("The recipe " ++
            (match col.content.sections.length with
              | 0 => "has no"
              | before => "only has " ++ toString before) ++
            " sections before this one"))
      else .ok (.reference (col.content.sections.length - val) .sectionKind)

/-- `<Ingredient as RefComponent>::inherit_modifiers`
(lines 1075-1078 of `ast_walker.rs`). -/
def Ingredient.inherit_modifiers : Modifiers :=
  (Modifiers.HIDDEN.or Modifiers.OPT).or Modifiers.RECIPE

/-- `<Cookware as RefComponent>::inherit_modifiers`
(lines 1123-1126 of `ast_walker.rs`). -/
def Cookware.inherit_modifiers : Modifiers :=
  Modifiers.HIDDEN.or Modifiers.OPT

/-- `<Ingredient as RefComponent>::set_reference`. -/
def Ingredient.set_reference (c : Ingredient) (references_to : Nat) : Ingredient :=
  { c with relation := .reference references_to .ingredient }

/-- `<Cookware as RefComponent>::set_reference`. -/
def Cookware.set_reference (c : Cookware) (references_to : Nat) : Cookware :=
  { c with relation := .reference references_to }

/-- `<Ingredient as RefComponent>::set_referenced_from` (lines 1091-1099):
append the index the new component is about to get (the current table
length) to the target definition's back-reference list.  The source panics
on a reference target ("Reference to reference"); the resolver only ever
passes definitions, so that branch is modelled as the identity. -/
def Ingredient.set_referenced_from (all : List Ingredient) (references_to : Nat) :
    List Ingredient :=
  let new_index := all.length
  match all.get? references_to with
  | some c =>
    match c.relation with
    | .definition l d =>
      all.set references_to { c with relation := .definition (l ++ [new_index]) d }
    | .reference _ _ => all
  | none => all

/-- `<Cookware as RefComponent>::set_referenced_from` (lines 1138-1146). -/
def Cookware.set_referenced_from (all : List Cookware) (references_to : Nat) :
    List Cookware :=
  let new_index := all.length
  match all.get? references_to with
  | some c =>
    match c.relation with
    | .definition l d =>
      all.set references_to { c with relation := .definition (l ++ [new_index]) d }
    | .reference _ => all
  | none => all

/-- The help text of the redundant-modifier warning (shared by both
component kinds), keyed on the current modes. -/
def redundantModeHelp (define_mode : DefineMode) (duplicate_mode : DuplicateMode) : String :=
  "In the current mode, by default, " ++
    (match define_mode, duplicate_mode with
      | .steps, _ => "all components are references"
      | _, .reference => "components are definitions but duplicates are references"
      | _, _ => "all components are definitions")

/-- The `conflicing_modifiers` diagnostic closure of `resolve_reference`
(lines 905-915; the misspelling is the source's). -/
def conflictingModifiersDiag (modifiers_location : Span) (conflict : Modifiers)
    (help : String) (implicit : Bool) : SourceDiag :=
  let e := ((mkError ("Unsupported modifier combination with reference: " ++ conflict.display)
    ⟨modifiers_location, none⟩).hint help)
  if implicit then e.add_hint IMPLICIT_REF_WARN else e

/-- The `redundant_modifier` diagnostic closure of `resolve_reference`
(lines 917-932). -/
def redundantModifierDiag (modifiers_location : Span) (define_mode : DefineMode)
    (duplicate_mode : DuplicateMode) (redundant : String) (help : String) : SourceDiag :=
  ((mkWarning ("Redundant " ++ redundant ++ " modifier") ⟨modifiers_location, none⟩).hint
    help).hint (redundantModeHelp define_mode duplicate_mode)

/-- The "reference not found" error of `resolve_reference`
(lines 1025-1038). -/
def referenceNotFoundDiag (location : Span) (name : String) (container : String)
    (implicit : Bool) : SourceDiag :=
  let e := ((mkError ("Reference not found: " ++ name) ⟨location, none⟩).hint
    ("A non reference " ++ container ++ " with the same name defined BEFORE cannot be found"))
  if implicit then e.add_hint IMPLICIT_REF_WARN else e

/-- The backward search for the last same-name non-reference entry
(the `same_name` closure of `resolve_reference`, lines 895-903),
specialised to ingredients. -/
def sameNameIng (all : List Ingredient) (new_name : String) : Option Nat :=
  rposition (fun other =>
    !(other.modifiers.contains Modifiers.REF) && new_name == strLower other.name) all

/-- The `same_name` backward search specialised to cookware. -/
def sameNameCw (all : List Cookware) (new_name : String) : Option Nat :=
  rposition (fun other =>
    !(other.modifiers.contains Modifiers.REF) && new_name == strLower other.name) all

/-- The help text of the conflicting-modifier error in the found-target
branch (lines 1006-1017). -/
def conflictHelp (conflict : Modifiers) (implicit : Bool) : String :=
  let extra := String.intercalate ", " (conflict.iter_names.map strLower)
  if implicit then "Mark the definition as " ++ extra ++ " or add new (+) to this"
  else "Mark the definition as " ++ extra ++ " or remove the reference (&)"

/-- `RecipeCollector::resolve_reference::<Ingredient>` (lines 886-1041):
returns the updated component, the diagnostics emitted (in order) and
`some (references_to, implicit)` when the component became a reference.
The collector itself is only read (modes and the ingredient table). -/
def resolve_reference_ing (all : List Ingredient) (define_mode : DefineMode)
    (duplicate_mode : DuplicateMode) (new : Ingredient)
    (location modifiers_location : Span) :
    Ingredient × List SourceDiag × Option (Nat × Bool) :=
  let new_name := strLower new.name
  let same_name := sameNameIng all new_name
  let container := "ingredient"
  if new.modifiers.contains (Modifiers.NEW.or Modifiers.REF) then
    (new, [conflictingModifiersDiag modifiers_location new.modifiers
      "NEW (+) can never be combined with REF (&)" false], none)
  else if new.modifiers.contains Modifiers.NEW then
    let ws :=
      if define_mode != DefineMode.steps then
        if duplicate_mode == DuplicateMode.reference && same_name.isNone then
          [redundantModifierDiag modifiers_location define_mode duplicate_mode
            "new (+)" ("There are no " ++ container ++ "s with the same name before")]
        else if duplicate_mode == DuplicateMode.new then
          [redundantModifierDiag modifiers_location define_mode duplicate_mode
            "new (+)" ("This " ++ container ++ " is already a definition")]
        else []
      else []
    (new, ws, none)
  else
    let redundantRef :=
      if (duplicate_mode == DuplicateMode.reference ||
          define_mode == DefineMode.steps) && new.modifiers.contains Modifiers.REF then
        [redundantModifierDiag modifiers_location define_mode duplicate_mode
          "reference (&)" ("This " ++ container ++ " is already a reference")]
      else []
    let treat_as_reference := new.modifiers.contains Modifiers.REF ||
      define_mode == DefineMode.steps ||
      (duplicate_mode == DuplicateMode.reference && same_name.isSome)
    if !treat_as_reference then (new, redundantRef, none)
    else
      let implicit := !new.modifiers.contains Modifiers.REF
      match same_name with
      | some references_to =>
        match all.get? references_to with
        | none => (new, redundantRef, none)
        | some referenced =>
          let inherited := referenced.modifiers.and Ingredient.inherit_modifiers
          let conflict := (new.modifiers.and inherited.not).and Modifiers.REF.not
          let upd := { new with modifiers := (new.modifiers.or inherited).or Modifiers.REF }
          let upd := upd.set_reference references_to
          let conflictDiags :=
            if !conflict.is_empty then
              [conflictingModifiersDiag modifiers_location conflict
                (conflictHelp conflict implicit) implicit]
            else []
          (upd, redundantRef ++ conflictDiags, some (references_to, implicit))
      | none =>
        (new, redundantRef ++ [referenceNotFoundDiag location new.name container implicit],
          none)

/-- `RecipeCollector::resolve_reference::<Cookware>`: the same generic
function instantiated at cookware (container "cookware item", inheritable
mask without `RECIPE`, reference relation without a target kind). -/
def resolve_reference_cw (all : List Cookware) (define_mode : DefineMode)
    (duplicate_mode : DuplicateMode) (new : Cookware)
    (location modifiers_location : Span) :
    Cookware × List SourceDiag × Option (Nat × Bool) :=
  let new_name := strLower new.name
  let same_name := sameNameCw all new_name
  let container := "cookware item"
  if new.modifiers.contains (Modifiers.NEW.or Modifiers.REF) then
    (new, [conflictingModifiersDiag modifiers_location new.modifiers
      "NEW (+) can never be combined with REF (&)" false], none)
  else if new.modifiers.contains Modifiers.NEW then
    let ws :=
      if define_mode != DefineMode.steps then
        if duplicate_mode == DuplicateMode.reference && same_name.isNone then
          [redundantModifierDiag modifiers_location define_mode duplicate_mode
            "new (+)" ("There are no " ++ container ++ "s with the same name before")]
        else if duplicate_mode == DuplicateMode.new then
          [redundantModifierDiag modifiers_location define_mode duplicate_mode
            "new (+)" ("This " ++ container ++ " is already a definition")]
        else []
      else []
    (new, ws, none)
  else
    let redundantRef :=
      if (duplicate_mode == DuplicateMode.reference ||
          define_mode == DefineMode.steps) && new.modifiers.contains Modifiers.REF then
        [redundantModifierDiag modifiers_location define_mode duplicate_mode
          "reference (&)" ("This " ++ container ++ " is already a reference")]
      else []
    let treat_as_reference := new.modifiers.contains Modifiers.REF ||
      define_mode == DefineMode.steps ||
      (duplicate_mode == DuplicateMode.reference && same_name.isSome)
    if !treat_as_reference then (new, redundantRef, none)
    else
      let implicit := !new.modifiers.contains Modifiers.REF
      match same_name with
      | some references_to =>
        match all.get? references_to with
        | none => (new, redundantRef, none)
        | some referenced =>
          let inherited := referenced.modifiers.and Cookware.inherit_modifiers
          let conflict := (new.modifiers.and inherited.not).and Modifiers.REF.not
          let upd := { new with modifiers := (new.modifiers.or inherited).or Modifiers.REF }
          let upd := upd.set_reference references_to
          let conflictDiags :=
            if !conflict.is_empty then
              [conflictingModifiersDiag modifiers_location conflict
                (conflictHelp conflict implicit) implicit]
            else []
          (upd, redundantRef ++ conflictDiags, some (references_to, implicit))
      | none =>
        (new, redundantRef ++ [referenceNotFoundDiag location new.name container implicit],
          none)

/-- Span of an AST quantity's unit when present, else of the whole
quantity (`unit.as_ref().map(span).unwrap_or(span)`, lines 417-421 and
423-427). -/
def quantityUnitOrSelfSpan (q : Located QuantityAst) : Span :=
  match q.val.unit with
  | some l => l.span
  | none => q.span

/-- The label pair of the incompatible-units warning (lines 429-447):
first the label on the new quantity, then the one on the old. -/
def incompatLabels (newSpan oldSpan : Span) (e : IncompatibleUnits) : Label × Label :=
  match e with
  | .missingUnit true =>
    (⟨newSpan, some "this is missing a unit"⟩, ⟨oldSpan, some "matching this one"⟩)
  | .missingUnit false =>
    (⟨newSpan, some "matching this one"⟩, ⟨oldSpan, some "this is missing a unit"⟩)
  | .differentPhysicalQuantities a b =>
    (⟨newSpan, some b.display⟩, ⟨oldSpan, some a.display⟩)
  | .unknownDifferentUnits =>
    (⟨newSpan, some "differs from this"⟩, ⟨oldSpan, some "this unit"⟩)

/-- The incompatible-units warning (lines 449-456). -/
def incompatUnitsWarning (newSpan oldSpan : Span) (e : IncompatibleUnits) : SourceDiag :=
  let ls := incompatLabels newSpan oldSpan e
  (mkWarning "Incompatible units prevent calculating total amount" ls.1).label ls.2

/-- The advanced-units aggregate check of `ingredient` (lines 403-460): for
every quantity already stored on the definition or one of its references,
ask the converter whether it is compatible with the new reference's
quantity and collect a warning for each incompatibility, in table order. -/
def advancedUnitsWarnings (col : RecipeCollector) (located_ingredient : Located AstIngredient)
    (references_to : Nat) (definition : Ingredient)
    (new_quantity : Quantity ScalableValue) : List SourceDiag :=
  let idxs := references_to :: definition.relation.referenced_from
  let all_quantities := idxs.filterMap (fun index =>
    (col.content.ingredients.get? index).bind (fun c =>
      c.quantity.map (fun q => (index, q))))
  all_quantities.filterMap (fun iq =>
    (col.env.compatibleUnit iq.2 new_quantity).map (fun e =>
      let old_span :=
        match col.locations.ingredients.get? iq.1 with
        | some loc =>
          match loc.val.quantity with
          | some oq => quantityUnitOrSelfSpan oq
          | none => Span.dummy
        | none => Span.dummy
      let new_span :=
        match located_ingredient.val.quantity with
        | some nq => quantityUnitOrSelfSpan nq
        | none => Span.dummy
      incompatUnitsWarning new_span old_span e))

/-- The recipe-link warning of `ingredient` (lines 518-535), emitted when
the component has `RECIPE` but not `REF` and a checker is configured and
reports the recipe missing. -/
def recipeRefWarnDiags (col : RecipeCollector) (new_igr : Ingredient)
    (location : Span) : List SourceDiag :=
  if new_igr.modifiers.contains Modifiers.RECIPE &&
      !(new_igr.modifiers.contains Modifiers.REF) then
    match col.env.recipeRefChecker with
    | some checker =>
      match checker new_igr.name with
      | .notFound hints =>
        [hints.foldl SourceDiag.add_hint
          (mkWarning ("Referenced recipe not found: " ++ new_igr.name) ⟨location, none⟩)]
      | .found => []
    | none => []
  else []

/-- The shared tail of `ingredient` (lines 518-539): the recipe-link check,
the pushes into the location and component tables and the returned index of
the just-pushed entry. -/
def RecipeCollector.finishIngredient (col : RecipeCollector) (new_igr : Ingredient)
    (located_ingredient : Located AstIngredient) (location : Span) :
    Nat × RecipeCollector :=
  let col := { col with ctx := col.ctx ++ recipeRefWarnDiags col new_igr location }
  let col := { col with
    locations := { col.locations with
      ingredients := col.locations.ingredients ++ [located_ingredient] },
    content := { col.content with
      ingredients := col.content.ingredients ++ [new_igr] } }
  (col.content.ingredients.length - 1, col)

/-- The reference-specific checks of `ingredient` (lines 399-513), emitted
between a successful resolution and the back-reference backfill: the
advanced-units aggregate warnings, the note-in-reference error, the
conflicting-reference-quantity error and the text-value warning, in source
order.  The two table lookups cannot fail (the resolver returns an
in-bounds index and the location table has one entry per component). -/
def ingredientRefChecks (col : RecipeCollector) (located_ingredient : Located AstIngredient)
    (new_igr : Ingredient) (references_to : Nat) (implicit : Bool) : List SourceDiag :=
  match col.content.ingredients.get? references_to,
      col.locations.ingredients.get? references_to with
  | some definition, some definition_location =>
    let dsAU :=
      if col.extensions.advanced_units then
        match new_igr.quantity with
        | some new_quantity =>
          advancedUnitsWarnings col located_ingredient references_to definition new_quantity
        | none => []
      else []
    let dsNote :=
      match located_ingredient.val.note with
      | some note => [note_reference_error note.span implicit]
      | none => []
    let dsConf :=
      if definition.quantity.isSome && new_igr.quantity.isSome &&
          !(definition.relation.is_defined_in_step.getD false) then
        [conflicting_reference_quantity_error
          ((located_ingredient.val.quantity.map Located.span).getD Span.dummy)
          definition_location.span implicit]
      else []
    let dsText :=
      match new_igr.quantity, definition.quantity with
      | some ref_q, some def_q =>
        let ref_is_text := ref_q.value.is_text
        let def_is_text := def_q.value.is_text
        if ref_is_text != def_is_text then
          let ref_q_loc :=
            ((located_ingredient.val.quantity.map Located.span).getD Span.dummy)
          let def_q_loc :=
            ((definition_location.val.quantity.map Located.span).getD Span.dummy)
          let spans := if ref_is_text then (ref_q_loc, def_q_loc) else (def_q_loc, ref_q_loc)
          [text_val_in_ref_warn spans.1 spans.2 implicit]
        else []
      | _, _ => []
    dsAU ++ dsNote ++ dsConf ++ dsText
  | _, _ => []

/-- The back-reference backfill on the ingredient table
(`Ingredient::set_referenced_from(&mut self.content.ingredients, ...)`,
line 515). -/
def RecipeCollector.backfillIngredient (col : RecipeCollector) (references_to : Nat) :
    RecipeCollector :=
  { col with content := { col.content with
    ingredients := Ingredient.set_referenced_from col.content.ingredients references_to } }

/-- The construction of the fresh `Ingredient` at the top of `ingredient`
(lines 361-373), together with the diagnostics emitted while lowering its
quantity. -/
def buildIngredient (col : RecipeCollector) (ing : AstIngredient) :
    Ingredient × List SourceDiag :=
  let qds : Option (Quantity ScalableValue) × List SourceDiag :=
    match ing.quantity with
    | some q =>
      let r := col.quantityFn q true
      (some r.1, r.2)
    | none => (none, [])
  ({ name := ing.name.text_trimmed,
     aliasName := ing.aliasName.map SpannedText.text_trimmed,
     quantity := qds.1,
     note := ing.note.map SpannedText.text_trimmed,
     modifiers := ing.modifiers.val,
     relation := .definition [] (col.define_mode != DefineMode.components) }, qds.2)

/-- `RecipeCollector::ingredient` (lines 357-540): lower the AST
ingredient, resolve its relation (intermediate reference or generic
reference resolution), run the reference-specific checks, backfill the
target's back-references, run the recipe-link check and push the new entry,
returning its index. -/
def RecipeCollector.ingredientFn (col : RecipeCollector)
    (ingredient : Located AstIngredient) : Nat × RecipeCollector :=
  let located_ingredient := ingredient
  let ing := ingredient.val
  let location := ingredient.span
  let bi := buildIngredient col ing
  let new_igr := bi.1
  let col := { col with ctx := col.ctx ++ bi.2 }
  match ing.intermediate_data with
  | some inter_data =>
    -- The source asserts `new_igr.modifiers().contains(REF)` here (a parser
    -- invariant); the loop-level theorems carry it as a stream hypothesis.
    let invalid_modifiers := (Modifiers.RECIPE.or Modifiers.HIDDEN).or Modifiers.NEW
    let dsMod :=
      if new_igr.modifiers.intersects invalid_modifiers then
        [(mkError "Conflicting modifiers with intermediate preparation reference"
          ⟨ing.modifiers.span, none⟩).hint
          ("Remove the following modifiers: " ++
            (new_igr.modifiers.and invalid_modifiers).display)]
      else []
    match col.resolve_intermediate_ref inter_data with
    | .ok relation =>
      ({ col with ctx := col.ctx ++ dsMod }).finishIngredient
        { new_igr with relation := relation } located_ingredient location
    | .error e =>
      ({ col with ctx := col.ctx ++ dsMod ++ [e] }).finishIngredient new_igr
        located_ingredient location
  | none =>
    let rr := resolve_reference_ing col.content.ingredients col.define_mode
      col.duplicate_mode new_igr location ing.modifiers.span
    match rr.2.2 with
    | some ri =>
      let dsChecks := ingredientRefChecks col located_ingredient rr.1 ri.1 ri.2
      let col := { col with ctx := col.ctx ++ rr.2.1 ++ dsChecks }
      let col := col.backfillIngredient ri.1
      col.finishIngredient rr.1 located_ingredient location
    | none =>
      ({ col with ctx := col.ctx ++ rr.2.1 }).finishIngredient rr.1 located_ingredient
        location

/-- The reference-specific checks of `cookware` (lines 699-741): the
note-in-reference error, the conflicting-reference-quantity error and the
text-value warning, in source order. -/
def cookwareRefChecks (col : RecipeCollector) (located_cookware : Located AstCookware)
    (new_cw : Cookware) (references_to : Nat) (implicit : Bool) : List SourceDiag :=
  match col.content.cookware.get? references_to,
      col.locations.cookware.get? references_to with
  | some definition, some definition_location =>
    let dsNote :=
      match located_cookware.val.note with
      | some note => [note_reference_error note.span implicit]
      | none => []
    let dsConf :=
      if definition.quantity.isSome && new_cw.quantity.isSome &&
          !(definition.relation.is_defined_in_step.getD false) then
        [conflicting_reference_quantity_error
          ((located_cookware.val.quantity.map Located.span).getD Span.dummy)
          definition_location.span implicit]
      else []
    let dsText :=
      match new_cw.quantity, definition.quantity with
      | some ref_q, some def_q =>
        let ref_is_text := ref_q.is_text
        let def_is_text := def_q.is_text
        if ref_is_text != def_is_text then
          let ref_q_loc :=
            ((located_cookware.val.quantity.map Located.span).getD Span.dummy)
          let def_q_loc :=
            ((definition_location.val.quantity.map Located.span).getD Span.dummy)
          let spans := if ref_is_text then (ref_q_loc, def_q_loc) else (def_q_loc, ref_q_loc)
          [text_val_in_ref_warn spans.1 spans.2 implicit]
        else []
      | _, _ => []
    dsNote ++ dsConf ++ dsText
  | _, _ => []

/-- The back-reference backfill on the cookware table (line 743). -/
def RecipeCollector.backfillCookware (col : RecipeCollector) (references_to : Nat) :
    RecipeCollector :=
  { col with content := { col.content with
    cookware := Cookware.set_referenced_from col.content.cookware references_to } }

/-- The pushes at the end of `cookware` (lines 746-748). -/
def RecipeCollector.finishCookware (col : RecipeCollector) (new_cw : Cookware)
    (located_cookware : Located AstCookware) : Nat × RecipeCollector :=
  let col := { col with
    locations := { col.locations with
      cookware := col.locations.cookware ++ [located_cookware] },
    content := { col.content with cookware := col.content.cookware ++ [new_cw] } }
  (col.content.cookware.length - 1, col)

/-- The construction of the fresh `Cookware` at the top of `cookware`
(lines 680-690), together with the diagnostics emitted while lowering its
quantity value. -/
def buildCookware (col : RecipeCollector) (cw : AstCookware) :
    Cookware × List SourceDiag :=
  let qds : Option ScalableValue × List SourceDiag :=
    match cw.quantity with
    | some q =>
      let r := col.valueFn q.val false
      (some r.1, r.2)
    | none => (none, [])
  ({ name := cw.name.text_trimmed,
     aliasName := cw.aliasName.map SpannedText.text_trimmed,
     quantity := qds.1,
     note := cw.note.map SpannedText.text_trimmed,
     modifiers := cw.modifiers.val,
     relation := .definition [] (col.define_mode != DefineMode.components) }, qds.2)

/-- `RecipeCollector::cookware` (lines 676-749). -/
def RecipeCollector.cookwareFn (col : RecipeCollector)
    (cookware : Located AstCookware) : Nat × RecipeCollector :=
  let located_cookware := cookware
  let cw := cookware.val
  let location := cookware.span
  let bc := buildCookware col cw
  let new_cw := bc.1
  let col := { col with ctx := col.ctx ++ bc.2 }
  let rr := resolve_reference_cw col.content.cookware col.define_mode
    col.duplicate_mode new_cw location cw.modifiers.span
  match rr.2.2 with
  | some ri =>
    let dsChecks := cookwareRefChecks col located_cookware rr.1 ri.1 ri.2
    let col := { col with ctx := col.ctx ++ rr.2.1 ++ dsChecks }
    let col := col.backfillCookware ri.1
    col.finishCookware rr.1 located_cookware
  | none =>
    ({ col with ctx := col.ctx ++ rr.2.1 }).finishCookware rr.1 located_cookware

/-- The advanced-units checks of `timer` (lines 756-787): the text-value
error and the unit lookup errors, in source order. -/
def timerAdvancedDiags (col : RecipeCollector) (located_timer : Located AstTimer)
    (q : Located QuantityAst) (quantity : Quantity ScalableValue) : List SourceDiag :=
  if col.extensions.advanced_units then
    let dsText :=
      if quantity.value.is_text then
        [(mkError ("Timer value is text: " ++ quantity.value.display)
          ⟨q.val.value.span, some "this should be numeric"⟩).hint
          "A timer duration cannot be text"]
      else []
    let dsUnit :=
      match quantity.unit with
      | some unit =>
        let unit_span :=
          ((located_timer.val.quantity.bind (fun lq => lq.val.unit.map SpannedText.span)).getD
            Span.dummy)
        match col.env.unitInfo unit with
        | .known pq =>
          if pq != PhysicalQuantity.time then
            [mkError ("Timer unit is not time: " ++ unit)
              ⟨unit_span, some ("expected time, not " ++ pq.display)⟩]
          else []
        | .unknown =>
          [mkError ("Unknown timer unit: " ++ unit) ⟨unit_span, some "expected time unit"⟩]
      | none => []
    dsText ++ dsUnit
  else []

/-- `RecipeCollector::timer` (lines 751-799). -/
def RecipeCollector.timerFn (col : RecipeCollector) (timer : Located AstTimer) :
    Nat × RecipeCollector :=
  let located_timer := timer
  let t := timer.val
  let qds : Option (Quantity ScalableValue) × List SourceDiag :=
    match t.quantity with
    | some q =>
      let r := col.quantityFn q false
      (some r.1, r.2 ++ timerAdvancedDiags col located_timer q r.1)
    | none => (none, [])
  let new_timer : Timer := {
    name := t.name.map SpannedText.text_trimmed,
    quantity := qds.1 }
  let col := { col with
    ctx := col.ctx ++ qds.2,
    content := { col.content with timers := col.content.timers ++ [new_timer] } }
  (col.content.timers.length - 1, col)

/-- The temperature-extraction loop inside `step` (lines 275-296):
repeatedly split the text run around the next regex match, pushing the
prefix as a text item and the matched quantity as an inline-quantity item.
The regex is abstracted to its find function; the fuel argument bounds the
iteration count (the caller passes `text.length + 1`, enough because the
real regex consumes at least one character per match). -/
def tempExtractLoop (find : String → Option (String × Quantity Value × String)) :
    Nat → String → List Item → List (Quantity Value) → List Item × List (Quantity Value)
  | 0, haystack, items, iq =>
    (items ++ (if strIsEmpty haystack then [] else [Item.text haystack]), iq)
  | fuel + 1, haystack, items, iq =>
    match find haystack with
    | some r =>
      let before := r.1
      let temperature := r.2.1
      let after := r.2.2
      let items := items ++ (if strIsEmpty before then [] else [Item.text before])
      let items := items ++ [Item.inlineQuantity iq.length]
      tempExtractLoop find fuel after items (iq ++ [temperature])
    | none =>
      (items ++ (if strIsEmpty haystack then [] else [Item.text haystack]), iq)

/-- One buffered event of a step build (the body of the `for` loop of
`step`, lines 254-321).  Events that cannot occur in the buffer (the
source panics on them) leave the state unchanged. -/
def RecipeCollector.stepItem (acc : List Item × RecipeCollector) (item : Event) :
    List Item × RecipeCollector :=
  let new_items := acc.1
  let col := acc.2
  match item with
  | .textEv text =>
    let t := text.text
    if col.define_mode == DefineMode.components then
      -- only issue warnings for alphanumeric characters
      if strAnyAlphanum t then
        (new_items, { col with ctx := (col.ctx.warn
          (mkWarning "Ignoring text in define components mode" ⟨text.span, none⟩)) })
      else (new_items, col)
    else
      match col.temperature_regex with
      | some re =>
        let r := tempExtractLoop re (t.length + 1) t new_items col.content.inline_quantities
        (r.1, { col with content := { col.content with inline_quantities := r.2 } })
      | none => (new_items ++ [Item.text t], col)
  | .ingredientEv i =>
    let r := col.ingredientFn i
    (new_items ++ [Item.ingredientIdx r.1], r.2)
  | .cookwareEv c =>
    let r := col.cookwareFn c
    (new_items ++ [Item.cookwareIdx r.1], r.2)
  | .timerEv tm =>
    let r := col.timerFn tm
    (new_items ++ [Item.timerIdx r.1], r.2)
  | _ => (new_items, col)

/-- `RecipeCollector::step` (lines 251-327). -/
def RecipeCollector.stepFn (col : RecipeCollector) (items : List Event) :
    Step × RecipeCollector :=
  let r := items.foldl RecipeCollector.stepItem ([], col)
  ({ items := r.1, number := r.2.step_counter }, r.2)

/-- `RecipeCollector::text_block` (lines 329-355): concatenate the text
runs; components inside a text block are ignored with a warning (the
source asserts `col.define_mode == Text` there, a parser invariant). -/
def RecipeCollector.text_block (col : RecipeCollector) (items : List Event) :
    String × RecipeCollector :=
  items.foldl (fun acc ev =>
    match ev with
    | .textEv t => (acc.1 ++ t.text, acc.2)
    | .ingredientEv i =>
      (acc.1, { acc.2 with ctx := (acc.2.ctx.warn
        (mkWarning "Ignoring ingredient in text mode" ⟨i.span, none⟩)) })
    | .cookwareEv c =>
      (acc.1, { acc.2 with ctx := (acc.2.ctx.warn
        (mkWarning "Ignoring cookware in text mode" ⟨c.span, none⟩)) })
    | .timerEv t =>
      (acc.1, { acc.2 with ctx := (acc.2.ctx.warn
        (mkWarning "Ignoring timer in text mode" ⟨t.span, none⟩)) })
    | _ => acc) ("", col)

/-- The drain after a parser error (lines 156-159): push the diagnostics of
all remaining `Error`/`Warning` events, ignore everything else. -/
def drainParseDiags (ctx : SourceReport) : List Event → SourceReport
  | [] => ctx
  | e :: rest =>
    match e with
    | .errorEv d => drainParseDiags (ctx.push d) rest
    | .warningEv d => drainParseDiags (ctx.push d) rest
    | _ => drainParseDiags ctx rest

/-- The main event loop of `RecipeCollector::parse_events`
(lines 111-172): `items` is the buffered item-event list of the block
being assembled. -/
def RecipeCollector.loopGo (col : RecipeCollector) (items : List Event) :
    List Event → Option ScalableRecipe × SourceReport
  | [] =>
    let col :=
      if !col.current_section.is_empty then
        { col with content := { col.content with
          sections := col.content.sections ++ [col.current_section] } }
      else col
    (some col.content, col.ctx)
  | e :: rest =>
    match e with
    | .metadataEv key value => (col.metadataFn key value).loopGo items rest
    | .sectionEv name =>
      let col := { col with step_counter := 1 }
      let col :=
        if !col.current_section.is_empty then
          { col with content := { col.content with
            sections := col.content.sections ++ [col.current_section] } }
        else col
      let col := { col with
        current_section := Section.mk' (name.map SpannedText.text_trimmed) }
      col.loopGo items rest
    | .startEv _ => col.loopGo [] rest
    | .endEv kind =>
      let r :=
        if col.define_mode == DefineMode.text then
          let tb := col.text_block items
          (Content.text tb.1, tb.2)
        else
          match kind with
          | .step =>
            let st := col.stepFn items
            (Content.step st.1, st.2)
          | .text =>
            let tb := col.text_block items
            (Content.text tb.1, tb.2)
      let new_content := r.1
      let col := r.2
      let col :=
        if col.define_mode != DefineMode.components || new_content.is_text then
          let col :=
            if new_content.is_step then { col with step_counter := col.step_counter + 1 }
            else col
          { col with current_section := { col.current_section with
            content := col.current_section.content ++ [new_content] } }
        else col
      col.loopGo [] rest
    | .textEv _ => col.loopGo (items ++ [e]) rest
    | .ingredientEv _ => col.loopGo (items ++ [e]) rest
    | .cookwareEv _ => col.loopGo (items ++ [e]) rest
    | .timerEv _ => col.loopGo (items ++ [e]) rest
    | .errorEv d =>
      -- on a parser error, collect all other parser errors and warnings,
      -- discard non-parser diagnostics and return no output
      let ctx := col.ctx.error d
      let ctx := drainParseDiags ctx rest
      (none, ctx.retain (fun d => d.stage == Stage.parse))
    | .warningEv w => { col with ctx := col.ctx.warn w }.loopGo items rest

/-- The empty recipe the collector starts from (lines 61-69). -/
def emptyRecipe : ScalableRecipe :=
  { metadata := { map := [], servings := none }, sections := [], ingredients := [],
    cookware := [], timers := [], inline_quantities := [] }

/-- `parse_events` (lines 29-81): build the initial collector (including
the temperature-regex setup and its failure warning) and run the loop. -/
def parse_events (env : AnalysisEnv) (extensions : Extensions) (events : List Event) :
    Option ScalableRecipe × SourceReport :=
  let ctx : SourceReport := []
  let tr : Option (String → Option (String × Quantity Value × String)) × SourceReport :=
    if extensions.temperature then
      match env.temperatureRegexFn with
      | some re => (some re, ctx)
      | none =>
        (none, ctx.warn (SourceDiag.unlabeled
          "An error ocurred searching temperature values" .error .analysis))
    else (none, ctx)
  let col : RecipeCollector := {
    extensions := extensions,
    temperature_regex := tr.1,
    env := env,
    content := emptyRecipe,
    current_section := Section.default,
    define_mode := .all,
    duplicate_mode := .new,
    auto_scale_ingredients := false,
    ctx := tr.2,
    locations := { ingredients := [], cookware := [], metadata := [] },
    step_counter := 1 }
  col.loopGo [] events

/-! ## Specification-side notions and basic lemmas -/

/-- The indices of the elements satisfying `p`, counting from `k`. -/
def idxWhereFrom {α : Type} (p : α → Bool) (k : Nat) : List α → List Nat
  | [] => []
  | c :: cs => (if p c then [k] else []) ++ idxWhereFrom p (k + 1) cs

/-- The indices of the elements satisfying `p`, in increasing order. -/
def idxWhere {α : Type} (p : α → Bool) (t : List α) : List Nat :=
  idxWhereFrom p 0 t

/-- Whether an ingredient is a component reference to table index `j`. -/
def Ingredient.refsTo (c : Ingredient) (j : Nat) : Bool :=
  match c.relation with
  | .reference k .ingredient => k == j
  | _ => false

/-- Whether a cookware item is a reference to table index `j`. -/
def Cookware.refsTo (c : Cookware) (j : Nat) : Bool :=
  match c.relation with
  | .reference k => k == j
  | _ => false

/-- The step numbers of the steps of a section's content, in order. -/
def stepNumbers (content : List Content) : List Nat :=
  content.filterMap (fun c =>
    match c with
    | .step s => some s.number
    | .text _ => none)

/-- The list `[1, 2, …, n]`. -/
def range1 (n : Nat) : List Nat :=
  (List.range n).map (· + 1)

theorem rposition_eq_none {α : Type} {p : α → Bool} {l : List α}
    (h : rposition p l = none) : ∀ a ∈ l, p a = false := by
  induction l with
  | nil => simp
  | cons x xs ih =>
    rw [rposition] at h
    cases hx : rposition p xs with
    | some m => rw [hx] at h; simp at h
    | none =>
      rw [hx] at h
      intro a ha
      rcases List.mem_cons.mp ha with rfl | ha'
      · by_cases hp : p a = true
        · simp [hp] at h
        · simpa using hp
      · exact ih hx a ha'

theorem rposition_eq_some {α : Type} {p : α → Bool} {l : List α} {i : Nat}
    (h : rposition p l = some i) :
    ∃ a, l.get? i = some a ∧ p a = true ∧
      ∀ k a', i < k → l.get? k = some a' → p a' = false := by
  induction l generalizing i with
  | nil => simp [rposition] at h
  | cons x xs ih =>
    rw [rposition] at h
    cases hx : rposition p xs with
    | some m =>
      rw [hx] at h
      simp only [Option.some.injEq] at h
      subst h
      obtain ⟨a, ha, hpa, hlast⟩ := ih hx
      refine ⟨a, ?_, hpa, ?_⟩
      · simpa using ha
      · intro k a' hk ha'
        cases k with
        | zero => omega
        | succ k' =>
          simp only [List.get?_cons_succ] at ha'
          exact hlast k' a' (by omega) ha'
    | none =>
      rw [hx] at h
      by_cases hp : p x = true
      · simp only [hp, if_true] at h
        simp only [Option.some.injEq] at h
        subst h
        refine ⟨x, rfl, hp, ?_⟩
        intro k a' hk ha'
        cases k with
        | zero => omega
        | succ k' =>
          simp only [List.get?_cons_succ] at ha'
          exact rposition_eq_none hx a' (List.get?_mem ha')
      · simp only [Bool.not_eq_true] at hp
        simp [hp] at h

theorem rposition_lt_length {α : Type} {p : α → Bool} {l : List α} {i : Nat}
    (h : rposition p l = some i) : i < l.length := by
  obtain ⟨a, ha, -, -⟩ := rposition_eq_some h
  exact List.get?_eq_some.mp ha |>.1

/-! ## Resolver characterization lemmas -/

theorem resolve_ing_newref {all : List Ingredient} {dm : DefineMode} {dupm : DuplicateMode}
    {c : Ingredient} {loc mloc : Span}
    (h : c.modifiers.contains (Modifiers.NEW.or Modifiers.REF) = true) :
    resolve_reference_ing all dm dupm c loc mloc =
      (c, [conflictingModifiersDiag mloc c.modifiers
        "NEW (+) can never be combined with REF (&)" false], none) := by
  simp [resolve_reference_ing, h]

theorem resolve_cw_newref {all : List Cookware} {dm : DefineMode} {dupm : DuplicateMode}
    {c : Cookware} {loc mloc : Span}
    (h : c.modifiers.contains (Modifiers.NEW.or Modifiers.REF) = true) :
    resolve_reference_cw all dm dupm c loc mloc =
      (c, [conflictingModifiersDiag mloc c.modifiers
        "NEW (+) can never be combined with REF (&)" false], none) := by
  simp [resolve_reference_cw, h]

theorem resolve_ing_none_fst {all : List Ingredient} {dm : DefineMode} {dupm : DuplicateMode}
    {c : Ingredient} {loc mloc : Span} {c' : Ingredient} {ds : List SourceDiag}
    (h : resolve_reference_ing all dm dupm c loc mloc = (c', ds, none)) : c' = c := by
  unfold resolve_reference_ing at h
  repeat' (first | (split at h) | (simp only [Prod.mk.injEq] at h))
  all_goals simp_all

theorem resolve_cw_none_fst {all : List Cookware} {dm : DefineMode} {dupm : DuplicateMode}
    {c : Cookware} {loc mloc : Span} {c' : Cookware} {ds : List SourceDiag}
    (h : resolve_reference_cw all dm dupm c loc mloc = (c', ds, none)) : c' = c := by
  unfold resolve_reference_cw at h
  repeat' (first | (split at h) | (simp only [Prod.mk.injEq] at h))
  all_goals simp_all

set_option maxHeartbeats 1000000 in
theorem resolve_ing_some_spec {all : List Ingredient} {dm : DefineMode} {dupm : DuplicateMode}
    {c : Ingredient} {loc mloc : Span}
    {c' : Ingredient} {ds : List SourceDiag} {j : Nat} {imp : Bool}
    (h : resolve_reference_ing all dm dupm c loc mloc = (c', ds, some (j, imp))) :
    sameNameIng all (strLower c.name) = some j ∧
    imp = !(c.modifiers.contains Modifiers.REF) ∧
    ∃ tgt, all.get? j = some tgt ∧
      tgt.modifiers.contains Modifiers.REF = false ∧
      strLower c.name = strLower tgt.name ∧
      c' = { c with
        modifiers := (c.modifiers.or (tgt.modifiers.and Ingredient.inherit_modifiers)).or
          Modifiers.REF,
        relation := .reference j .ingredient } := by
  unfold resolve_reference_ing at h
  cases hsn : sameNameIng all (strLower c.name) with
  | none =>
    simp only [hsn] at h
    repeat' (first | (split at h) | (simp only [Prod.mk.injEq] at h))
    all_goals simp_all
  | some i =>
    obtain ⟨a, ha, hpa, -⟩ := rposition_eq_some hsn
    simp only [hsn] at h
    rw [ha] at h
    simp only [Bool.and_eq_true, Bool.not_eq_true'] at hpa
    repeat' (first | (split at h) | (simp only [Prod.mk.injEq] at h))
    all_goals simp_all
    all_goals (obtain ⟨h1, h2, h3, h4⟩ := h; subst h3; rw [← h1]; rfl)

set_option maxHeartbeats 1000000 in
theorem resolve_cw_some_spec {all : List Cookware} {dm : DefineMode} {dupm : DuplicateMode}
    {c : Cookware} {loc mloc : Span}
    {c' : Cookware} {ds : List SourceDiag} {j : Nat} {imp : Bool}
    (h : resolve_reference_cw all dm dupm c loc mloc = (c', ds, some (j, imp))) :
    sameNameCw all (strLower c.name) = some j ∧
    imp = !(c.modifiers.contains Modifiers.REF) ∧
    ∃ tgt, all.get? j = some tgt ∧
      tgt.modifiers.contains Modifiers.REF = false ∧
      strLower c.name = strLower tgt.name ∧
      c' = { c with
        modifiers := (c.modifiers.or (tgt.modifiers.and Cookware.inherit_modifiers)).or
          Modifiers.REF,
        relation := .reference j } := by
  unfold resolve_reference_cw at h
  cases hsn : sameNameCw all (strLower c.name) with
  | none =>
    simp only [hsn] at h
    repeat' (first | (split at h) | (simp only [Prod.mk.injEq] at h))
    all_goals simp_all
  | some i =>
    obtain ⟨a, ha, hpa, -⟩ := rposition_eq_some hsn
    simp only [hsn] at h
    rw [ha] at h
    simp only [Bool.and_eq_true, Bool.not_eq_true'] at hpa
    repeat' (first | (split at h) | (simp only [Prod.mk.injEq] at h))
    all_goals simp_all
    all_goals (obtain ⟨h1, h2, h3, h4⟩ := h; subst h3; rw [← h1]; rfl)

/-! ## Ingest effect lemmas -/

set_option maxHeartbeats 2000000 in
theorem resolve_inter_ok_target {col : RecipeCollector} {d : Located IntermediateData}
    {rel : IngredientRelation} (h : col.resolve_intermediate_ref d = .ok rel) :
    ∃ k tk, rel = .reference k tk ∧
      (tk = IngredientRefTarget.step ∨ tk = IngredientRefTarget.sectionKind) := by
  unfold RecipeCollector.resolve_intermediate_ref at h
  dsimp only [] at h
  repeat' split at h
  all_goals cases h
  all_goals exact ⟨_, _, rfl, by simp⟩

theorem resolve_intermediate_ref_ctx (col : RecipeCollector) (x : SourceReport)
    (d : Located IntermediateData) :
    RecipeCollector.resolve_intermediate_ref { col with ctx := x } d =
      col.resolve_intermediate_ref d := rfl

theorem finishIngredient_spec (col : RecipeCollector) (igr : Ingredient)
    (l : Located AstIngredient) (loc : Span) :
    col.finishIngredient igr l loc = (col.content.ingredients.length,
      { col with
        ctx := col.ctx ++ recipeRefWarnDiags col igr loc,
        locations := { col.locations with
          ingredients := col.locations.ingredients ++ [l] },
        content := { col.content with
          ingredients := col.content.ingredients ++ [igr] } }) := by
  unfold RecipeCollector.finishIngredient
  simp

theorem set_referenced_from_length (t : List Ingredient) (j : Nat) :
    (Ingredient.set_referenced_from t j).length = t.length := by
  unfold Ingredient.set_referenced_from
  repeat' split
  all_goals simp

theorem buildIngredient_modifiers (col : RecipeCollector) (ing : AstIngredient) :
    (buildIngredient col ing).1.modifiers = ing.modifiers.val := rfl

theorem buildIngredient_relation (col : RecipeCollector) (ing : AstIngredient) :
    (buildIngredient col ing).1.relation =
      .definition [] (col.define_mode != DefineMode.components) := rfl

set_option maxHeartbeats 2000000 in
theorem ingredientFn_shape (col : RecipeCollector) (l : Located AstIngredient) :
    ∃ (ctx' : SourceReport) (tbl : List Ingredient),
      (col.ingredientFn l).2 = { col with
        ctx := ctx',
        content := { col.content with ingredients := tbl },
        locations := { col.locations with
          ingredients := col.locations.ingredients ++ [l] } } ∧
      (col.ingredientFn l).1 = col.content.ingredients.length ∧
      ((l.val.intermediate_data = none ∧
          ∃ igr ds, resolve_reference_ing col.content.ingredients col.define_mode
              col.duplicate_mode (buildIngredient col l.val).1 l.span
              l.val.modifiers.span = (igr, ds, none) ∧
            tbl = col.content.ingredients ++ [igr]) ∨
        (l.val.intermediate_data = none ∧
          ∃ j imp igr ds, resolve_reference_ing col.content.ingredients col.define_mode
              col.duplicate_mode (buildIngredient col l.val).1 l.span
              l.val.modifiers.span = (igr, ds, some (j, imp)) ∧
            tbl = Ingredient.set_referenced_from col.content.ingredients j ++ [igr]) ∨
        (∃ d, l.val.intermediate_data = some d ∧
          ∃ igr, tbl = col.content.ingredients ++ [igr] ∧
            igr.modifiers = l.val.modifiers.val ∧
            (igr.relation = .definition [] (col.define_mode != DefineMode.components) ∨
              ∃ k tk, igr.relation = .reference k tk ∧
                (tk = IngredientRefTarget.step ∨ tk = IngredientRefTarget.sectionKind)))) := by
  unfold RecipeCollector.ingredientFn
  cases hid : l.val.intermediate_data with
  | none =>
    simp only [hid]
    rcases hrr : resolve_reference_ing col.content.ingredients col.define_mode
      col.duplicate_mode (buildIngredient col l.val).1 l.span l.val.modifiers.span
      with ⟨igr, ds, res⟩
    simp only [hrr]
    cases res with
    | none =>
      dsimp only []
      rw [finishIngredient_spec]
      exact ⟨_, _, rfl, by simp, Or.inl ⟨trivial, igr, ds, rfl, rfl⟩⟩
    | some ri =>
      obtain ⟨j, imp⟩ := ri
      dsimp only []
      rw [finishIngredient_spec]
      exact ⟨_, _, rfl, by simp [RecipeCollector.backfillIngredient, set_referenced_from_length],
        Or.inr (Or.inl ⟨trivial, j, imp, igr, ds, rfl, rfl⟩)⟩
  | some d =>
    simp only [hid, resolve_intermediate_ref_ctx]
    cases hok : col.resolve_intermediate_ref d with
    | ok rel =>
      dsimp only []
      rw [finishIngredient_spec]
      obtain ⟨k, tk, rfl, htk⟩ := resolve_inter_ok_target hok
      exact ⟨_, _, rfl, by simp,
        Or.inr (Or.inr ⟨d, rfl, _, rfl, buildIngredient_modifiers col l.val,
          Or.inr ⟨k, tk, rfl, htk⟩⟩)⟩
    | error e =>
      dsimp only []
      rw [finishIngredient_spec]
      exact ⟨_, _, rfl, by simp,
        Or.inr (Or.inr ⟨d, rfl, _, rfl, buildIngredient_modifiers col l.val,
          Or.inl (buildIngredient_relation col l.val)⟩)⟩


theorem finishCookware_spec (col : RecipeCollector) (cwc : Cookware)
    (l : Located AstCookware) :
    col.finishCookware cwc l = (col.content.cookware.length,
      { col with
        locations := { col.locations with
          cookware := col.locations.cookware ++ [l] },
        content := { col.content with
          cookware := col.content.cookware ++ [cwc] } }) := by
  unfold RecipeCollector.finishCookware
  simp

theorem cw_set_referenced_from_length (t : List Cookware) (j : Nat) :
    (Cookware.set_referenced_from t j).length = t.length := by
  unfold Cookware.set_referenced_from
  repeat' split
  all_goals simp

theorem buildCookware_modifiers (col : RecipeCollector) (cw : AstCookware) :
    (buildCookware col cw).1.modifiers = cw.modifiers.val := rfl

theorem buildCookware_relation (col : RecipeCollector) (cw : AstCookware) :
    (buildCookware col cw).1.relation =
      .definition [] (col.define_mode != DefineMode.components) := rfl

set_option maxHeartbeats 2000000 in
theorem cookwareFn_shape (col : RecipeCollector) (l : Located AstCookware) :
    ∃ (ctx' : SourceReport) (tbl : List Cookware),
      (col.cookwareFn l).2 = { col with
        ctx := ctx',
        content := { col.content with cookware := tbl },
        locations := { col.locations with
          cookware := col.locations.cookware ++ [l] } } ∧
      (col.cookwareFn l).1 = col.content.cookware.length ∧
      ((∃ cwc ds, resolve_reference_cw col.content.cookware col.define_mode
            col.duplicate_mode (buildCookware col l.val).1 l.span
            l.val.modifiers.span = (cwc, ds, none) ∧
          tbl = col.content.cookware ++ [cwc]) ∨
        (∃ j imp cwc ds, resolve_reference_cw col.content.cookware col.define_mode
            col.duplicate_mode (buildCookware col l.val).1 l.span
            l.val.modifiers.span = (cwc, ds, some (j, imp)) ∧
          tbl = Cookware.set_referenced_from col.content.cookware j ++ [cwc])) := by
  unfold RecipeCollector.cookwareFn
  rcases hrr : resolve_reference_cw col.content.cookware col.define_mode
    col.duplicate_mode (buildCookware col l.val).1 l.span l.val.modifiers.span
    with ⟨cwc, ds, res⟩
  simp only [hrr]
  cases res with
  | none =>
    dsimp only []
    rw [finishCookware_spec]
    exact ⟨_, _, rfl, by simp, Or.inl ⟨cwc, ds, rfl, rfl⟩⟩
  | some ri =>
    obtain ⟨j, imp⟩ := ri
    dsimp only []
    rw [finishCookware_spec]
    exact ⟨_, _, rfl, by simp [RecipeCollector.backfillCookware, cw_set_referenced_from_length],
      Or.inr ⟨j, imp, cwc, ds, rfl, rfl⟩⟩

theorem timerFn_shape (col : RecipeCollector) (l : Located AstTimer) :
    ∃ (ctx' : SourceReport) (tm : Timer),
      (col.timerFn l).2 = { col with
        ctx := ctx',
        content := { col.content with timers := col.content.timers ++ [tm] } } ∧
      (col.timerFn l).1 = col.content.timers.length := by
  unfold RecipeCollector.timerFn
  cases hq : l.val.quantity with
  | none => exact ⟨_, _, rfl, by simp⟩
  | some q => exact ⟨_, _, rfl, by simp⟩


set_option maxHeartbeats 2000000 in
theorem metadataFn_shape (col : RecipeCollector) (k v : SpannedText) :
    ∃ (ctx' : SourceReport) (md : Metadata)
      (locs : List (String × (SpannedText × SpannedText)))
      (dm : DefineMode) (dupm : DuplicateMode) (asc : Bool),
      col.metadataFn k v = { col with
        ctx := ctx', define_mode := dm, duplicate_mode := dupm,
        auto_scale_ingredients := asc,
        content := { col.content with metadata := md },
        locations := { col.locations with metadata := locs } } := by
  unfold RecipeCollector.metadataFn
  dsimp only []
  repeat' split
  all_goals exact ⟨_, _, _, _, _, _, rfl⟩


/-! ## Structural invariant: item validity, step numbering, sections -/

/-- Validity of one step item with respect to a recipe's tables. -/
def ItemOk (r : ScalableRecipe) : Item → Prop
  | .text _ => True
  | .ingredientIdx i => i < r.ingredients.length
  | .cookwareIdx i => i < r.cookware.length
  | .timerIdx i => i < r.timers.length
  | .inlineQuantity i => i < r.inline_quantities.length

/-- Validity of a content block's item indices. -/
def ContentOk (r : ScalableRecipe) : Content → Prop
  | .step s => ∀ it ∈ s.items, ItemOk r it
  | .text _ => True

/-- The component tables of `b` extend those of `a` in length. -/
def TablesGrow (a b : ScalableRecipe) : Prop :=
  a.ingredients.length ≤ b.ingredients.length ∧
  a.cookware.length ≤ b.cookware.length ∧
  a.timers.length ≤ b.timers.length ∧
  a.inline_quantities.length ≤ b.inline_quantities.length

theorem tablesGrow_refl (a : ScalableRecipe) : TablesGrow a a :=
  ⟨le_refl _, le_refl _, le_refl _, le_refl _⟩

theorem tablesGrow_trans {a b c : ScalableRecipe} (h1 : TablesGrow a b)
    (h2 : TablesGrow b c) : TablesGrow a c :=
  ⟨h1.1.trans h2.1, h1.2.1.trans h2.2.1, h1.2.2.1.trans h2.2.2.1, h1.2.2.2.trans h2.2.2.2⟩

theorem itemOk_mono {a b : ScalableRecipe} (h : TablesGrow a b) {it : Item}
    (hit : ItemOk a it) : ItemOk b it := by
  cases it with
  | text s => trivial
  | ingredientIdx i => exact lt_of_lt_of_le hit h.1
  | cookwareIdx i => exact lt_of_lt_of_le hit h.2.1
  | timerIdx i => exact lt_of_lt_of_le hit h.2.2.1
  | inlineQuantity i => exact lt_of_lt_of_le hit h.2.2.2

theorem contentOk_mono {a b : ScalableRecipe} (h : TablesGrow a b) {c : Content}
    (hc : ContentOk a c) : ContentOk b c := by
  cases c with
  | step s => exact fun it hit => itemOk_mono h (hc it hit)
  | text t => trivial

/-- The collector fields the component-ingest functions never touch. -/
def SameLoop (c c' : RecipeCollector) : Prop :=
  c'.content.sections = c.content.sections ∧
  c'.content.metadata = c.content.metadata ∧
  c'.current_section = c.current_section ∧
  c'.step_counter = c.step_counter ∧
  c'.define_mode = c.define_mode ∧
  c'.duplicate_mode = c.duplicate_mode ∧
  c'.auto_scale_ingredients = c.auto_scale_ingredients ∧
  c'.extensions = c.extensions ∧
  c'.temperature_regex = c.temperature_regex

theorem sameLoop_refl (c : RecipeCollector) : SameLoop c c :=
  ⟨rfl, rfl, rfl, rfl, rfl, rfl, rfl, rfl, rfl⟩

theorem sameLoop_trans {a b c : RecipeCollector} (h1 : SameLoop a b)
    (h2 : SameLoop b c) : SameLoop a c := by
  obtain ⟨a1, a2, a3, a4, a5, a6, a7, a8, a9⟩ := h1
  obtain ⟨b1, b2, b3, b4, b5, b6, b7, b8, b9⟩ := h2
  exact ⟨b1.trans a1, b2.trans a2, b3.trans a3, b4.trans a4, b5.trans a5,
    b6.trans a6, b7.trans a7, b8.trans a8, b9.trans a9⟩

theorem ingredientFn_grow (col : RecipeCollector) (l : Located AstIngredient) :
    SameLoop col (col.ingredientFn l).2 ∧
    TablesGrow col.content (col.ingredientFn l).2.content ∧
    (col.ingredientFn l).1 < (col.ingredientFn l).2.content.ingredients.length := by
  obtain ⟨ctx', tbl, heq, hidx, hcases⟩ := ingredientFn_shape col l
  have hlen : tbl.length = col.content.ingredients.length + 1 := by
    rcases hcases with ⟨-, igr, ds, -, rfl⟩ | ⟨-, j, imp, igr, ds, -, rfl⟩ | ⟨d, -, igr, rfl, -⟩
    · simp
    · simp [set_referenced_from_length]
    · simp
  rw [heq]
  refine ⟨⟨rfl, rfl, rfl, rfl, rfl, rfl, rfl, rfl, rfl⟩, ⟨?_, le_refl _, le_refl _, le_refl _⟩, ?_⟩
  · simp [hlen]
  · rw [hidx]
    simp [hlen]

theorem cookwareFn_grow (col : RecipeCollector) (l : Located AstCookware) :
    SameLoop col (col.cookwareFn l).2 ∧
    TablesGrow col.content (col.cookwareFn l).2.content ∧
    (col.cookwareFn l).1 < (col.cookwareFn l).2.content.cookware.length := by
  obtain ⟨ctx', tbl, heq, hidx, hcases⟩ := cookwareFn_shape col l
  have hlen : tbl.length = col.content.cookware.length + 1 := by
    rcases hcases with ⟨cwc, ds, -, rfl⟩ | ⟨j, imp, cwc, ds, -, rfl⟩
    · simp
    · simp [cw_set_referenced_from_length]
  rw [heq]
  refine ⟨⟨rfl, rfl, rfl, rfl, rfl, rfl, rfl, rfl, rfl⟩, ⟨le_refl _, ?_, le_refl _, le_refl _⟩, ?_⟩
  · simp [hlen]
  · rw [hidx]
    simp [hlen]

theorem timerFn_grow (col : RecipeCollector) (l : Located AstTimer) :
    SameLoop col (col.timerFn l).2 ∧
    TablesGrow col.content (col.timerFn l).2.content ∧
    (col.timerFn l).1 < (col.timerFn l).2.content.timers.length := by
  obtain ⟨ctx', tm, heq, hidx⟩ := timerFn_shape col l
  rw [heq, hidx]
  exact ⟨⟨rfl, rfl, rfl, rfl, rfl, rfl, rfl, rfl, rfl⟩,
    ⟨le_refl _, le_refl _, by simp, le_refl _⟩, by simp⟩

theorem tempExtractLoop_spec (find : String → Option (String × Quantity Value × String))
    (fuel : Nat) (hay : String) (items0 : List Item) (iq0 : List (Quantity Value)) :
    ∃ extra newItems,
      tempExtractLoop find fuel hay items0 iq0 = (items0 ++ newItems, iq0 ++ extra) ∧
      ∀ it ∈ newItems, (∃ s, it = Item.text s) ∨
        (∃ i, it = Item.inlineQuantity i ∧ i < (iq0 ++ extra).length) := by
  induction fuel generalizing hay items0 iq0 with
  | zero =>
    refine ⟨[], if strIsEmpty hay then [] else [Item.text hay], by simp [tempExtractLoop], ?_⟩
    intro it hit
    split at hit
    · simp at hit
    · simp at hit
      exact Or.inl ⟨hay, hit⟩
  | succ n ih =>
    rw [tempExtractLoop]
    cases hf : find hay with
    | none =>
      refine ⟨[], if strIsEmpty hay then [] else [Item.text hay], by simp, ?_⟩
      intro it hit
      split at hit
      · simp at hit
      · simp at hit
        exact Or.inl ⟨hay, hit⟩
    | some r =>
      dsimp only []
      obtain ⟨extra, newItems, heq, hok⟩ := ih r.2.2
        (items0 ++ (if strIsEmpty r.1 then [] else [Item.text r.1]) ++
          [Item.inlineQuantity iq0.length])
        (iq0 ++ [r.2.1])
      refine ⟨[r.2.1] ++ extra,
        (if strIsEmpty r.1 then [] else [Item.text r.1]) ++
          [Item.inlineQuantity iq0.length] ++ newItems, ?_, ?_⟩
      · rw [heq]
        simp [List.append_assoc]
      · intro it hit
        simp only [List.mem_append] at hit
        rcases hit with (hit | hit) | hit
        · split at hit
          · simp at hit
          · simp at hit
            exact Or.inl ⟨r.1, hit⟩
        · simp at hit
          subst hit
          refine Or.inr ⟨iq0.length, rfl, ?_⟩
          simp
        · rcases hok it hit with h | ⟨i, rfl, hi⟩
          · exact Or.inl h
          · refine Or.inr ⟨i, rfl, ?_⟩
            simpa using hi


theorem stepItem_inv (acc : List Item × RecipeCollector) (e : Event)
    (h : ∀ it ∈ acc.1, ItemOk acc.2.content it) :
    SameLoop acc.2 (RecipeCollector.stepItem acc e).2 ∧
    TablesGrow acc.2.content (RecipeCollector.stepItem acc e).2.content ∧
    ∀ it ∈ (RecipeCollector.stepItem acc e).1,
      ItemOk (RecipeCollector.stepItem acc e).2.content it := by
  cases e with
  | textEv t =>
    unfold RecipeCollector.stepItem
    dsimp only []
    by_cases hdm : (acc.2.define_mode == DefineMode.components) = true
    · rw [if_pos hdm]
      split
      · exact ⟨sameLoop_refl _, tablesGrow_refl _, h⟩
      · exact ⟨sameLoop_refl _, tablesGrow_refl _, h⟩
    · rw [if_neg hdm]
      cases hre : acc.2.temperature_regex with
      | none =>
        dsimp only []
        refine ⟨sameLoop_refl _, tablesGrow_refl _, ?_⟩
        intro it hit
        rcases List.mem_append.mp hit with hit | hit
        · exact h it hit
        · simp at hit
          subst hit
          trivial
      | some re =>
        dsimp only []
        obtain ⟨extra, newItems, heq, hok⟩ :=
          tempExtractLoop_spec re (t.text.length + 1) t.text acc.1
            acc.2.content.inline_quantities
        rw [heq]
        refine ⟨⟨rfl, rfl, rfl, rfl, rfl, rfl, rfl, rfl, hre.symm⟩,
          ⟨by simp, by simp, by simp, by simp⟩, ?_⟩
        intro it hit
        rcases List.mem_append.mp hit with hit | hit
        · exact itemOk_mono ⟨by simp, by simp, by simp, by simp⟩ (h it hit)
        · rcases hok it hit with ⟨s, rfl⟩ | ⟨i, rfl, hi⟩
          · trivial
          · exact hi
  | ingredientEv l =>
    unfold RecipeCollector.stepItem
    dsimp only []
    obtain ⟨hsame, hgrow, hidx⟩ := ingredientFn_grow acc.2 l
    refine ⟨hsame, hgrow, ?_⟩
    intro it hit
    rcases List.mem_append.mp hit with hit | hit
    · exact itemOk_mono hgrow (h it hit)
    · simp at hit
      subst hit
      exact hidx
  | cookwareEv l =>
    unfold RecipeCollector.stepItem
    dsimp only []
    obtain ⟨hsame, hgrow, hidx⟩ := cookwareFn_grow acc.2 l
    refine ⟨hsame, hgrow, ?_⟩
    intro it hit
    rcases List.mem_append.mp hit with hit | hit
    · exact itemOk_mono hgrow (h it hit)
    · simp at hit
      subst hit
      exact hidx
  | timerEv l =>
    unfold RecipeCollector.stepItem
    dsimp only []
    obtain ⟨hsame, hgrow, hidx⟩ := timerFn_grow acc.2 l
    refine ⟨hsame, hgrow, ?_⟩
    intro it hit
    rcases List.mem_append.mp hit with hit | hit
    · exact itemOk_mono hgrow (h it hit)
    · simp at hit
      subst hit
      exact hidx
  | metadataEv k v => exact ⟨sameLoop_refl _, tablesGrow_refl _, h⟩
  | sectionEv n => exact ⟨sameLoop_refl _, tablesGrow_refl _, h⟩
  | startEv k => exact ⟨sameLoop_refl _, tablesGrow_refl _, h⟩
  | endEv k => exact ⟨sameLoop_refl _, tablesGrow_refl _, h⟩
  | errorEv d => exact ⟨sameLoop_refl _, tablesGrow_refl _, h⟩
  | warningEv d => exact ⟨sameLoop_refl _, tablesGrow_refl _, h⟩

theorem stepFold_inv (items : List Event) (acc : List Item × RecipeCollector)
    (h : ∀ it ∈ acc.1, ItemOk acc.2.content it) :
    SameLoop acc.2 (items.foldl RecipeCollector.stepItem acc).2 ∧
    TablesGrow acc.2.content (items.foldl RecipeCollector.stepItem acc).2.content ∧
    ∀ it ∈ (items.foldl RecipeCollector.stepItem acc).1,
      ItemOk (items.foldl RecipeCollector.stepItem acc).2.content it := by
  induction items generalizing acc with
  | nil => exact ⟨sameLoop_refl _, tablesGrow_refl _, h⟩
  | cons e rest ih =>
    obtain ⟨h1, h2, h3⟩ := stepItem_inv acc e h
    obtain ⟨g1, g2, g3⟩ := ih (RecipeCollector.stepItem acc e) h3
    exact ⟨sameLoop_trans h1 g1, tablesGrow_trans h2 g2, g3⟩

theorem stepFn_spec (col : RecipeCollector) (items : List Event) :
    SameLoop col (col.stepFn items).2 ∧
    TablesGrow col.content (col.stepFn items).2.content ∧
    (col.stepFn items).1.number = col.step_counter ∧
    ∀ it ∈ (col.stepFn items).1.items, ItemOk (col.stepFn items).2.content it := by
  obtain ⟨h1, h2, h3⟩ := stepFold_inv items ([], col) (by simp)
  unfold RecipeCollector.stepFn
  exact ⟨h1, h2, h1.2.2.2.1, h3⟩

theorem text_block_shape (col : RecipeCollector) (items : List Event) :
    ∃ ctx', (col.text_block items).2 = { col with ctx := ctx' } := by
  suffices hgen : ∀ (acc : String × RecipeCollector),
      ∃ ctx', (items.foldl (fun acc ev =>
        match ev with
        | .textEv t => (acc.1 ++ t.text, acc.2)
        | .ingredientEv i =>
          (acc.1, { acc.2 with ctx := (acc.2.ctx.warn
            (mkWarning "Ignoring ingredient in text mode" ⟨i.span, none⟩)) })
        | .cookwareEv c =>
          (acc.1, { acc.2 with ctx := (acc.2.ctx.warn
            (mkWarning "Ignoring cookware in text mode" ⟨c.span, none⟩)) })
        | .timerEv t =>
          (acc.1, { acc.2 with ctx := (acc.2.ctx.warn
            (mkWarning "Ignoring timer in text mode" ⟨t.span, none⟩)) })
        | _ => acc) acc).2 = { acc.2 with ctx := ctx' } by
    exact hgen ("", col)
  induction items with
  | nil => exact fun acc => ⟨acc.2.ctx, rfl⟩
  | cons e rest ih =>
    intro acc
    cases e
    all_goals (dsimp only []; exact ih _)


theorem stepNumbers_append_step (c : List Content) (s : Step) :
    stepNumbers (c ++ [Content.step s]) = stepNumbers c ++ [s.number] := by
  unfold stepNumbers
  rw [List.filterMap_append]
  rfl

theorem stepNumbers_append_text (c : List Content) (t : String) :
    stepNumbers (c ++ [Content.text t]) = stepNumbers c := by
  unfold stepNumbers
  rw [List.filterMap_append]
  simp

theorem range1_length (n : Nat) : (range1 n).length = n := by
  simp [range1]

theorem range1_succ (n : Nat) : range1 (n + 1) = range1 n ++ [n + 1] := by
  simp [range1, List.range_succ]

/-- The structural loop invariant: step numbering, non-empty sections and
item-index validity. -/
structure InvS (col : RecipeCollector) : Prop where
  secNums : ∀ s ∈ col.content.sections,
    stepNumbers s.content = range1 (stepNumbers s.content).length
  curNums : stepNumbers col.current_section.content = range1 (col.step_counter - 1)
  counterPos : 1 ≤ col.step_counter
  secNonEmpty : ∀ s ∈ col.content.sections, s.content ≠ []
  secItems : ∀ s ∈ col.content.sections, ∀ c ∈ s.content, ContentOk col.content c
  curItems : ∀ c ∈ col.current_section.content, ContentOk col.content c

/-- The structural facts claims C5, C6 and C10 assert of a produced
recipe. -/
def OutS (r : ScalableRecipe) : Prop :=
  (∀ s ∈ r.sections, stepNumbers s.content = range1 (stepNumbers s.content).length) ∧
  (∀ s ∈ r.sections, s.content ≠ []) ∧
  (∀ s ∈ r.sections, ∀ c ∈ s.content, ContentOk r c)

theorem TablesGrow.of_eq {a b : ScalableRecipe}
    (h1 : b.ingredients = a.ingredients) (h2 : b.cookware = a.cookware)
    (h3 : b.timers = a.timers) (h4 : b.inline_quantities = a.inline_quantities) :
    TablesGrow a b := by
  refine ⟨?_, ?_, ?_, ?_⟩ <;> simp [h1, h2, h3, h4]

theorem InvS_flush (col : RecipeCollector) (inv : InvS col) :
    OutS { col.content with sections :=
      if col.current_section.is_empty then col.content.sections
      else col.content.sections ++ [col.current_section] } := by
  have hgrow : TablesGrow col.content { col.content with sections :=
      if col.current_section.is_empty then col.content.sections
      else col.content.sections ++ [col.current_section] } :=
    TablesGrow.of_eq rfl rfl rfl rfl
  refine ⟨?_, ?_, ?_⟩ <;> intro s hs
  all_goals (
    rw [Section.is_empty] at hs
    split at hs)
  case _ =>
    exact inv.secNums s hs
  case _ =>
    rcases List.mem_append.mp hs with hs | hs
    · exact inv.secNums s hs
    · simp at hs
      subst hs
      rw [inv.curNums]
      congr 1
      rw [range1_length]
  case _ =>
    exact inv.secNonEmpty s hs
  case _ =>
    rcases List.mem_append.mp hs with hs | hs
    · exact inv.secNonEmpty s hs
    · simp at hs
      subst hs
      rename_i hne
      intro hc
      simp [hc] at hne
  case _ =>
    exact fun c hc => contentOk_mono hgrow (inv.secItems s hs c hc)
  case _ =>
    rcases List.mem_append.mp hs with hs | hs
    · exact fun c hc => contentOk_mono hgrow (inv.secItems s hs c hc)
    · simp at hs
      subst hs
      exact fun c hc => contentOk_mono hgrow (inv.curItems c hc)


theorem InvS.transport {col col' : RecipeCollector} (inv : InvS col)
    (hsec : col'.content.sections = col.content.sections)
    (hcur : col'.current_section = col.current_section)
    (hcnt : col'.step_counter = col.step_counter)
    (hgrow : TablesGrow col.content col'.content) : InvS col' := by
  refine ⟨?_, ?_, ?_, ?_, ?_, ?_⟩
  · rw [hsec]; exact inv.secNums
  · rw [hcur, hcnt]; exact inv.curNums
  · rw [hcnt]; exact inv.counterPos
  · rw [hsec]; exact inv.secNonEmpty
  · rw [hsec]
    exact fun s hs c hc => contentOk_mono hgrow (inv.secItems s hs c hc)
  · rw [hcur]
    exact fun c hc => contentOk_mono hgrow (inv.curItems c hc)

set_option maxHeartbeats 4000000 in
theorem loopGo_outS {col : RecipeCollector} {items evs : List Event}
    {r : ScalableRecipe} {ds : SourceReport}
    (inv : InvS col) (h : col.loopGo items evs = (some r, ds)) : OutS r := by
  induction evs generalizing col items with
  | nil =>
    rw [RecipeCollector.loopGo] at h
    dsimp only [] at h
    have hout := InvS_flush col inv
    split at h
    case isTrue hne =>
      injection h with h1 h2
      injection h1 with h1
      subst h1
      simp only [Bool.not_eq_true'] at hne
      rw [if_neg (by simp [hne])] at hout
      exact hout
    case isFalse hne =>
      injection h with h1 h2
      injection h1 with h1
      subst h1
      simp only [Bool.not_eq_true', Bool.not_eq_false] at hne
      rw [if_pos hne] at hout
      exact hout
  | cons e rest ih =>
    rw [RecipeCollector.loopGo.eq_def] at h
    dsimp only [] at h
    cases e with
    | metadataEv k v =>
      dsimp only [] at h
      obtain ⟨ctx', md, locs, dm, dupm, asc, heq⟩ := metadataFn_shape col k v
      rw [heq] at h
      refine ih ?_ h
      exact InvS.transport inv rfl rfl rfl (TablesGrow.of_eq rfl rfl rfl rfl)
    | sectionEv name =>
      dsimp only [] at h
      by_cases hemp : (!col.current_section.is_empty) = true
      · rw [if_pos hemp] at h
        dsimp only [] at h
        refine ih ?_ h
        simp only [Bool.not_eq_true'] at hemp
        refine ⟨?_, ?_, le_refl 1, ?_, ?_, ?_⟩
        · intro s hs
          rcases List.mem_append.mp hs with hs | hs
          · exact inv.secNums s hs
          · simp at hs
            subst hs
            rw [inv.curNums]
            congr 1
            rw [range1_length]
        · simp [Section.mk', stepNumbers, range1]
        · intro s hs
          rcases List.mem_append.mp hs with hs | hs
          · exact inv.secNonEmpty s hs
          · simp at hs
            subst hs
            intro hc
            simp [Section.is_empty, hc] at hemp
        · intro s hs
          rcases List.mem_append.mp hs with hs | hs
          · exact fun c hc =>
              contentOk_mono (TablesGrow.of_eq rfl rfl rfl rfl) (inv.secItems s hs c hc)
          · simp at hs
            subst hs
            exact fun c hc =>
              contentOk_mono (TablesGrow.of_eq rfl rfl rfl rfl) (inv.curItems c hc)
        · simp [Section.mk']
      · rw [if_neg hemp] at h
        dsimp only [] at h
        refine ih ?_ h
        refine ⟨?_, ?_, le_refl 1, ?_, ?_, ?_⟩
        · exact fun s hs => inv.secNums s hs
        · simp [Section.mk', stepNumbers, range1]
        · exact inv.secNonEmpty
        · exact fun s hs c hc =>
            contentOk_mono (TablesGrow.of_eq rfl rfl rfl rfl) (inv.secItems s hs c hc)
        · simp [Section.mk']
    | startEv kind =>
      dsimp only [] at h
      exact ih inv h
    | endEv kind =>
      dsimp only [] at h
      by_cases hdm : (col.define_mode == DefineMode.text) = true
      · rw [if_pos hdm] at h
        obtain ⟨ctx', htb⟩ := text_block_shape col items
        rw [htb] at h
        dsimp only [Content.is_text, Content.is_step] at h
        rw [if_pos (by simp)] at h
        refine ih ?_ h
        refine ⟨inv.secNums, ?_, inv.counterPos, inv.secNonEmpty, ?_, ?_⟩
        · rw [stepNumbers_append_text]
          exact inv.curNums
        · exact fun s hs c hc =>
            contentOk_mono (TablesGrow.of_eq rfl rfl rfl rfl) (inv.secItems s hs c hc)
        · intro c hc
          rcases List.mem_append.mp hc with hc | hc
          · exact contentOk_mono (TablesGrow.of_eq rfl rfl rfl rfl) (inv.curItems c hc)
          · simp at hc
            subst hc
            trivial
      · rw [if_neg hdm] at h
        cases kind with
        | text =>
          obtain ⟨ctx', htb⟩ := text_block_shape col items
          rw [htb] at h
          dsimp only [Content.is_text, Content.is_step] at h
          rw [if_pos (by simp)] at h
          refine ih ?_ h
          refine ⟨inv.secNums, ?_, inv.counterPos, inv.secNonEmpty, ?_, ?_⟩
          · rw [stepNumbers_append_text]
            exact inv.curNums
          · exact fun s hs c hc =>
              contentOk_mono (TablesGrow.of_eq rfl rfl rfl rfl) (inv.secItems s hs c hc)
          · intro c hc
            rcases List.mem_append.mp hc with hc | hc
            · exact contentOk_mono (TablesGrow.of_eq rfl rfl rfl rfl) (inv.curItems c hc)
            · simp at hc
              subst hc
              trivial
        | step =>
          rcases hst : col.stepFn items with ⟨st, col1⟩
          obtain ⟨hsame, hgrow, hnum, hitems⟩ := stepFn_spec col items
          rw [hst] at h hsame hgrow hnum hitems
          dsimp only [] at h hsame hgrow hnum hitems
          obtain ⟨e1, e2, e3, e4, e5, e6, e7, e8, e9⟩ := hsame
          dsimp only [Content.is_text, Content.is_step] at h
          by_cases hdc : (col1.define_mode != DefineMode.components) = true
          · rw [if_pos (by simp [hdc])] at h
            rw [if_pos rfl] at h
            refine ih ?_ h
            refine ⟨?_, ?_, ?_, ?_, ?_, ?_⟩
            · rw [e1]
              exact fun s hs => inv.secNums s hs
            · dsimp only []
              rw [e3, stepNumbers_append_step, hnum, e4]
              have h1 : 1 ≤ col.step_counter := inv.counterPos
              rw [inv.curNums]
              have : col.step_counter - 1 + 1 = col.step_counter := Nat.succ_pred_eq_of_pos h1
              rw [Nat.add_sub_cancel, ← this, range1_succ, this]
            · dsimp only []
              rw [e4]
              exact inv.counterPos.trans (Nat.le_succ _)
            · rw [e1]
              exact inv.secNonEmpty
            · rw [e1]
              exact fun s hs c hc => contentOk_mono hgrow (inv.secItems s hs c hc)
            · dsimp only []
              rw [e3]
              intro c hc
              rcases List.mem_append.mp hc with hc | hc
              · exact contentOk_mono hgrow (inv.curItems c hc)
              · simp at hc
                subst hc
                exact hitems
          · rw [if_neg (by simpa using hdc)] at h
            refine ih ?_ h
            exact InvS.transport inv e1 e3 e4 hgrow
    | textEv t =>
      dsimp only [] at h
      exact ih inv h
    | ingredientEv l =>
      dsimp only [] at h
      exact ih inv h
    | cookwareEv l =>
      dsimp only [] at h
      exact ih inv h
    | timerEv l =>
      dsimp only [] at h
      exact ih inv h
    | errorEv d =>
      dsimp only [] at h
      cases h
    | warningEv w =>
      dsimp only [] at h
      refine ih ?_ h
      exact InvS.transport inv rfl rfl rfl (TablesGrow.of_eq rfl rfl rfl rfl)


theorem InvS_init (col : RecipeCollector) (h1 : col.content.sections = [])
    (h2 : col.current_section = Section.default) (h3 : col.step_counter = 1) :
    InvS col := by
  refine ⟨?_, ?_, ?_, ?_, ?_, ?_⟩
  · rw [h1]; simp
  · rw [h2, h3]; simp [Section.default, stepNumbers, range1]
  · rw [h3]
  · rw [h1]; simp
  · rw [h1]; simp
  · rw [h2]; simp [Section.default]

theorem parse_events_outS {env : AnalysisEnv} {ext : Extensions} {events : List Event}
    {r : ScalableRecipe} {ds : SourceReport}
    (h : parse_events env ext events = (some r, ds)) : OutS r := by
  unfold parse_events at h
  dsimp only [] at h
  by_cases hext : ext.temperature = true
  · rw [if_pos hext] at h
    cases hre : env.temperatureRegexFn with
    | some re =>
      rw [hre] at h
      dsimp only [] at h
      exact loopGo_outS (InvS_init _ rfl rfl rfl) h
    | none =>
      rw [hre] at h
      dsimp only [] at h
      exact loopGo_outS (InvS_init _ rfl rfl rfl) h
  · rw [if_neg hext] at h
    dsimp only [] at h
    exact loopGo_outS (InvS_init _ rfl rfl rfl) h


/-! ## Test fixtures shared by the witnesses -/

/-- A minimal environment for concrete runs: no temperature regex, all
units compatible, all units unknown, no recipe checker, no servings
parser. -/
def testEnv : AnalysisEnv := {
  temperatureRegexFn := none,
  compatibleUnit := fun _ _ => none,
  unitInfo := fun _ => .unknown,
  recipeRefChecker := none,
  parseServings := fun _ => none }

def testExt : Extensions := ⟨false, false, false⟩

/-- A collector in its initial state over `testEnv`. -/
def testCol : RecipeCollector := {
  extensions := testExt,
  temperature_regex := none,
  env := testEnv,
  content := emptyRecipe,
  current_section := Section.default,
  define_mode := .all,
  duplicate_mode := .new,
  auto_scale_ingredients := false,
  ctx := ([] : List SourceDiag),
  locations := { ingredients := [], cookware := [], metadata := [] },
  step_counter := 1 }

/-- A plain `salt` ingredient event payload. -/
def wSalt : Located AstIngredient :=
  ⟨{ name := ⟨"salt", (0 : Span)⟩, aliasName := none, quantity := none,
     note := none, modifiers := ⟨Modifiers.empty, (1 : Span)⟩,
     intermediate_data := none }, (2 : Span)⟩

/-- A one-step, one-ingredient event stream. -/
def wEvents : List Event := [.startEv .step, .ingredientEv wSalt, .endEv .step]

/-- The recipe `wEvents` produces. -/
def wSection : Section :=
  { name := none,
    content := [Content.step { items := [Item.ingredientIdx 0], number := 1 }] }

def wIngredient : Ingredient :=
  { name := "salt", aliasName := none, quantity := none, note := none,
    modifiers := Modifiers.empty, relation := .definition [] true }

def wRecipe : ScalableRecipe :=
  { metadata := { map := [], servings := none },
    sections := [wSection],
    ingredients := [wIngredient],
    cookware := [], timers := [], inline_quantities := [] }

theorem ingredientFn_index (col : RecipeCollector) (l : Located AstIngredient) :
    (col.ingredientFn l).2.content.ingredients.length =
      col.content.ingredients.length + 1 ∧
    (col.ingredientFn l).1 = col.content.ingredients.length := by
  obtain ⟨ctx', tbl, heq, hidx, hcases⟩ := ingredientFn_shape col l
  have hlen : tbl.length = col.content.ingredients.length + 1 := by
    rcases hcases with ⟨-, igr, ds, -, rfl⟩ | ⟨-, j, imp, igr, ds, -, rfl⟩ | ⟨d, -, igr, rfl, -⟩
    · simp
    · simp [set_referenced_from_length]
    · simp
  rw [heq, hidx]
  exact ⟨hlen, rfl⟩

theorem cookwareFn_index (col : RecipeCollector) (l : Located AstCookware) :
    (col.cookwareFn l).2.content.cookware.length = col.content.cookware.length + 1 ∧
    (col.cookwareFn l).1 = col.content.cookware.length := by
  obtain ⟨ctx', tbl, heq, hidx, hcases⟩ := cookwareFn_shape col l
  have hlen : tbl.length = col.content.cookware.length + 1 := by
    rcases hcases with ⟨cwc, ds, -, rfl⟩ | ⟨j, imp, cwc, ds, -, rfl⟩
    · simp
    · simp [cw_set_referenced_from_length]
  rw [heq, hidx]
  exact ⟨hlen, rfl⟩

theorem timerFn_index (col : RecipeCollector) (l : Located AstTimer) :
    (col.timerFn l).2.content.timers.length = col.content.timers.length + 1 ∧
    (col.timerFn l).1 = col.content.timers.length := by
  obtain ⟨ctx', tm, heq, hidx⟩ := timerFn_shape col l
  rw [heq, hidx]
  exact ⟨by simp, rfl⟩

/-! ## Claim C5 -/

/-- C5: in every produced recipe, the `Step.number` values of the steps of
a single section, in order of appearance, are exactly `1, 2, …, k` — a
strictly increasing sequence starting at 1 that restarts in every section
(`range1 n` is the list `[1, …, n]`). -/
theorem claim_C5_step_numbering (env : AnalysisEnv) (ext : Extensions)
    (events : List Event) (r : ScalableRecipe) (ds : SourceReport)
    (h : parse_events env ext events = (some r, ds)) :
    ∀ s ∈ r.sections, stepNumbers s.content = range1 (stepNumbers s.content).length :=
  (parse_events_outS h).1

theorem claim_C5_witness :
    parse_events testEnv testExt wEvents = (some wRecipe, ([] : List SourceDiag)) ∧
    ∀ s ∈ wRecipe.sections,
      stepNumbers s.content = range1 (stepNumbers s.content).length :=
  ⟨by rfl, claim_C5_step_numbering testEnv testExt wEvents wRecipe [] (by rfl)⟩

/-! ## Claim C6 -/

/-- C6: the sections list of a produced recipe never contains a section
with no content: a section is pushed (at a section boundary or at
end-of-stream) only when it is non-empty. -/
theorem claim_C6_no_empty_section (env : AnalysisEnv) (ext : Extensions)
    (events : List Event) (r : ScalableRecipe) (ds : SourceReport)
    (h : parse_events env ext events = (some r, ds)) :
    ∀ s ∈ r.sections, s.content ≠ [] :=
  (parse_events_outS h).2.1

theorem claim_C6_witness :
    parse_events testEnv testExt wEvents = (some wRecipe, ([] : List SourceDiag)) ∧
    ∀ s ∈ wRecipe.sections, s.content ≠ [] :=
  ⟨by rfl, claim_C6_no_empty_section testEnv testExt wEvents wRecipe [] (by rfl)⟩

/-! ## Claim C10 -/

/-- C10: every component index stored in a produced step's items is valid
(strictly less than the length of the corresponding table), and each
ingest function appends exactly one entry to its table and returns the
index of that just-pushed last entry. -/
theorem claim_C10_item_indices (env : AnalysisEnv) (ext : Extensions)
    (events : List Event) (r : ScalableRecipe) (ds : SourceReport)
    (h : parse_events env ext events = (some r, ds)) :
    (∀ s ∈ r.sections, ∀ c ∈ s.content, ContentOk r c) ∧
    (∀ (col : RecipeCollector) (l : Located AstIngredient),
      (col.ingredientFn l).2.content.ingredients.length =
        col.content.ingredients.length + 1 ∧
      (col.ingredientFn l).1 = col.content.ingredients.length) ∧
    (∀ (col : RecipeCollector) (l : Located AstCookware),
      (col.cookwareFn l).2.content.cookware.length =
        col.content.cookware.length + 1 ∧
      (col.cookwareFn l).1 = col.content.cookware.length) ∧
    (∀ (col : RecipeCollector) (l : Located AstTimer),
      (col.timerFn l).2.content.timers.length = col.content.timers.length + 1 ∧
      (col.timerFn l).1 = col.content.timers.length) :=
  ⟨(parse_events_outS h).2.2, ingredientFn_index, cookwareFn_index, timerFn_index⟩

theorem claim_C10_witness :
    parse_events testEnv testExt wEvents = (some wRecipe, ([] : List SourceDiag)) ∧
    (∀ s ∈ wRecipe.sections, ∀ c ∈ s.content, ContentOk wRecipe c) :=
  ⟨by rfl, (claim_C10_item_indices testEnv testExt wEvents wRecipe [] (by decide)).1⟩


/-! ## Claim C8 -/

/-- The conclusion of claim C8: on a component carrying both `NEW` and
`REF`, both resolvers emit a single "Unsupported modifier combination"
error and return no reference, and the ingredient ingest pushes the
component as a plain definition, leaving every earlier table entry (hence
every `referenced_from` list) unchanged. -/
def C8Conclusion (col : RecipeCollector) (ci : Ingredient) (cc : Cookware)
    (loc mloc : Span) (l : Located AstIngredient) : Prop :=
  (∃ d suffix,
    resolve_reference_ing col.content.ingredients col.define_mode col.duplicate_mode
      ci loc mloc = (ci, [d], none) ∧
    d.severity = .error ∧
    d.message = "Unsupported modifier combination with reference: " ++ suffix) ∧
  (∃ d suffix,
    resolve_reference_cw col.content.cookware col.define_mode col.duplicate_mode
      cc loc mloc = (cc, [d], none) ∧
    d.severity = .error ∧
    d.message = "Unsupported modifier combination with reference: " ++ suffix) ∧
  (∃ igr, ((col.ingredientFn l).2).content.ingredients =
      col.content.ingredients ++ [igr] ∧
    igr.relation = .definition [] (col.define_mode != DefineMode.components))

/-- C8: a component whose modifiers contain both `NEW` and `REF` makes the
resolver emit an "unsupported modifier combination" error and abort
resolution: the component stays a definition, and no `referenced_from`
list of any earlier entry is backfilled. -/
theorem claim_C8_new_ref_conflict (col : RecipeCollector) (ci : Ingredient) (cc : Cookware)
    (loc mloc : Span) (l : Located AstIngredient)
    (hi : ci.modifiers.contains (Modifiers.NEW.or Modifiers.REF) = true)
    (hc : cc.modifiers.contains (Modifiers.NEW.or Modifiers.REF) = true)
    (hl : l.val.modifiers.val = ci.modifiers)
    (hnd : l.val.intermediate_data = none) :
    C8Conclusion col ci cc loc mloc l := by
  refine ⟨⟨_, _, resolve_ing_newref hi, rfl, rfl⟩,
    ⟨_, _, resolve_cw_newref hc, rfl, rfl⟩, ?_⟩
  have hb : (buildIngredient col l.val).1.modifiers.contains
      (Modifiers.NEW.or Modifiers.REF) = true := by
    rw [buildIngredient_modifiers, hl]
    exact hi
  obtain ⟨ctx', tbl, heq, hidx, hcases⟩ := ingredientFn_shape col l
  rw [heq]
  rcases hcases with ⟨-, igr, ds, hrr, rfl⟩ | ⟨-, j, imp, igr, ds, hrr, -⟩ | ⟨d, hd, -⟩
  · have : igr = (buildIngredient col l.val).1 := resolve_ing_none_fst hrr
    subst this
    exact ⟨_, rfl, buildIngredient_relation col l.val⟩
  · rw [resolve_ing_newref hb] at hrr
    simp at hrr
  · rw [hnd] at hd
    cases hd

def c8mods : Modifiers := ⟨true, true, false, false, false⟩

def c8ci : Ingredient :=
  { name := "salt", aliasName := none, quantity := none, note := none,
    modifiers := c8mods, relation := .definition [] true }

def c8cc : Cookware :=
  { name := "pot", aliasName := none, quantity := none, note := none,
    modifiers := c8mods, relation := .definition [] true }

def c8loc : Located AstIngredient :=
  ⟨{ name := ⟨"salt", (0 : Span)⟩, aliasName := none, quantity := none,
     note := none, modifiers := ⟨c8mods, (1 : Span)⟩,
     intermediate_data := none }, (2 : Span)⟩

theorem claim_C8_witness :
    c8ci.modifiers.contains (Modifiers.NEW.or Modifiers.REF) = true ∧
    c8cc.modifiers.contains (Modifiers.NEW.or Modifiers.REF) = true ∧
    c8loc.val.modifiers.val = c8ci.modifiers ∧
    c8loc.val.intermediate_data = none ∧
    C8Conclusion testCol c8ci c8cc (3 : Span) (4 : Span) c8loc :=
  ⟨by decide, by decide, by decide, by decide,
    claim_C8_new_ref_conflict testCol c8ci c8cc (3 : Span) (4 : Span) c8loc
      (by decide) (by decide) (by decide) (by decide)⟩


set_option maxHeartbeats 2000000 in
theorem resolve_ing_some_conflict {all : List Ingredient} {dm : DefineMode}
    {dupm : DuplicateMode} {c : Ingredient} {loc mloc : Span}
    {c' : Ingredient} {ds : List SourceDiag} {j : Nat} {imp : Bool}
    (h : resolve_reference_ing all dm dupm c loc mloc = (c', ds, some (j, imp))) :
    ∃ tgt, all.get? j = some tgt ∧
      (((c.modifiers.and (tgt.modifiers.and Ingredient.inherit_modifiers).not).and
          Modifiers.REF.not).is_empty = false →
        conflictingModifiersDiag mloc
          ((c.modifiers.and (tgt.modifiers.and Ingredient.inherit_modifiers).not).and
            Modifiers.REF.not)
          (conflictHelp
            ((c.modifiers.and (tgt.modifiers.and Ingredient.inherit_modifiers).not).and
              Modifiers.REF.not) imp) imp ∈ ds) ∧
      (((c.modifiers.and (tgt.modifiers.and Ingredient.inherit_modifiers).not).and
          Modifiers.REF.not).is_empty = true →
        ∀ d ∈ ds, d.severity = .warning) := by
  unfold resolve_reference_ing at h
  cases hsn : sameNameIng all (strLower c.name) with
  | none =>
    simp only [hsn] at h
    repeat' (first | (split at h) | (simp only [Prod.mk.injEq] at h))
    all_goals simp_all
  | some i =>
    obtain ⟨a, ha, hpa, -⟩ := rposition_eq_some hsn
    simp only [hsn] at h
    rw [ha] at h
    repeat' (first | (split at h) | (simp only [Prod.mk.injEq] at h))
    all_goals simp_all
    all_goals (
      obtain ⟨h1, h2, h3, h4⟩ := h
      subst h3
      rw [← h2])
    next => simp
    next =>
      intro d hd
      simp only [List.mem_singleton] at hd
      subst hd
      rfl
    next =>
      rw [h4, Bool.not_not]
      simp

set_option maxHeartbeats 2000000 in
theorem resolve_cw_some_conflict {all : List Cookware} {dm : DefineMode}
    {dupm : DuplicateMode} {c : Cookware} {loc mloc : Span}
    {c' : Cookware} {ds : List SourceDiag} {j : Nat} {imp : Bool}
    (h : resolve_reference_cw all dm dupm c loc mloc = (c', ds, some (j, imp))) :
    ∃ tgt, all.get? j = some tgt ∧
      (((c.modifiers.and (tgt.modifiers.and Cookware.inherit_modifiers).not).and
          Modifiers.REF.not).is_empty = false →
        conflictingModifiersDiag mloc
          ((c.modifiers.and (tgt.modifiers.and Cookware.inherit_modifiers).not).and
            Modifiers.REF.not)
          (conflictHelp
            ((c.modifiers.and (tgt.modifiers.and Cookware.inherit_modifiers).not).and
              Modifiers.REF.not) imp) imp ∈ ds) ∧
      (((c.modifiers.and (tgt.modifiers.and Cookware.inherit_modifiers).not).and
          Modifiers.REF.not).is_empty = true →
        ∀ d ∈ ds, d.severity = .warning) := by
  unfold resolve_reference_cw at h
  cases hsn : sameNameCw all (strLower c.name) with
  | none =>
    simp only [hsn] at h
    repeat' (first | (split at h) | (simp only [Prod.mk.injEq] at h))
    all_goals simp_all
  | some i =>
    obtain ⟨a, ha, hpa, -⟩ := rposition_eq_some hsn
    simp only [hsn] at h
    rw [ha] at h
    repeat' (first | (split at h) | (simp only [Prod.mk.injEq] at h))
    all_goals simp_all
    all_goals (
      obtain ⟨h1, h2, h3, h4⟩ := h
      subst h3
      rw [← h2])
    next => simp
    next =>
      intro d hd
      simp only [List.mem_singleton] at hd
      subst hd
      rfl
    next =>
      rw [h4, Bool.not_not]
      simp


/-- Backfill effect of `set_referenced_from` on a definition target: the
entry at `j` gains the about-to-be-pushed index `t.length` at the end of
its `referenced_from` list, and every other entry is untouched. -/
theorem set_referenced_from_get (t : List Ingredient) (j : Nat) {tgt : Ingredient}
    {l : List Nat} {d : Bool}
    (h : t.get? j = some tgt) (hrel : tgt.relation = .definition l d) :
    (Ingredient.set_referenced_from t j).get? j =
      some { tgt with relation := .definition (l ++ [t.length]) d } ∧
    ∀ i, i ≠ j → (Ingredient.set_referenced_from t j).get? i = t.get? i := by
  unfold Ingredient.set_referenced_from
  rw [h]
  dsimp only []
  rw [hrel]
  dsimp only []
  simp only [List.get?_eq_getElem?] at h ⊢
  constructor
  · rw [List.getElem?_set]
    simp
    obtain ⟨hlt, -⟩ := List.getElem?_eq_some.mp h
    exact hlt
  · intro i hi
    rw [List.getElem?_set, if_neg (fun e : j = i => hi e.symm)]

/-- Cookware analog of `set_referenced_from_get`. -/
theorem cw_set_referenced_from_get (t : List Cookware) (j : Nat) {tgt : Cookware}
    {l : List Nat} {d : Bool}
    (h : t.get? j = some tgt) (hrel : tgt.relation = .definition l d) :
    (Cookware.set_referenced_from t j).get? j =
      some { tgt with relation := .definition (l ++ [t.length]) d } ∧
    ∀ i, i ≠ j → (Cookware.set_referenced_from t j).get? i = t.get? i := by
  unfold Cookware.set_referenced_from
  rw [h]
  dsimp only []
  rw [hrel]
  dsimp only []
  simp only [List.get?_eq_getElem?] at h ⊢
  constructor
  · rw [List.getElem?_set]
    simp
    obtain ⟨hlt, -⟩ := List.getElem?_eq_some.mp h
    exact hlt
  · intro i hi
    rw [List.getElem?_set, if_neg (fun e : j = i => hi e.symm)]

/-- The conflicting-modifiers diagnostic is an error regardless of the
implicit flag. -/
theorem conflictingModifiersDiag_severity (mloc : Span) (conflict : Modifiers)
    (help : String) (implicit : Bool) :
    (conflictingModifiersDiag mloc conflict help implicit).severity = .error := by
  unfold conflictingModifiersDiag
  cases implicit <;> rfl

set_option maxHeartbeats 2000000 in
/-- **C4.** When a reference resolves to a target definition (the resolver
returns `some (j, implicit)`), the inheritable mask is
`{HIDDEN, OPT, RECIPE}` for ingredients and `{HIDDEN, OPT}` for cookware;
the inherited bits `target.modifiers AND mask` and `REF` are OR-ed into the
new component's modifiers; the relation becomes a reference to the target
(target kind ingredient resp. cookware); a conflicting-modifiers error over
`conflict = new.modifiers AND NOT inherited AND NOT REF` is emitted exactly
when `conflict` is non-empty; and the ingest functions backfill the
target's `referenced_from` list with the index of the entry about to be
pushed (`set_referenced_from` appends the old table length to a definition
target; the updated table is the backfilled table plus the new entry). -/
theorem claim_C4_reference_inheritance
    {all : List Ingredient} {cws : List Cookware} {dm dm2 : DefineMode}
    {dupm dupm2 : DuplicateMode} {c : Ingredient} {w : Cookware}
    {loc mloc loc2 mloc2 : Span} {c' : Ingredient} {w' : Cookware}
    {ds es : List SourceDiag} {j k : Nat} {imp imp2 : Bool}
    (hi : resolve_reference_ing all dm dupm c loc mloc = (c', ds, some (j, imp)))
    (hw : resolve_reference_cw cws dm2 dupm2 w loc2 mloc2 = (w', es, some (k, imp2))) :
    Ingredient.inherit_modifiers =
      { ref := false, new := false, recipe := true, hidden := true, opt := true } ∧
    Cookware.inherit_modifiers =
      { ref := false, new := false, recipe := false, hidden := true, opt := true } ∧
    (∃ tgt, all.get? j = some tgt ∧
      c'.modifiers = (c.modifiers.or (tgt.modifiers.and Ingredient.inherit_modifiers)).or
        Modifiers.REF ∧
      c'.relation = .reference j .ingredient ∧
      (((c.modifiers.and (tgt.modifiers.and Ingredient.inherit_modifiers).not).and
          Modifiers.REF.not).is_empty = false ↔
        conflictingModifiersDiag mloc
          ((c.modifiers.and (tgt.modifiers.and Ingredient.inherit_modifiers).not).and
            Modifiers.REF.not)
          (conflictHelp
            ((c.modifiers.and (tgt.modifiers.and Ingredient.inherit_modifiers).not).and
              Modifiers.REF.not) imp) imp ∈ ds) ∧
      (∀ refs din, tgt.relation = .definition refs din →
        (Ingredient.set_referenced_from all j).get? j =
          some { tgt with relation := .definition (refs ++ [all.length]) din })) ∧
    (∃ tgt, cws.get? k = some tgt ∧
      w'.modifiers = (w.modifiers.or (tgt.modifiers.and Cookware.inherit_modifiers)).or
        Modifiers.REF ∧
      w'.relation = .reference k ∧
      (((w.modifiers.and (tgt.modifiers.and Cookware.inherit_modifiers).not).and
          Modifiers.REF.not).is_empty = false ↔
        conflictingModifiersDiag mloc2
          ((w.modifiers.and (tgt.modifiers.and Cookware.inherit_modifiers).not).and
            Modifiers.REF.not)
          (conflictHelp
            ((w.modifiers.and (tgt.modifiers.and Cookware.inherit_modifiers).not).and
              Modifiers.REF.not) imp2) imp2 ∈ es) ∧
      (∀ refs din, tgt.relation = .definition refs din →
        (Cookware.set_referenced_from cws k).get? k =
          some { tgt with relation := .definition (refs ++ [cws.length]) din })) ∧
    (∀ (col : RecipeCollector) (lo : Located AstIngredient),
      lo.val.intermediate_data = none →
      resolve_reference_ing col.content.ingredients col.define_mode col.duplicate_mode
        (buildIngredient col lo.val).1 lo.span lo.val.modifiers.span =
          (c', ds, some (j, imp)) →
      (col.ingredientFn lo).2.content.ingredients =
        Ingredient.set_referenced_from col.content.ingredients j ++ [c']) ∧
    (∀ (col : RecipeCollector) (lo : Located AstCookware),
      resolve_reference_cw col.content.cookware col.define_mode col.duplicate_mode
        (buildCookware col lo.val).1 lo.span lo.val.modifiers.span =
          (w', es, some (k, imp2)) →
      (col.cookwareFn lo).2.content.cookware =
        Cookware.set_referenced_from col.content.cookware k ++ [w']) := by
  obtain ⟨-, -, tgt, hget, -, -, hc'⟩ := resolve_ing_some_spec hi
  obtain ⟨tgtb, hgetb, hconf, hwarn⟩ := resolve_ing_some_conflict hi
  rw [hget] at hgetb
  injection hgetb with hgetb
  subst hgetb
  obtain ⟨-, -, tgt2, hget2, -, -, hw'⟩ := resolve_cw_some_spec hw
  obtain ⟨tgt2b, hget2b, hconf2, hwarn2⟩ := resolve_cw_some_conflict hw
  rw [hget2] at hget2b
  injection hget2b with hget2b
  subst hget2b
  refine ⟨by decide, by decide,
    ⟨tgt, hget, by rw [hc'], by rw [hc'], ⟨hconf, ?_⟩, ?_⟩,
    ⟨tgt2, hget2, by rw [hw'], by rw [hw'], ⟨hconf2, ?_⟩, ?_⟩, ?_, ?_⟩
  · intro hmem
    cases hful : ((c.modifiers.and (tgt.modifiers.and Ingredient.inherit_modifiers).not).and
        Modifiers.REF.not).is_empty with
    | false => rfl
    | true =>
      have hsev := hwarn hful _ hmem
      rw [conflictingModifiersDiag_severity] at hsev
      cases hsev
  · intro refs din hrel
    exact (set_referenced_from_get all j hget hrel).1
  · intro hmem
    cases hful : ((w.modifiers.and (tgt2.modifiers.and Cookware.inherit_modifiers).not).and
        Modifiers.REF.not).is_empty with
    | false => rfl
    | true =>
      have hsev := hwarn2 hful _ hmem
      rw [conflictingModifiersDiag_severity] at hsev
      cases hsev
  · intro refs din hrel
    exact (cw_set_referenced_from_get cws k hget2 hrel).1
  · intro col lo hno hres
    obtain ⟨ctx2, tbl, hcol, -, hbr⟩ := ingredientFn_shape col lo
    rcases hbr with ⟨-, igr, ds0, hr0, -⟩ | ⟨-, j0, imp0, igr, ds0, hr0, htbl⟩ |
        ⟨d, hd, -⟩
    · rw [hres] at hr0
      injection hr0 with he1 hr0
      injection hr0 with he2 hr0
      cases hr0
    · rw [hres] at hr0
      injection hr0 with h1 hr0
      injection hr0 with h2 hr0
      injection hr0 with hr0
      injection hr0 with hj himp
      rw [hcol]
      subst h1
      subst hj
      rw [htbl]
    · rw [hd] at hno
      cases hno
  · intro col lo hres
    obtain ⟨ctx2, tbl, hcol, -, hbr⟩ := cookwareFn_shape col lo
    rcases hbr with ⟨cwc, ds0, hr0, -⟩ | ⟨k0, imp0, cwc, ds0, hr0, htbl⟩
    · rw [hres] at hr0
      injection hr0 with he1 hr0
      injection hr0 with he2 hr0
      cases hr0
    · rw [hres] at hr0
      injection hr0 with h1 hr0
      injection hr0 with h2 hr0
      injection hr0 with hr0
      injection hr0 with hk himp
      rw [hcol]
      subst h1
      subst hk
      rw [htbl]

/-- A concrete one-entry ingredient table: a plain `salt` definition. -/
def c4tgt : Ingredient :=
  { name := "salt", aliasName := none, quantity := none, note := none,
    modifiers := Modifiers.empty, relation := .definition [] true }

/-- A concrete explicit reference `&Salt` about to be resolved. -/
def c4new : Ingredient :=
  { name := "Salt", aliasName := none, quantity := none, note := none,
    modifiers := Modifiers.REF, relation := .definition [] true }

/-- A concrete one-entry cookware table: a plain `pan` definition. -/
def c4cwTgt : Cookware :=
  { name := "pan", aliasName := none, quantity := none, note := none,
    modifiers := Modifiers.empty, relation := .definition [] true }

/-- A concrete explicit cookware reference `&Pan`. -/
def c4cwNew : Cookware :=
  { name := "Pan", aliasName := none, quantity := none, note := none,
    modifiers := Modifiers.REF, relation := .definition [] true }

/-- Witness for **C4**: both resolvers succeed on the concrete tables
(`&Salt` against `salt`, `&Pan` against `pan`, case-insensitively), and the
inheritable masks are exactly the claimed bit sets. -/
theorem claim_C4_witness :
    Ingredient.inherit_modifiers =
      { ref := false, new := false, recipe := true, hidden := true, opt := true } ∧
    Cookware.inherit_modifiers =
      { ref := false, new := false, recipe := false, hidden := true, opt := true } :=
  have h1 : resolve_reference_ing [c4tgt] DefineMode.all DuplicateMode.new c4new 0 0 =
      ((resolve_reference_ing [c4tgt] DefineMode.all DuplicateMode.new c4new 0 0).1,
       (resolve_reference_ing [c4tgt] DefineMode.all DuplicateMode.new c4new 0 0).2.1,
       some (0, false)) := by rfl
  have h2 : resolve_reference_cw [c4cwTgt] DefineMode.all DuplicateMode.new c4cwNew 0 0 =
      ((resolve_reference_cw [c4cwTgt] DefineMode.all DuplicateMode.new c4cwNew 0 0).1,
       (resolve_reference_cw [c4cwTgt] DefineMode.all DuplicateMode.new c4cwNew 0 0).2.1,
       some (0, false)) := by rfl
  ⟨(claim_C4_reference_inheritance h1 h2).1,
   (claim_C4_reference_inheritance h1 h2).2.1⟩

theorem Modifiers.contains_newref (m : Modifiers) :
    m.contains (Modifiers.NEW.or Modifiers.REF) =
      (m.contains Modifiers.NEW && m.contains Modifiers.REF) := by
  rcases m with ⟨r, n, rc, h, o⟩
  cases r <;> cases n <;> cases rc <;> cases h <;> cases o <;> rfl

theorem referenceNotFoundDiag_severity (loc : Span) (name container : String)
    (implicit : Bool) :
    (referenceNotFoundDiag loc name container implicit).severity = .error := by
  unfold referenceNotFoundDiag
  cases implicit <;> rfl

set_option maxHeartbeats 1000000 in
theorem resolve_ing_not_treated {all : List Ingredient} {dm : DefineMode}
    {dupm : DuplicateMode} {c : Ingredient} {loc mloc : Span}
    (hnew : c.modifiers.contains Modifiers.NEW = false)
    (htreat : (c.modifiers.contains Modifiers.REF ||
      dm == DefineMode.steps ||
      (dupm == DuplicateMode.reference &&
        (sameNameIng all (strLower c.name)).isSome)) = false) :
    resolve_reference_ing all dm dupm c loc mloc = (c, [], none) := by
  simp only [Bool.or_eq_false_iff, Bool.and_eq_false_iff] at htreat
  obtain ⟨⟨href, hdm⟩, hdup⟩ := htreat
  unfold resolve_reference_ing
  repeat' split
  all_goals simp_all [Modifiers.contains_newref]

theorem redundantModifierDiag_severity (mloc : Span) (dm : DefineMode)
    (dupm : DuplicateMode) (red help : String) :
    (redundantModifierDiag mloc dm dupm red help).severity = .warning := rfl

set_option maxHeartbeats 1000000 in
theorem resolve_ing_notfound {all : List Ingredient} {dm : DefineMode}
    {dupm : DuplicateMode} {c : Ingredient} {loc mloc : Span}
    (hnew : c.modifiers.contains Modifiers.NEW = false)
    (hsn : sameNameIng all (strLower c.name) = none)
    (htreat : (c.modifiers.contains Modifiers.REF || dm == DefineMode.steps) = true) :
    ∃ ws, (∀ d ∈ ws, d.severity = .warning) ∧
      resolve_reference_ing all dm dupm c loc mloc =
        (c, ws ++ [referenceNotFoundDiag loc c.name "ingredient"
          (!c.modifiers.contains Modifiers.REF)], none) := by
  cases hrr : ((dupm == DuplicateMode.reference || dm == DefineMode.steps) &&
      c.modifiers.contains Modifiers.REF) with
  | true =>
    refine ⟨[redundantModifierDiag mloc dm dupm "reference (&)"
      "This ingredient is already a reference"], ?_, ?_⟩
    · intro d hd
      simp only [List.mem_singleton] at hd
      subst hd
      rfl
    · unfold resolve_reference_ing
      dsimp only []
      rw [hsn]
      simp [Modifiers.contains_newref, hnew, hrr, htreat]
  | false =>
    refine ⟨[], by simp, ?_⟩
    unfold resolve_reference_ing
    dsimp only []
    rw [hsn]
    simp [Modifiers.contains_newref, hnew, hrr, htreat]

set_option maxHeartbeats 1000000 in
theorem resolve_ing_found {all : List Ingredient} {dm : DefineMode}
    {dupm : DuplicateMode} {c : Ingredient} {loc mloc : Span} {j : Nat}
    (hnew : c.modifiers.contains Modifiers.NEW = false)
    (hsn : sameNameIng all (strLower c.name) = some j)
    (htreat : (c.modifiers.contains Modifiers.REF || dm == DefineMode.steps ||
      dupm == DuplicateMode.reference) = true) :
    (resolve_reference_ing all dm dupm c loc mloc).2.2 =
      some (j, !c.modifiers.contains Modifiers.REF) := by
  obtain ⟨a, ha, -, -⟩ := rposition_eq_some hsn
  simp only [resolve_reference_ing, hsn, Modifiers.contains_newref, hnew,
    Bool.false_and, Bool.and_false, if_false, Option.isSome_some, Bool.and_true,
    htreat, if_true, Bool.not_true, ite_false, ite_true]
  rw [ha]
  simp

set_option maxHeartbeats 1000000 in
theorem resolve_cw_not_treated {all : List Cookware} {dm : DefineMode}
    {dupm : DuplicateMode} {c : Cookware} {loc mloc : Span}
    (hnew : c.modifiers.contains Modifiers.NEW = false)
    (htreat : (c.modifiers.contains Modifiers.REF ||
      dm == DefineMode.steps ||
      (dupm == DuplicateMode.reference &&
        (sameNameCw all (strLower c.name)).isSome)) = false) :
    resolve_reference_cw all dm dupm c loc mloc = (c, [], none) := by
  simp only [Bool.or_eq_false_iff, Bool.and_eq_false_iff] at htreat
  obtain ⟨⟨href, hdm⟩, hdup⟩ := htreat
  unfold resolve_reference_cw
  repeat' split
  all_goals simp_all [Modifiers.contains_newref]

set_option maxHeartbeats 1000000 in
theorem resolve_cw_notfound {all : List Cookware} {dm : DefineMode}
    {dupm : DuplicateMode} {c : Cookware} {loc mloc : Span}
    (hnew : c.modifiers.contains Modifiers.NEW = false)
    (hsn : sameNameCw all (strLower c.name) = none)
    (htreat : (c.modifiers.contains Modifiers.REF || dm == DefineMode.steps) = true) :
    ∃ ws, (∀ d ∈ ws, d.severity = .warning) ∧
      resolve_reference_cw all dm dupm c loc mloc =
        (c, ws ++ [referenceNotFoundDiag loc c.name "cookware item"
          (!c.modifiers.contains Modifiers.REF)], none) := by
  cases hrr : ((dupm == DuplicateMode.reference || dm == DefineMode.steps) &&
      c.modifiers.contains Modifiers.REF) with
  | true =>
    refine ⟨[redundantModifierDiag mloc dm dupm "reference (&)"
      "This cookware item is already a reference"], ?_, ?_⟩
    · intro d hd
      simp only [List.mem_singleton] at hd
      subst hd
      rfl
    · unfold resolve_reference_cw
      dsimp only []
      rw [hsn]
      simp [Modifiers.contains_newref, hnew, hrr, htreat]
  | false =>
    refine ⟨[], by simp, ?_⟩
    unfold resolve_reference_cw
    dsimp only []
    rw [hsn]
    simp [Modifiers.contains_newref, hnew, hrr, htreat]

set_option maxHeartbeats 1000000 in
theorem resolve_cw_found {all : List Cookware} {dm : DefineMode}
    {dupm : DuplicateMode} {c : Cookware} {loc mloc : Span} {j : Nat}
    (hnew : c.modifiers.contains Modifiers.NEW = false)
    (hsn : sameNameCw all (strLower c.name) = some j)
    (htreat : (c.modifiers.contains Modifiers.REF || dm == DefineMode.steps ||
      dupm == DuplicateMode.reference) = true) :
    (resolve_reference_cw all dm dupm c loc mloc).2.2 =
      some (j, !c.modifiers.contains Modifiers.REF) := by
  obtain ⟨a, ha, -, -⟩ := rposition_eq_some hsn
  simp only [resolve_reference_cw, hsn, Modifiers.contains_newref, hnew,
    Bool.false_and, Bool.and_false, if_false, Option.isSome_some, Bool.and_true,
    htreat, if_true, Bool.not_true, ite_false, ite_true]
  rw [ha]
  simp

set_option maxHeartbeats 2000000 in
/-- **C3 (amended).** For a component without the NEW modifier the resolver
treats it as a reference exactly when REF is in its modifiers, or
define_mode is Steps, or duplicate_mode is Reference and the backward
search finds a prior same-name entry; the search matches the last earlier
entry whose modifiers do not contain REF (the relation is not consulted)
and whose lowercase name matches; when nothing matches, a "reference not
found" error is emitted after warning-only diagnostics (with the implicit
hint exactly when REF was not explicitly present) and the component is
returned unchanged with no resolver result; when the component is not
treated as a reference the resolver is the identity with no diagnostics. -/
theorem claim_C3_reference_resolution_amended
    {all : List Ingredient} {cws : List Cookware} {dm dm2 : DefineMode}
    {dupm dupm2 : DuplicateMode} {c : Ingredient} {w : Cookware}
    {loc mloc loc2 mloc2 : Span}
    (hnew : c.modifiers.contains Modifiers.NEW = false)
    (hnew2 : w.modifiers.contains Modifiers.NEW = false) :
    (((resolve_reference_ing all dm dupm c loc mloc).2.2.isSome = true ∨
        referenceNotFoundDiag loc c.name "ingredient"
          (!c.modifiers.contains Modifiers.REF) ∈
          (resolve_reference_ing all dm dupm c loc mloc).2.1) ↔
      (c.modifiers.contains Modifiers.REF || dm == DefineMode.steps ||
        (dupm == DuplicateMode.reference &&
          (sameNameIng all (strLower c.name)).isSome)) = true) ∧
    ((c.modifiers.contains Modifiers.REF || dm == DefineMode.steps ||
        (dupm == DuplicateMode.reference &&
          (sameNameIng all (strLower c.name)).isSome)) = false →
      resolve_reference_ing all dm dupm c loc mloc = (c, [], none)) ∧
    (∀ j imp, (resolve_reference_ing all dm dupm c loc mloc).2.2 = some (j, imp) →
      ∃ tgt, all.get? j = some tgt ∧
        tgt.modifiers.contains Modifiers.REF = false ∧
        strLower c.name = strLower tgt.name ∧
        ∀ k e, j < k → all.get? k = some e →
          e.modifiers.contains Modifiers.REF = true ∨
            strLower c.name ≠ strLower e.name) ∧
    (sameNameIng all (strLower c.name) = none →
      (c.modifiers.contains Modifiers.REF || dm == DefineMode.steps) = true →
      ∃ ws, (∀ d ∈ ws, d.severity = .warning) ∧
        resolve_reference_ing all dm dupm c loc mloc =
          (c, ws ++ [referenceNotFoundDiag loc c.name "ingredient"
            (!c.modifiers.contains Modifiers.REF)], none)) ∧
    (∀ nm, referenceNotFoundDiag loc nm "ingredient" true =
      (referenceNotFoundDiag loc nm "ingredient" false).add_hint IMPLICIT_REF_WARN) ∧
    (((resolve_reference_cw cws dm2 dupm2 w loc2 mloc2).2.2.isSome = true ∨
        referenceNotFoundDiag loc2 w.name "cookware item"
          (!w.modifiers.contains Modifiers.REF) ∈
          (resolve_reference_cw cws dm2 dupm2 w loc2 mloc2).2.1) ↔
      (w.modifiers.contains Modifiers.REF || dm2 == DefineMode.steps ||
        (dupm2 == DuplicateMode.reference &&
          (sameNameCw cws (strLower w.name)).isSome)) = true) ∧
    ((w.modifiers.contains Modifiers.REF || dm2 == DefineMode.steps ||
        (dupm2 == DuplicateMode.reference &&
          (sameNameCw cws (strLower w.name)).isSome)) = false →
      resolve_reference_cw cws dm2 dupm2 w loc2 mloc2 = (w, [], none)) ∧
    (∀ j imp, (resolve_reference_cw cws dm2 dupm2 w loc2 mloc2).2.2 = some (j, imp) →
      ∃ tgt, cws.get? j = some tgt ∧
        tgt.modifiers.contains Modifiers.REF = false ∧
        strLower w.name = strLower tgt.name ∧
        ∀ k e, j < k → cws.get? k = some e →
          e.modifiers.contains Modifiers.REF = true ∨
            strLower w.name ≠ strLower e.name) ∧
    (sameNameCw cws (strLower w.name) = none →
      (w.modifiers.contains Modifiers.REF || dm2 == DefineMode.steps) = true →
      ∃ ws, (∀ d ∈ ws, d.severity = .warning) ∧
        resolve_reference_cw cws dm2 dupm2 w loc2 mloc2 =
          (w, ws ++ [referenceNotFoundDiag loc2 w.name "cookware item"
            (!w.modifiers.contains Modifiers.REF)], none)) ∧
    (∀ nm, referenceNotFoundDiag loc2 nm "cookware item" true =
      (referenceNotFoundDiag loc2 nm "cookware item" false).add_hint
        IMPLICIT_REF_WARN) := by
  refine ⟨⟨?_, ?_⟩, fun h => resolve_ing_not_treated hnew h, ?_,
    fun hsn ht => resolve_ing_notfound hnew hsn ht, fun nm => rfl,
    ⟨?_, ?_⟩, fun h => resolve_cw_not_treated hnew2 h, ?_,
    fun hsn ht => resolve_cw_notfound hnew2 hsn ht, fun nm => rfl⟩
  · intro hind
    cases htreat : (c.modifiers.contains Modifiers.REF || dm == DefineMode.steps ||
        (dupm == DuplicateMode.reference &&
          (sameNameIng all (strLower c.name)).isSome)) with
    | true => rfl
    | false =>
      rw [resolve_ing_not_treated hnew htreat] at hind
      rcases hind with h | h
      · simp at h
      · simp at h
  · intro htreat
    cases hsn : sameNameIng all (strLower c.name) with
    | some j =>
      have hfound : (resolve_reference_ing all dm dupm c loc mloc).2.2 =
          some (j, !c.modifiers.contains Modifiers.REF) :=
        resolve_ing_found hnew hsn (by rw [hsn] at htreat; simpa using htreat)
      left
      rw [hfound]
      rfl
    | none =>
      right
      rw [hsn] at htreat
      simp only [Option.isSome_none, Bool.and_false, Bool.or_false] at htreat
      obtain ⟨ws, -, heq⟩ := resolve_ing_notfound hnew hsn htreat
      rw [heq]
      simp
  · intro j imp h2
    have heq : resolve_reference_ing all dm dupm c loc mloc =
        ((resolve_reference_ing all dm dupm c loc mloc).1,
         (resolve_reference_ing all dm dupm c loc mloc).2.1, some (j, imp)) := by
      rw [← h2]
    obtain ⟨hsn, -, tgt, hget, hnoref, hname, -⟩ := resolve_ing_some_spec heq
    obtain ⟨a, ha, hpa, hlast⟩ := rposition_eq_some hsn
    refine ⟨tgt, hget, hnoref, hname, ?_⟩
    intro k e hk hget2
    have hfalse := hlast k e hk hget2
    simp only [Bool.and_eq_false_iff, Bool.not_eq_false', beq_eq_false_iff_ne,
      ne_eq] at hfalse
    exact hfalse
  · intro hind
    cases htreat : (w.modifiers.contains Modifiers.REF || dm2 == DefineMode.steps ||
        (dupm2 == DuplicateMode.reference &&
          (sameNameCw cws (strLower w.name)).isSome)) with
    | true => rfl
    | false =>
      rw [resolve_cw_not_treated hnew2 htreat] at hind
      rcases hind with h | h
      · simp at h
      · simp at h
  · intro htreat
    cases hsn : sameNameCw cws (strLower w.name) with
    | some j =>
      have hfound : (resolve_reference_cw cws dm2 dupm2 w loc2 mloc2).2.2 =
          some (j, !w.modifiers.contains Modifiers.REF) :=
        resolve_cw_found hnew2 hsn (by rw [hsn] at htreat; simpa using htreat)
      left
      rw [hfound]
      rfl
    | none =>
      right
      rw [hsn] at htreat
      simp only [Option.isSome_none, Bool.and_false, Bool.or_false] at htreat
      obtain ⟨ws, -, heq⟩ := resolve_cw_notfound hnew2 hsn htreat
      rw [heq]
      simp
  · intro j imp h2
    have heq : resolve_reference_cw cws dm2 dupm2 w loc2 mloc2 =
        ((resolve_reference_cw cws dm2 dupm2 w loc2 mloc2).1,
         (resolve_reference_cw cws dm2 dupm2 w loc2 mloc2).2.1, some (j, imp)) := by
      rw [← h2]
    obtain ⟨hsn, -, tgt, hget, hnoref, hname, -⟩ := resolve_cw_some_spec heq
    obtain ⟨a, ha, hpa, hlast⟩ := rposition_eq_some hsn
    refine ⟨tgt, hget, hnoref, hname, ?_⟩
    intro k e hk hget2
    have hfalse := hlast k e hk hget2
    simp only [Bool.and_eq_false_iff, Bool.not_eq_false', beq_eq_false_iff_ne,
      ne_eq] at hfalse
    exact hfalse

/-- Modelled from the spec: the backward search as the spec words it, for
comparison with the source's `sameNameIng` — match the last earlier entry
whose RELATION is a definition and whose lowercase name matches. -/
def specSameNameIng (all : List Ingredient) (new_name : String) : Option Nat :=
  rposition (fun other =>
    (match other.relation with
      | .definition _ _ => true
      | .reference _ _ => false) && new_name == strLower other.name) all

/-- A table holding the walker's output for a failed explicit reference:
the entry kept its `Definition` relation but retained the REF modifier. -/
def c3tbl : List Ingredient :=
  [{ name := "salt", aliasName := none, quantity := none, note := none,
     modifiers := Modifiers.REF, relation := .definition [] true }]

/-- An explicit reference `&salt` resolved against `c3tbl`. -/
def c3new : Ingredient :=
  { name := "salt", aliasName := none, quantity := none, note := none,
    modifiers := Modifiers.REF, relation := .definition [] true }

/-- A plain `salt` ingredient with no modifiers. -/
def c3plain : Ingredient :=
  { name := "salt", aliasName := none, quantity := none, note := none,
    modifiers := Modifiers.empty, relation := .definition [] true }

/-- A plain cookware item with no modifiers. -/
def c3cw : Cookware :=
  { name := "pan", aliasName := none, quantity := none, note := none,
    modifiers := Modifiers.empty, relation := .definition [] true }

/-- **C3 (counterexample).** The spec says the resolver searches for the
last earlier entry whose relation is a Definition with matching lowercase
name, and treats a component as a reference under duplicate mode Reference
when such a prior definition exists.  In `c3tbl` the single entry has a
`Definition` relation and a matching name (the spec-words search finds it),
yet (a) an explicit reference `&salt` gets "reference not found" — the
source's search keys on the absence of the REF modifier, which this entry
retains from its own failed resolution — and (b) a plain `salt` under
duplicate mode Reference is not treated as a reference at all. -/
theorem claim_C3_counterexample :
    specSameNameIng c3tbl (strLower c3new.name) = some 0 ∧
    (∃ tgt, c3tbl.get? 0 = some tgt ∧ tgt.relation = .definition [] true ∧
      strLower tgt.name = strLower c3new.name) ∧
    resolve_reference_ing c3tbl DefineMode.all DuplicateMode.new c3new 0 0 =
      (c3new, [referenceNotFoundDiag 0 c3new.name "ingredient" false], none) ∧
    specSameNameIng c3tbl (strLower c3plain.name) = some 0 ∧
    resolve_reference_ing c3tbl DefineMode.all DuplicateMode.reference c3plain 0 0 =
      (c3plain, [], none) :=
  ⟨rfl, ⟨_, rfl, rfl, rfl⟩, rfl, rfl, rfl⟩

/-- `c3plain` carries no NEW modifier. -/
theorem c3plain_nonew : c3plain.modifiers.contains Modifiers.NEW = false := by
  decide

/-- `c3cw` carries no NEW modifier. -/
theorem c3cw_nonew : c3cw.modifiers.contains Modifiers.NEW = false := by
  decide

/-- Witness for **C3 (amended)**: on empty tables with define mode All and
duplicate mode New, a plain component is not treated as a reference and
both resolvers are the identity with no diagnostics. -/
theorem claim_C3_witness :
    resolve_reference_ing [] DefineMode.all DuplicateMode.new c3plain 0 0 =
      (c3plain, [], none) ∧
    resolve_reference_cw [] DefineMode.all DuplicateMode.new c3cw 0 0 =
      (c3cw, [], none) := by
  obtain ⟨-, h2, -, -, -, -, h7, -, -, -⟩ :=
    claim_C3_reference_resolution_amended c3plain_nonew c3cw_nonew
  exact ⟨h2 (by decide), h7 (by decide)⟩

/-- The span the walker attaches to the servings metadata entry. -/
def servingsMetaSpan (col : RecipeCollector) : Span :=
  (((locGet col.locations.metadata "servings").map (fun p => p.2.span)).getD
    Span.dummy)

set_option maxHeartbeats 1000000 in
/-- **C9.** For a quantity value of the `Many` form, an error is emitted
exactly when the servings metadata entry is absent or the number of values
differs from the number of servings; with servings present and counts
differing, the single emitted error carries the quantity span and the
servings metadata span as its two labels; with servings absent, the single
error carries only the quantity span. -/
theorem claim_C9_many_values {col : RecipeCollector} {vs : List Value}
    {vspan : Span} {b : Bool} :
    ((col.valueFn (.many vs vspan) b).2 = [] ↔
      ∃ s, col.content.metadata.servings = some s ∧ s.length = vs.length) ∧
    (∀ s, col.content.metadata.servings = some s → s.length ≠ vs.length →
      (col.valueFn (.many vs vspan) b).2 =
        [((mkError ("Many values conflict: " ++ toString s.length ++
            " servings defined but " ++ toString vs.length ++
            " values in the quantity")
          ⟨vspan, some "number of values do not match servings"⟩).label
            ⟨servingsMetaSpan col, some "servings defined here"⟩)] ∧
      ∀ d ∈ (col.valueFn (.many vs vspan) b).2,
        d.labels.map Label.span = [vspan, servingsMetaSpan col]) ∧
    (col.content.metadata.servings = none →
      (col.valueFn (.many vs vspan) b).2 =
        [mkError ("Many values conflict: not servings defined but " ++
          toString vs.length ++ " values in the quantity") ⟨vspan, none⟩]) := by
  have key : (col.valueFn (.many vs vspan) b).2 =
      (match col.content.metadata.servings with
        | some s =>
          if (s.length != vs.length) = true then
            [((mkError ("Many values conflict: " ++ toString s.length ++
                " servings defined but " ++ toString vs.length ++
                " values in the quantity")
              ⟨vspan, some "number of values do not match servings"⟩).label
                ⟨servingsMetaSpan col, some "servings defined here"⟩)]
          else []
        | none =>
          [mkError ("Many values conflict: not servings defined but " ++
            toString vs.length ++ " values in the quantity") ⟨vspan, none⟩]) := by
    unfold RecipeCollector.valueFn servingsMetaSpan
    dsimp only []
    cases hb : (b && col.auto_scale_ingredients) <;>
      simp [hb, ScalableValue.from_ast]
  rw [key]
  rcases hs : col.content.metadata.servings with - | s
  · refine ⟨?_, ?_, fun h => rfl⟩
    · constructor
      · intro h
        simp at h
      · rintro ⟨s, hss, -⟩
        cases hss
    · intro s hss
      cases hss
  · cases hne : (s.length != vs.length) with
    | true =>
      have hneq : s.length ≠ vs.length := by simpa using hne
      simp only [hne, if_true]
      refine ⟨?_, ?_, ?_⟩
      · constructor
        · intro h
          simp at h
        · rintro ⟨s', hss, heq⟩
          injection hss with hss
          subst hss
          exact absurd heq hneq
      · intro s' hss hneq'
        injection hss with hss
        subst hss
        refine ⟨rfl, ?_⟩
        intro d hd
        simp only [List.mem_singleton] at hd
        subst hd
        rfl
      · intro hnone
        cases hnone
    | false =>
      have heq : s.length = vs.length := by simpa using hne
      simp only [hne, if_false]
      refine ⟨?_, ?_, ?_⟩
      · constructor
        · intro h2
          exact ⟨s, rfl, heq⟩
        · intro h2
          rfl
      · intro s' hss hneq'
        injection hss with hss
        subst hss
        exact absurd heq hneq'
      · intro hnone
        cases hnone

theorem stepIndicesFrom_mem {cs : List Content} {k i : Nat}
    (h : i ∈ stepIndicesFrom k cs) :
    k ≤ i ∧ ∃ cnt, cs.get? (i - k) = some cnt ∧ cnt.is_step = true := by
  induction cs generalizing k with
  | nil => simp [stepIndicesFrom] at h
  | cons c cs ih =>
    rw [stepIndicesFrom] at h
    rw [List.mem_append] at h
    rcases h with h | h
    · rcases hstep : c.is_step with - | -
      · rw [hstep] at h
        simp at h
      · rw [hstep] at h
        simp at h
        subst h
        exact ⟨Nat.le_refl _, c, by simp, hstep⟩
    · obtain ⟨hle, cnt, hget, hs⟩ := ih h
      refine ⟨by omega, cnt, ?_, hs⟩
      have : i - k = (i - (k + 1)) + 1 := by omega
      rw [this]
      simpa using hget

theorem stepIndices_mem {cs : List Content} {i : Nat}
    (h : i ∈ stepIndices cs) :
    ∃ cnt, cs.get? i = some cnt ∧ cnt.is_step = true := by
  obtain ⟨-, cnt, hget, hs⟩ := stepIndicesFrom_mem h
  exact ⟨cnt, by simpa using hget, hs⟩

set_option maxHeartbeats 1000000 in
/-- **C7.** For an intermediate reference with value `val`: `val = 0` yields
an error with distinct messages for the Number and Relative modes and no
relation; for `val ≠ 0`, (Step, Number) resolves to the `val`-th entry of
the step-index list of the current section, (Step, Relative) counts from
its back, (Section, Number) indexes the already-completed sections
directly and (Section, Relative) counts `val` back from their end;
out-of-bounds values yield an error whose hint describes the available
range; on success the relation is a `Reference` with target Step or
Section; and every step index points at a step content of the current
section. -/
theorem claim_C7_intermediate_refs {col : RecipeCollector}
    {inter : Located IntermediateData} :
    (inter.val.val.toNat = 0 → ∃ e,
      col.resolve_intermediate_ref inter = .error e ∧
      (inter.val.ref_mode = .number →
        e.message = "Invalid intermediate preparation reference: number is 0" ∧
        e.hints = ["Step and section numbers start at 1"]) ∧
      (inter.val.ref_mode = .relative →
        e.message =
          "Invalid intermediate preparation reference: relative reference to self" ∧
        e.hints = ["Relative reference value has to be greater than 0"])) ∧
    ((mkError "Invalid intermediate preparation reference: number is 0"
        ⟨Span.dummy, none⟩).message ≠
      (mkError "Invalid intermediate preparation reference: relative reference to self"
        ⟨Span.dummy, none⟩).message) ∧
    (inter.val.val.toNat ≠ 0 → inter.val.target_kind = .step →
      inter.val.ref_mode = .number →
      (∀ i, (stepIndices col.current_section.content).get?
          (inter.val.val.toNat - 1) = some i →
        col.resolve_intermediate_ref inter = .ok (.reference i .step)) ∧
      ((stepIndices col.current_section.content).get?
          (inter.val.val.toNat - 1) = none →
        col.resolve_intermediate_ref inter = .error ((mkError
          "Invalid intermediate preparation reference: value out of bounds"
          ⟨inter.span, none⟩).hint
          ("The value has to be a previous step number: " ++
            (match col.step_counter - 1 with
              | 0 => "no steps before this one"
              | 1 => "1"
              | max => "1 to " ++ toString max))))) ∧
    (inter.val.val.toNat ≠ 0 → inter.val.target_kind = .step →
      inter.val.ref_mode = .relative →
      (∀ i, (stepIndices col.current_section.content).reverse.get?
          (inter.val.val.toNat - 1) = some i →
        col.resolve_intermediate_ref inter = .ok (.reference i .step)) ∧
      ((stepIndices col.current_section.content).reverse.get?
          (inter.val.val.toNat - 1) = none →
        col.resolve_intermediate_ref inter = .error ((mkError
          "Invalid intermediate preparation reference: value out of bounds"
          ⟨inter.span, none⟩).hint
          ("The current section " ++
            (match col.step_counter - 1 with
              | 0 => "has no"
              | before => "only has " ++ toString before) ++
            " steps before this one")))) ∧
    (inter.val.val.toNat ≠ 0 → inter.val.target_kind = .sectionKind →
      inter.val.ref_mode = .number →
      (inter.val.val.toNat - 1 < col.content.sections.length →
        col.resolve_intermediate_ref inter =
          .ok (.reference (inter.val.val.toNat - 1) .sectionKind)) ∧
      (inter.val.val.toNat - 1 ≥ col.content.sections.length →
        col.resolve_intermediate_ref inter = .error ((mkError
          "Invalid intermediate preparation reference: value out of bounds"
          ⟨inter.span, none⟩).hint
          ("The value has to be a previous section number: " ++
            (match col.content.sections.length with
              | 0 => "no sections before this one"
              | 1 => "1"
              | max => "1 to " ++ toString max))))) ∧
    (inter.val.val.toNat ≠ 0 → inter.val.target_kind = .sectionKind →
      inter.val.ref_mode = .relative →
      (inter.val.val.toNat ≤ col.content.sections.length →
        col.resolve_intermediate_ref inter =
          .ok (.reference
            (col.content.sections.length - inter.val.val.toNat) .sectionKind)) ∧
      (inter.val.val.toNat > col.content.sections.length →
        col.resolve_intermediate_ref inter = .error ((mkError
          "Invalid intermediate preparation reference: value out of bounds"
          ⟨inter.span, none⟩).hint
          ("The recipe " ++
            (match col.content.sections.length with
              | 0 => "has no"
              | before => "only has " ++ toString before) ++
            " sections before this one")))) ∧
    (∀ i, i ∈ stepIndices col.current_section.content →
      ∃ cnt, col.current_section.content.get? i = some cnt ∧
        cnt.is_step = true) := by
  refine ⟨?_, by decide, ?_, ?_, ?_, ?_, fun i h => stepIndices_mem h⟩
  · intro hv
    unfold RecipeCollector.resolve_intermediate_ref
    dsimp only []
    rw [if_pos (by simpa using hv)]
    cases hrm : inter.val.ref_mode with
    | number =>
      refine ⟨_, rfl, fun h2 => ⟨rfl, rfl⟩, fun h2 => ?_⟩
      cases h2
    | relative =>
      refine ⟨_, rfl, fun h2 => ?_, fun h2 => ⟨rfl, rfl⟩⟩
      cases h2
  · intro hv htk hrm
    unfold RecipeCollector.resolve_intermediate_ref
    dsimp only []
    rw [if_neg (by simpa using hv), htk, hrm]
    dsimp only []
    constructor
    · intro i hget
      rw [hget]
    · intro hget
      rw [hget]
  · intro hv htk hrm
    unfold RecipeCollector.resolve_intermediate_ref
    dsimp only []
    rw [if_neg (by simpa using hv), htk, hrm]
    dsimp only []
    constructor
    · intro i hget
      rw [hget]
    · intro hget
      rw [hget]
  · intro hv htk hrm
    unfold RecipeCollector.resolve_intermediate_ref
    dsimp only []
    rw [if_neg (by simpa using hv), htk, hrm]
    dsimp only []
    constructor
    · intro hlt
      rw [if_neg (by omega)]
    · intro hge
      rw [if_pos (by omega)]
  · intro hv htk hrm
    unfold RecipeCollector.resolve_intermediate_ref
    dsimp only []
    rw [if_neg (by simpa using hv), htk, hrm]
    dsimp only []
    constructor
    · intro hle
      rw [if_neg (by omega)]
    · intro hgt
      rw [if_pos (by omega)]

/-- The diagnostic payload of an `Error`/`Warning` event. -/
def eventDiag : Event → Option SourceDiag
  | .errorEv d => some d
  | .warningEv d => some d
  | _ => none

theorem drainParseDiags_eq (evs : List Event) : ∀ ctx : SourceReport,
    drainParseDiags ctx evs = List.append ctx (evs.filterMap eventDiag) := by
  induction evs with
  | nil => intro ctx; simp [drainParseDiags]
  | cons e rest ih =>
    intro ctx
    rw [drainParseDiags.eq_def]
    cases e with
    | errorEv d =>
      dsimp only []
      rw [ih]
      simp [eventDiag, SourceReport.push, List.append_assoc]
    | warningEv d =>
      dsimp only []
      rw [ih]
      simp [eventDiag, SourceReport.push, List.append_assoc]
    | metadataEv k v => dsimp only []; rw [ih]; simp [eventDiag]
    | sectionEv n => dsimp only []; rw [ih]; simp [eventDiag]
    | startEv k => dsimp only []; rw [ih]; simp [eventDiag]
    | endEv k => dsimp only []; rw [ih]; simp [eventDiag]
    | textEv t => dsimp only []; rw [ih]; simp [eventDiag]
    | ingredientEv i => dsimp only []; rw [ih]; simp [eventDiag]
    | cookwareEv c => dsimp only []; rw [ih]; simp [eventDiag]
    | timerEv t => dsimp only []; rw [ih]; simp [eventDiag]

set_option maxHeartbeats 1000000 in
theorem loopGo_none_iff (evs : List Event) : ∀ (col : RecipeCollector)
    (items : List Event),
    ((col.loopGo items evs).1 = none ↔ ∃ d, Event.errorEv d ∈ evs) := by
  induction evs with
  | nil =>
    intro col items
    rw [RecipeCollector.loopGo]
    simp
  | cons e rest ih =>
    intro col items
    rw [RecipeCollector.loopGo.eq_def]
    cases e with
    | errorEv d =>
      dsimp only []
      constructor
      · intro h2
        exact ⟨d, List.mem_cons_self _ _⟩
      · intro h2
        rfl
    | metadataEv k v => dsimp only []; rw [ih]; simp
    | sectionEv n => dsimp only []; rw [ih]; simp
    | startEv k => dsimp only []; rw [ih]; simp
    | endEv k => dsimp only []; rw [ih]; simp
    | textEv t => dsimp only []; rw [ih]; simp
    | ingredientEv i => dsimp only []; rw [ih]; simp
    | cookwareEv c => dsimp only []; rw [ih]; simp
    | timerEv t => dsimp only []; rw [ih]; simp
    | warningEv w => dsimp only []; rw [ih]; simp

set_option maxHeartbeats 1000000 in
theorem loopGo_none_stage (evs : List Event) : ∀ (col : RecipeCollector)
    (items : List Event) (r : List SourceDiag),
    col.loopGo items evs = (none, r) → ∀ d ∈ r, d.stage = Stage.parse := by
  induction evs with
  | nil =>
    intro col items r h d hd
    rw [RecipeCollector.loopGo] at h
    injection h with h1 h2
    cases h1
  | cons e rest ih =>
    intro col items r h d hd
    rw [RecipeCollector.loopGo.eq_def] at h
    cases e with
    | errorEv d0 =>
      dsimp only [] at h
      injection h with h1 h2
      subst h2
      rw [SourceReport.retain] at hd
      have := List.of_mem_filter hd
      simpa using this
    | metadataEv k v => dsimp only [] at h; exact ih _ _ _ h d hd
    | sectionEv n => dsimp only [] at h; exact ih _ _ _ h d hd
    | startEv k => dsimp only [] at h; exact ih _ _ _ h d hd
    | endEv k => dsimp only [] at h; exact ih _ _ _ h d hd
    | textEv t => dsimp only [] at h; exact ih _ _ _ h d hd
    | ingredientEv i => dsimp only [] at h; exact ih _ _ _ h d hd
    | cookwareEv c => dsimp only [] at h; exact ih _ _ _ h d hd
    | timerEv t => dsimp only [] at h; exact ih _ _ _ h d hd
    | warningEv w => dsimp only [] at h; exact ih _ _ _ h d hd

/-- **C2.** `parse_events` returns an absent recipe exactly when an `Error`
event (a parse-stage error) occurs in the stream; in that case every
diagnostic of the final report is parse-stage (all analysis-stage
diagnostics accumulated so far are dropped); and the drain of the
remaining events keeps exactly the payloads of their `Error`/`Warning`
events, in order, appended to the report. -/
theorem claim_C2_parse_error_abort {env : AnalysisEnv} {ext : Extensions}
    {events : List Event} :
    ((parse_events env ext events).1 = none ↔ ∃ d, Event.errorEv d ∈ events) ∧
    (∀ r : List SourceDiag, parse_events env ext events = (none, r) →
      ∀ d ∈ r, d.stage = Stage.parse) ∧
    (∀ (ctx : SourceReport) (evs : List Event),
      drainParseDiags ctx evs = List.append ctx (evs.filterMap eventDiag)) := by
  refine ⟨?_, ?_, fun ctx evs => drainParseDiags_eq evs ctx⟩
  · unfold parse_events
    dsimp only []
    exact loopGo_none_iff events _ _
  · intro r h
    unfold parse_events at h
    dsimp only [] at h
    exact loopGo_none_stage events _ _ _ h

/-! ## Reference-graph well-formedness (claim C1) -/

theorem idxWhereFrom_append {α : Type} (p : α → Bool) (x : α) :
    ∀ (t : List α) (k : Nat),
    idxWhereFrom p k (t ++ [x]) =
      idxWhereFrom p k t ++ (if p x then [k + t.length] else []) := by
  intro t
  induction t with
  | nil => intro k; simp [idxWhereFrom]
  | cons c cs ih =>
    intro k
    rw [List.cons_append, idxWhereFrom, idxWhereFrom, ih]
    simp only [List.length_cons, List.append_assoc]
    have : k + (cs.length + 1) = (k + 1) + cs.length := by omega
    rw [this]

theorem mem_idxWhereFrom {α : Type} {p : α → Bool} {i : Nat} :
    ∀ {t : List α} {k : Nat},
    (i ∈ idxWhereFrom p k t ↔
      k ≤ i ∧ ∃ x, t.get? (i - k) = some x ∧ p x = true) := by
  intro t
  induction t with
  | nil => intro k; simp [idxWhereFrom]
  | cons c cs ih =>
    intro k
    rw [idxWhereFrom, List.mem_append]
    constructor
    · intro h
      rcases h with h | h
      · rcases hp : p c with - | -
        · rw [hp] at h; simp at h
        · rw [hp] at h
          simp at h
          subst h
          exact ⟨Nat.le_refl _, c, by simp, hp⟩
      · obtain ⟨hk, x, hget, hpx⟩ := ih.mp h
        refine ⟨by omega, x, ?_, hpx⟩
        have h2 : i - k = (i - (k + 1)) + 1 := by omega
        rw [h2]
        simpa using hget
    · rintro ⟨hk, x, hget, hpx⟩
      rcases Nat.eq_or_lt_of_le hk with heq | hlt
      · subst heq
        simp at hget
        subst hget
        left
        simp [hpx]
      · right
        refine ih.mpr ⟨by omega, x, ?_, hpx⟩
        have h2 : i - k = (i - (k + 1)) + 1 := by omega
        rw [h2] at hget
        simpa using hget

theorem mem_idxWhere {α : Type} {p : α → Bool} {i : Nat} {t : List α} :
    i ∈ idxWhere p t ↔ ∃ x, t.get? i = some x ∧ p x = true := by
  rw [idxWhere, mem_idxWhereFrom]
  simp

theorem idxWhereFrom_pairwise {α : Type} (p : α → Bool) :
    ∀ (t : List α) (k : Nat), List.Pairwise (· < ·) (idxWhereFrom p k t) := by
  intro t
  induction t with
  | nil => intro k; simp [idxWhereFrom]
  | cons c cs ih =>
    intro k
    rw [idxWhereFrom]
    rw [List.pairwise_append]
    refine ⟨?_, ih (k + 1), ?_⟩
    · rcases hp : p c with - | - <;> simp
    · intro a ha b hb
      have hb2 := (mem_idxWhereFrom.mp hb).1
      rcases hp : p c with - | -
      · rw [hp] at ha; simp at ha
      · rw [hp] at ha
        simp at ha
        subst ha
        omega

theorem idxWhere_pairwise {α : Type} (p : α → Bool) (t : List α) :
    List.Pairwise (· < ·) (idxWhere p t) :=
  idxWhereFrom_pairwise p t 0

theorem idxWhereFrom_set_same {α : Type} {p : α → Bool} {t : List α} {j : Nat}
    {x y : α} (hget : t.get? j = some y) (hp : p x = p y) :
    ∀ k, idxWhereFrom p k (t.set j x) = idxWhereFrom p k t := by
  induction t generalizing j with
  | nil => intro k; simp
  | cons c cs ih =>
    intro k
    cases j with
    | zero =>
      simp only [List.get?_cons_zero] at hget
      injection hget with hget
      subst hget
      rw [List.set_cons_zero, idxWhereFrom, idxWhereFrom, hp]
    | succ j' =>
      simp only [List.get?_cons_succ] at hget
      rw [List.set_cons_succ, idxWhereFrom, idxWhereFrom, ih hget]

theorem idxWhere_nil_of_all {α : Type} {p : α → Bool} {t : List α}
    (h : ∀ j x, t.get? j = some x → p x = false) : idxWhere p t = [] := by
  rcases he : idxWhere p t with - | ⟨i, rest⟩
  · rfl
  · exfalso
    have hi : i ∈ idxWhere p t := by rw [he]; exact List.mem_cons_self _ _
    obtain ⟨x, hget, hpx⟩ := mem_idxWhere.mp hi
    rw [h i x hget] at hpx
    cases hpx

theorem refsTo_iff {g : Ingredient} {j : Nat} :
    Ingredient.refsTo g j = true ↔ g.relation = .reference j .ingredient := by
  unfold Ingredient.refsTo
  rcases hr : g.relation with ⟨refs, din⟩ | ⟨k, tk⟩
  · simp
  · cases tk <;> simp

theorem cw_refsTo_iff {g : Cookware} {j : Nat} :
    Cookware.refsTo g j = true ↔ g.relation = .reference j := by
  unfold Cookware.refsTo
  rcases hr : g.relation with ⟨refs, din⟩ | ⟨k⟩
  · simp
  · simp

/-- Well-formedness of the ingredient reference graph: component references
point backward at entries with a `Definition` relation, every definition's
back-reference list is exactly the index list of its referrers, and every
entry with a `Reference` relation carries the REF modifier. -/
def IngWF (t : List Ingredient) : Prop :=
  (∀ j g i, t.get? j = some g → g.relation = .reference i .ingredient →
    i < j ∧ ∃ tgt refs din, t.get? i = some tgt ∧
      tgt.relation = .definition refs din) ∧
  (∀ j g refs din, t.get? j = some g → g.relation = .definition refs din →
    refs = idxWhere (fun e => Ingredient.refsTo e j) t) ∧
  (∀ j g i tk, t.get? j = some g → g.relation = .reference i tk →
    g.modifiers.contains Modifiers.REF = true)

/-- Well-formedness of the cookware reference graph. -/
def CwWF (t : List Cookware) : Prop :=
  (∀ j g i, t.get? j = some g → g.relation = .reference i →
    i < j ∧ ∃ tgt refs din, t.get? i = some tgt ∧
      tgt.relation = .definition refs din) ∧
  (∀ j g refs din, t.get? j = some g → g.relation = .definition refs din →
    refs = idxWhere (fun e => Cookware.refsTo e j) t) ∧
  (∀ j g i, t.get? j = some g → g.relation = .reference i →
    g.modifiers.contains Modifiers.REF = true)

theorem ingWF_nil : IngWF [] := by
  refine ⟨?_, ?_, ?_⟩ <;> intro j g <;> intros <;> simp_all

theorem cwWF_nil : CwWF [] := by
  refine ⟨?_, ?_, ?_⟩ <;> intro j g <;> intros <;> simp_all

theorem get?_append_left {α : Type} {t : List α} {x : α} {i : Nat}
    (h : i < t.length) : (t ++ [x]).get? i = t.get? i := by
  rw [List.get?_eq_getElem?, List.get?_eq_getElem?, List.getElem?_append, if_pos h]

theorem get?_append_last {α : Type} {t : List α} {x : α} :
    (t ++ [x]).get? t.length = some x := by
  rw [List.get?_eq_getElem?]
  rw [List.getElem?_append_right (Nat.le_refl _)]
  simp

theorem get?_append_cases {α : Type} {t : List α} {x g : α} {j : Nat}
    (h : (t ++ [x]).get? j = some g) :
    (j < t.length ∧ t.get? j = some g) ∨ (j = t.length ∧ g = x) := by
  rcases Nat.lt_or_ge j t.length with hlt | hge
  · left
    rw [get?_append_left hlt] at h
    exact ⟨hlt, h⟩
  · right
    rw [List.get?_eq_getElem?] at h
    rw [List.getElem?_append_right hge] at h
    rcases Nat.eq_or_lt_of_le hge with heq | hgt
    · refine ⟨heq.symm, ?_⟩
      rw [← heq] at h
      simp at h
      exact h.symm
    · exfalso
      have : j - t.length ≥ 1 := by omega
      rw [List.getElem?_eq_none (by simpa using this)] at h
      cases h

theorem ingWF_push_def {t : List Ingredient} {g : Ingredient} {din : Bool}
    (h : IngWF t) (hrel : g.relation = .definition [] din) :
    IngWF (t ++ [g]) := by
  obtain ⟨hrefDef, hdefRefs, hmark⟩ := h
  have hnewNoRefs : ∀ j, Ingredient.refsTo g j = false := by
    intro j
    rcases hb : Ingredient.refsTo g j with - | -
    · rfl
    · rw [refsTo_iff.mp hb] at hrel
      cases hrel
  refine ⟨?_, ?_, ?_⟩
  · intro j g' i hget hrel'
    rcases get?_append_cases hget with ⟨hlt, hget'⟩ | ⟨heq, hgx⟩
    · obtain ⟨hij, tgt, refs, din', htgt, htrel⟩ := hrefDef j g' i hget' hrel'
      refine ⟨hij, tgt, refs, din', ?_, htrel⟩
      rw [get?_append_left (by omega)]
      exact htgt
    · subst hgx
      rw [hrel] at hrel'
      cases hrel'
  · intro j g' refs din' hget hrel'
    rw [idxWhere, idxWhereFrom_append]
    rcases get?_append_cases hget with ⟨hlt, hget'⟩ | ⟨heq, hgx⟩
    · rw [hnewNoRefs j]
      simp only [Bool.false_eq_true, if_false, List.append_nil]
      exact hdefRefs j g' refs din' hget' hrel'
    · subst hgx
      rw [hrel] at hrel'
      injection hrel' with h1 h2
      subst h1
      rw [hnewNoRefs j]
      simp only [Bool.false_eq_true, if_false, List.append_nil]
      subst heq
      refine (idxWhere_nil_of_all ?_).symm
      intro i x hgi
      rcases hb : Ingredient.refsTo x t.length with - | -
      · rfl
      · exfalso
        have hxr := refsTo_iff.mp hb
        have hlt2 : i < t.length := by
          rcases Nat.lt_or_ge i t.length with hlt2 | hge2
          · exact hlt2
          · exfalso
            rw [List.get?_eq_getElem?, List.getElem?_eq_none hge2] at hgi
            cases hgi
        obtain ⟨hij, -⟩ := hrefDef i x t.length hgi hxr
        omega
  · intro j g' i tk hget hrel'
    rcases get?_append_cases hget with ⟨hlt, hget'⟩ | ⟨heq, hgx⟩
    · exact hmark j g' i tk hget' hrel'
    · subst hgx
      rw [hrel] at hrel'
      cases hrel'

theorem ingWF_push_otherRef {t : List Ingredient} {g : Ingredient} {i0 : Nat}
    {tk : IngredientRefTarget} (h : IngWF t)
    (hrel : g.relation = .reference i0 tk) (htk : tk ≠ .ingredient)
    (hm : g.modifiers.contains Modifiers.REF = true) :
    IngWF (t ++ [g]) := by
  obtain ⟨hrefDef, hdefRefs, hmark⟩ := h
  have hnewNoRefs : ∀ j, Ingredient.refsTo g j = false := by
    intro j
    rcases hb : Ingredient.refsTo g j with - | -
    · rfl
    · rw [refsTo_iff.mp hb] at hrel
      injection hrel with h1 h2
      exact absurd h2.symm htk
  refine ⟨?_, ?_, ?_⟩
  · intro j g' i hget hrel'
    rcases get?_append_cases hget with ⟨hlt, hget'⟩ | ⟨heq, hgx⟩
    · obtain ⟨hij, tgt, refs, din', htgt, htrel⟩ := hrefDef j g' i hget' hrel'
      refine ⟨hij, tgt, refs, din', ?_, htrel⟩
      rw [get?_append_left (by omega)]
      exact htgt
    · subst hgx
      rw [hrel] at hrel'
      injection hrel' with h1 h2
      exact absurd h2 htk
  · intro j g' refs din' hget hrel'
    rw [idxWhere, idxWhereFrom_append]
    rcases get?_append_cases hget with ⟨hlt, hget'⟩ | ⟨heq, hgx⟩
    · rw [hnewNoRefs j]
      simp only [Bool.false_eq_true, if_false, List.append_nil]
      exact hdefRefs j g' refs din' hget' hrel'
    · subst hgx
      rw [hrel] at hrel'
      cases hrel'
  · intro j g' i tk' hget hrel'
    rcases get?_append_cases hget with ⟨hlt, hget'⟩ | ⟨heq, hgx⟩
    · exact hmark j g' i tk' hget' hrel'
    · subst hgx
      exact hm

theorem ingWF_push_ref {t : List Ingredient} {c' tgt : Ingredient} {j0 : Nat}
    (h : IngWF t) (hget : t.get? j0 = some tgt)
    (hnoref : tgt.modifiers.contains Modifiers.REF = false)
    (hrel : c'.relation = .reference j0 .ingredient)
    (hm : c'.modifiers.contains Modifiers.REF = true) :
    IngWF (Ingredient.set_referenced_from t j0 ++ [c']) := by
  obtain ⟨hrefDef, hdefRefs, hmark⟩ := h
  have hj0 : j0 < t.length := by
    rcases Nat.lt_or_ge j0 t.length with hlt | hge
    · exact hlt
    · exfalso
      rw [List.get?_eq_getElem?, List.getElem?_eq_none hge] at hget
      cases hget
  obtain ⟨refs0, din0, htrel⟩ : ∃ refs0 din0,
      tgt.relation = .definition refs0 din0 := by
    rcases hr : tgt.relation with ⟨refs0, din0⟩ | ⟨k, tk⟩
    · exact ⟨refs0, din0, rfl⟩
    · exfalso
      have := hmark j0 tgt k tk hget hr
      rw [hnoref] at this
      cases this
  have hset : Ingredient.set_referenced_from t j0 =
      t.set j0 { tgt with relation := .definition (refs0 ++ [t.length]) din0 } := by
    unfold Ingredient.set_referenced_from
    rw [hget]
    dsimp only []
    rw [htrel]
  set upd : Ingredient :=
    { tgt with relation := .definition (refs0 ++ [t.length]) din0 } with hupd
  have hlen : (t.set j0 upd).length = t.length := by simp
  have hgetSet : ∀ i, i ≠ j0 → (t.set j0 upd).get? i = t.get? i := by
    intro i hi
    rw [List.get?_eq_getElem?, List.get?_eq_getElem?,
      List.getElem?_set_ne (fun e => hi e.symm)]
  have hgetSet0 : (t.set j0 upd).get? j0 = some upd := by
    rw [List.get?_eq_getElem?, List.getElem?_set]
    simp [hj0]
  have hsetCases : ∀ {i g}, (t.set j0 upd).get? i = some g →
      (i = j0 ∧ g = upd) ∨ (i ≠ j0 ∧ t.get? i = some g) := by
    intro i g hg
    by_cases hi : i = j0
    · subst hi
      rw [hgetSet0] at hg
      injection hg with hg
      exact Or.inl ⟨rfl, hg.symm⟩
    · rw [hgetSet i hi] at hg
      exact Or.inr ⟨hi, hg⟩
  have hrefsToUpd : ∀ j, Ingredient.refsTo upd j = false := by
    intro j
    rcases hb : Ingredient.refsTo upd j with - | -
    · rfl
    · have := refsTo_iff.mp hb
      rw [hupd] at this
      cases this
  have hrefsToTgt : ∀ j, Ingredient.refsTo tgt j = false := by
    intro j
    rcases hb : Ingredient.refsTo tgt j with - | -
    · rfl
    · rw [refsTo_iff.mp hb] at htrel
      cases htrel
  have hidxSet : ∀ j k, idxWhereFrom (fun e => Ingredient.refsTo e j) k (t.set j0 upd) =
      idxWhereFrom (fun e => Ingredient.refsTo e j) k t := by
    intro j k
    exact idxWhereFrom_set_same hget (by rw [hrefsToUpd j, hrefsToTgt j]) k
  have hrefsToNew : ∀ j, Ingredient.refsTo c' j = true ↔ j = j0 := by
    intro j
    rw [refsTo_iff, hrel]
    constructor
    · intro h2
      injection h2 with h1 h2
      exact h1.symm
    · intro h2
      subst h2
      rfl
  rw [hset]
  refine ⟨?_, ?_, ?_⟩
  · intro j g' i hg hrel'
    rcases get?_append_cases hg with ⟨hlt, hg'⟩ | ⟨heq, hgx⟩
    · rw [hlen] at hlt
      rcases hsetCases hg' with ⟨hij0, hgu⟩ | ⟨hne, hgt⟩
      · subst hgu
        rw [hupd] at hrel'
        cases hrel'
      · obtain ⟨hij, tgt2, refs2, din2, htgt2, htrel2⟩ :=
          hrefDef j g' i hgt hrel'
        by_cases hi0 : i = j0
        · subst hi0
          rw [hget] at htgt2
          injection htgt2 with htgt2
          subst htgt2
          refine ⟨hij, upd, refs0 ++ [t.length], din0, ?_, rfl⟩
          rw [get?_append_left (by omega)]
          exact hgetSet0
        · refine ⟨hij, tgt2, refs2, din2, ?_, htrel2⟩
          rw [get?_append_left (by omega)]
          rw [hgetSet i hi0]
          exact htgt2
    · subst hgx
      rw [hrel] at hrel'
      injection hrel' with h1 h2
      subst h1
      refine ⟨by omega, upd, refs0 ++ [t.length], din0, ?_, rfl⟩
      rw [get?_append_left (by rw [hlen]; exact hj0)]
      exact hgetSet0
  · intro j g' refs din' hg hrel'
    rw [idxWhere, idxWhereFrom_append, hlen]
    rcases get?_append_cases hg with ⟨hlt, hg'⟩ | ⟨heq, hgx⟩
    · rw [hlen] at hlt
      rcases hsetCases hg' with ⟨hij0, hgu⟩ | ⟨hne, hgt⟩
      · subst hgu
        subst hij0
        rw [hupd] at hrel'
        injection hrel' with h1 h2
        subst h1
        have hcnew : Ingredient.refsTo c' j = true := (hrefsToNew j).mpr rfl
        rw [hcnew]
        simp only [if_true]
        rw [hidxSet j 0]
        have hrefs := hdefRefs j tgt refs0 din0 hget htrel
        rw [idxWhere] at hrefs
        rw [← hrefs]
        simp
      · have hcnew : Ingredient.refsTo c' j = false := by
          rcases hb : Ingredient.refsTo c' j with - | -
          · rfl
          · exact absurd ((hrefsToNew j).mp hb) hne
        rw [hcnew]
        simp only [Bool.false_eq_true, if_false, List.append_nil]
        rw [hidxSet j 0]
        have hrefs := hdefRefs j g' refs din' hgt hrel'
        rw [idxWhere] at hrefs
        exact hrefs
    · subst hgx
      rw [hrel] at hrel'
      cases hrel'
  · intro j g' i tk hg hrel'
    rcases get?_append_cases hg with ⟨hlt, hg'⟩ | ⟨heq, hgx⟩
    · rcases hsetCases hg' with ⟨hij0, hgu⟩ | ⟨hne, hgt⟩
      · subst hgu
        rw [hupd] at hrel'
        cases hrel'
      · exact hmark j g' i tk hgt hrel'
    · subst hgx
      exact hm

theorem cwWF_push_def {t : List Cookware} {g : Cookware} {din : Bool}
    (h : CwWF t) (hrel : g.relation = .definition [] din) :
    CwWF (t ++ [g]) := by
  obtain ⟨hrefDef, hdefRefs, hmark⟩ := h
  have hnewNoRefs : ∀ j, Cookware.refsTo g j = false := by
    intro j
    rcases hb : Cookware.refsTo g j with - | -
    · rfl
    · rw [cw_refsTo_iff.mp hb] at hrel
      cases hrel
  refine ⟨?_, ?_, ?_⟩
  · intro j g' i hget hrel'
    rcases get?_append_cases hget with ⟨hlt, hget'⟩ | ⟨heq, hgx⟩
    · obtain ⟨hij, tgt, refs, din', htgt, htrel⟩ := hrefDef j g' i hget' hrel'
      refine ⟨hij, tgt, refs, din', ?_, htrel⟩
      rw [get?_append_left (by omega)]
      exact htgt
    · subst hgx
      rw [hrel] at hrel'
      cases hrel'
  · intro j g' refs din' hget hrel'
    rw [idxWhere, idxWhereFrom_append]
    rcases get?_append_cases hget with ⟨hlt, hget'⟩ | ⟨heq, hgx⟩
    · rw [hnewNoRefs j]
      simp only [Bool.false_eq_true, if_false, List.append_nil]
      exact hdefRefs j g' refs din' hget' hrel'
    · subst hgx
      rw [hrel] at hrel'
      injection hrel' with h1 h2
      subst h1
      rw [hnewNoRefs j]
      simp only [Bool.false_eq_true, if_false, List.append_nil]
      subst heq
      refine (idxWhere_nil_of_all ?_).symm
      intro i x hgi
      rcases hb : Cookware.refsTo x t.length with - | -
      · rfl
      · exfalso
        have hxr := cw_refsTo_iff.mp hb
        have hlt2 : i < t.length := by
          rcases Nat.lt_or_ge i t.length with hlt2 | hge2
          · exact hlt2
          · exfalso
            rw [List.get?_eq_getElem?, List.getElem?_eq_none hge2] at hgi
            cases hgi
        obtain ⟨hij, -⟩ := hrefDef i x t.length hgi hxr
        omega
  · intro j g' i hget hrel'
    rcases get?_append_cases hget with ⟨hlt, hget'⟩ | ⟨heq, hgx⟩
    · exact hmark j g' i hget' hrel'
    · subst hgx
      rw [hrel] at hrel'
      cases hrel'

theorem cwWF_push_ref {t : List Cookware} {c' tgt : Cookware} {j0 : Nat}
    (h : CwWF t) (hget : t.get? j0 = some tgt)
    (hnoref : tgt.modifiers.contains Modifiers.REF = false)
    (hrel : c'.relation = .reference j0)
    (hm : c'.modifiers.contains Modifiers.REF = true) :
    CwWF (Cookware.set_referenced_from t j0 ++ [c']) := by
  obtain ⟨hrefDef, hdefRefs, hmark⟩ := h
  have hj0 : j0 < t.length := by
    rcases Nat.lt_or_ge j0 t.length with hlt | hge
    · exact hlt
    · exfalso
      rw [List.get?_eq_getElem?, List.getElem?_eq_none hge] at hget
      cases hget
  obtain ⟨refs0, din0, htrel⟩ : ∃ refs0 din0,
      tgt.relation = .definition refs0 din0 := by
    rcases hr : tgt.relation with ⟨refs0, din0⟩ | ⟨k⟩
    · exact ⟨refs0, din0, rfl⟩
    · exfalso
      have := hmark j0 tgt k hget hr
      rw [hnoref] at this
      cases this
  have hset : Cookware.set_referenced_from t j0 =
      t.set j0 { tgt with relation := .definition (refs0 ++ [t.length]) din0 } := by
    unfold Cookware.set_referenced_from
    rw [hget]
    dsimp only []
    rw [htrel]
  set upd : Cookware :=
    { tgt with relation := .definition (refs0 ++ [t.length]) din0 } with hupd
  have hlen : (t.set j0 upd).length = t.length := by simp
  have hgetSet : ∀ i, i ≠ j0 → (t.set j0 upd).get? i = t.get? i := by
    intro i hi
    rw [List.get?_eq_getElem?, List.get?_eq_getElem?,
      List.getElem?_set_ne (fun e => hi e.symm)]
  have hgetSet0 : (t.set j0 upd).get? j0 = some upd := by
    rw [List.get?_eq_getElem?, List.getElem?_set]
    simp [hj0]
  have hsetCases : ∀ {i g}, (t.set j0 upd).get? i = some g →
      (i = j0 ∧ g = upd) ∨ (i ≠ j0 ∧ t.get? i = some g) := by
    intro i g hg
    by_cases hi : i = j0
    · subst hi
      rw [hgetSet0] at hg
      injection hg with hg
      exact Or.inl ⟨rfl, hg.symm⟩
    · rw [hgetSet i hi] at hg
      exact Or.inr ⟨hi, hg⟩
  have hrefsToUpd : ∀ j, Cookware.refsTo upd j = false := by
    intro j
    rcases hb : Cookware.refsTo upd j with - | -
    · rfl
    · have := cw_refsTo_iff.mp hb
      rw [hupd] at this
      cases this
  have hrefsToTgt : ∀ j, Cookware.refsTo tgt j = false := by
    intro j
    rcases hb : Cookware.refsTo tgt j with - | -
    · rfl
    · rw [cw_refsTo_iff.mp hb] at htrel
      cases htrel
  have hidxSet : ∀ j k, idxWhereFrom (fun e => Cookware.refsTo e j) k (t.set j0 upd) =
      idxWhereFrom (fun e => Cookware.refsTo e j) k t := by
    intro j k
    exact idxWhereFrom_set_same hget (by rw [hrefsToUpd j, hrefsToTgt j]) k
  have hrefsToNew : ∀ j, Cookware.refsTo c' j = true ↔ j = j0 := by
    intro j
    rw [cw_refsTo_iff, hrel]
    constructor
    · intro h2
      injection h2 with h1
      exact h1.symm
    · intro h2
      subst h2
      rfl
  rw [hset]
  refine ⟨?_, ?_, ?_⟩
  · intro j g' i hg hrel'
    rcases get?_append_cases hg with ⟨hlt, hg'⟩ | ⟨heq, hgx⟩
    · rw [hlen] at hlt
      rcases hsetCases hg' with ⟨hij0, hgu⟩ | ⟨hne, hgt⟩
      · subst hgu
        rw [hupd] at hrel'
        cases hrel'
      · obtain ⟨hij, tgt2, refs2, din2, htgt2, htrel2⟩ :=
          hrefDef j g' i hgt hrel'
        by_cases hi0 : i = j0
        · subst hi0
          rw [hget] at htgt2
          injection htgt2 with htgt2
          subst htgt2
          refine ⟨hij, upd, refs0 ++ [t.length], din0, ?_, rfl⟩
          rw [get?_append_left (by omega)]
          exact hgetSet0
        · refine ⟨hij, tgt2, refs2, din2, ?_, htrel2⟩
          rw [get?_append_left (by omega)]
          rw [hgetSet i hi0]
          exact htgt2
    · subst hgx
      rw [hrel] at hrel'
      injection hrel' with h1
      subst h1
      refine ⟨by omega, upd, refs0 ++ [t.length], din0, ?_, rfl⟩
      rw [get?_append_left (by rw [hlen]; exact hj0)]
      exact hgetSet0
  · intro j g' refs din' hg hrel'
    rw [idxWhere, idxWhereFrom_append, hlen]
    rcases get?_append_cases hg with ⟨hlt, hg'⟩ | ⟨heq, hgx⟩
    · rw [hlen] at hlt
      rcases hsetCases hg' with ⟨hij0, hgu⟩ | ⟨hne, hgt⟩
      · subst hgu
        subst hij0
        rw [hupd] at hrel'
        injection hrel' with h1 h2
        subst h1
        have hcnew : Cookware.refsTo c' j = true := (hrefsToNew j).mpr rfl
        rw [hcnew]
        simp only [if_true]
        rw [hidxSet j 0]
        have hrefs := hdefRefs j tgt refs0 din0 hget htrel
        rw [idxWhere] at hrefs
        rw [← hrefs]
        simp
      · have hcnew : Cookware.refsTo c' j = false := by
          rcases hb : Cookware.refsTo c' j with - | -
          · rfl
          · exact absurd ((hrefsToNew j).mp hb) hne
        rw [hcnew]
        simp only [Bool.false_eq_true, if_false, List.append_nil]
        rw [hidxSet j 0]
        have hrefs := hdefRefs j g' refs din' hgt hrel'
        rw [idxWhere] at hrefs
        exact hrefs
    · subst hgx
      rw [hrel] at hrel'
      cases hrel'
  · intro j g' i hg hrel'
    rcases get?_append_cases hg with ⟨hlt, hg'⟩ | ⟨heq, hgx⟩
    · rcases hsetCases hg' with ⟨hij0, hgu⟩ | ⟨hne, hgt⟩
      · subst hgu
        rw [hupd] at hrel'
        cases hrel'
      · exact hmark j g' i hgt hrel'
    · subst hgx
      exact hm

theorem contains_or_REF (m : Modifiers) :
    (m.or Modifiers.REF).contains Modifiers.REF = true := by
  rcases m with ⟨r, n, rc, h, o⟩
  cases r <;> cases n <;> cases rc <;> cases h <;> cases o <;> rfl

/-- The joint reference-graph invariant of the walker state. -/
def WFState (col : RecipeCollector) : Prop :=
  IngWF col.content.ingredients ∧ CwWF col.content.cookware

/-- The parser invariant the walker's `assert!` relies on: an ingredient
event carrying intermediate data has the REF modifier set. -/
def GoodEv : Event → Prop
  | .ingredientEv l => l.val.intermediate_data ≠ none →
      l.val.modifiers.val.contains Modifiers.REF = true
  | _ => True

set_option maxHeartbeats 1000000 in
theorem ingredientFn_wf {col : RecipeCollector} {l : Located AstIngredient}
    (hgood : l.val.intermediate_data ≠ none →
      l.val.modifiers.val.contains Modifiers.REF = true)
    (hIng : IngWF col.content.ingredients) :
    IngWF (col.ingredientFn l).2.content.ingredients ∧
    (col.ingredientFn l).2.content.cookware = col.content.cookware := by
  obtain ⟨ctx', tbl, hcol, -, hbr⟩ := ingredientFn_shape col l
  rw [hcol]
  refine ⟨?_, rfl⟩
  show IngWF tbl
  rcases hbr with ⟨hno, igr, ds, hres, htbl⟩ | ⟨hno, j, imp, igr, ds, hres, htbl⟩ |
      ⟨d, hd, igr, htbl, hmods, hrels⟩
  · subst htbl
    have hfst := resolve_ing_none_fst hres
    exact ingWF_push_def hIng (show igr.relation =
      .definition [] (col.define_mode != DefineMode.components) by
      rw [hfst, buildIngredient_relation])
  · subst htbl
    obtain ⟨hsn, himp, tgt, hget, hnoref2, hname, hc'⟩ := resolve_ing_some_spec hres
    refine ingWF_push_ref hIng hget hnoref2 ?_ ?_
    · rw [hc']
    · rw [hc']
      exact contains_or_REF _
  · subst htbl
    rcases hrels with hdef | ⟨k, tk, href, htk⟩
    · exact ingWF_push_def hIng hdef
    · refine ingWF_push_otherRef hIng href ?_ ?_
      · rcases htk with h1 | h1 <;> (subst h1; intro h2; cases h2)
      · rw [hmods]
        exact hgood (by rw [hd]; exact fun h2 => Option.noConfusion h2)

set_option maxHeartbeats 1000000 in
theorem cookwareFn_wf {col : RecipeCollector} {l : Located AstCookware}
    (hCw : CwWF col.content.cookware) :
    CwWF (col.cookwareFn l).2.content.cookware ∧
    (col.cookwareFn l).2.content.ingredients = col.content.ingredients := by
  obtain ⟨ctx', tbl, hcol, -, hbr⟩ := cookwareFn_shape col l
  rw [hcol]
  refine ⟨?_, rfl⟩
  show CwWF tbl
  rcases hbr with ⟨cwc, ds, hres, htbl⟩ | ⟨j, imp, cwc, ds, hres, htbl⟩
  · subst htbl
    have hfst := resolve_cw_none_fst hres
    exact cwWF_push_def hCw (show cwc.relation =
      .definition [] (col.define_mode != DefineMode.components) by
      rw [hfst, buildCookware_relation])
  · subst htbl
    obtain ⟨hsn, himp, tgt, hget, hnoref2, hname, hc'⟩ := resolve_cw_some_spec hres
    refine cwWF_push_ref hCw hget hnoref2 ?_ ?_
    · rw [hc']
    · rw [hc']
      exact contains_or_REF _

theorem stepItem_wf {acc : List Item × RecipeCollector} {e : Event}
    (hgood : GoodEv e) (h : WFState acc.2) :
    WFState (RecipeCollector.stepItem acc e).2 := by
  cases e with
  | textEv t =>
    unfold RecipeCollector.stepItem
    dsimp only []
    by_cases hdm : (acc.2.define_mode == DefineMode.components) = true
    · rw [if_pos hdm]
      split
      · exact h
      · exact h
    · rw [if_neg hdm]
      cases hre : acc.2.temperature_regex with
      | none => exact h
      | some re => exact h
  | ingredientEv l =>
    unfold RecipeCollector.stepItem
    dsimp only []
    obtain ⟨h1, h2⟩ := ingredientFn_wf hgood h.1
    exact ⟨h1, h2 ▸ h.2⟩
  | cookwareEv l =>
    unfold RecipeCollector.stepItem
    dsimp only []
    obtain ⟨h1, h2⟩ := cookwareFn_wf h.2
    exact ⟨h2 ▸ h.1, h1⟩
  | timerEv tm =>
    unfold RecipeCollector.stepItem
    dsimp only []
    exact h
  | metadataEv k v => exact h
  | sectionEv n => exact h
  | startEv k => exact h
  | endEv k => exact h
  | errorEv d => exact h
  | warningEv w => exact h

theorem stepFold_wf (items : List Event) : ∀ (acc : List Item × RecipeCollector),
    (∀ e ∈ items, GoodEv e) → WFState acc.2 →
    WFState ((items.foldl RecipeCollector.stepItem acc).2) := by
  induction items with
  | nil => exact fun acc hg h => h
  | cons e rest ih =>
    intro acc hg h
    rw [List.foldl_cons]
    exact ih _ (fun e2 he2 => hg e2 (List.mem_cons_of_mem _ he2))
      (stepItem_wf (hg e (List.mem_cons_self _ _)) h)

theorem stepFn_wf {col : RecipeCollector} {items : List Event}
    (hg : ∀ e ∈ items, GoodEv e) (h : WFState col) :
    WFState (col.stepFn items).2 := by
  unfold RecipeCollector.stepFn
  exact stepFold_wf items ([], col) hg h

set_option maxHeartbeats 2000000 in
theorem loopGo_wf (evs : List Event) : ∀ (col : RecipeCollector)
    (items : List Event) (r : ScalableRecipe) (ds : SourceReport),
    (∀ e ∈ evs, GoodEv e) → (∀ e ∈ items, GoodEv e) → WFState col →
    col.loopGo items evs = (some r, ds) →
    IngWF r.ingredients ∧ CwWF r.cookware := by
  induction evs with
  | nil =>
    intro col items r ds hg hgi inv h
    rw [RecipeCollector.loopGo] at h
    dsimp only [] at h
    split at h <;>
    · injection h with h1 h2
      injection h1 with h1
      subst h1
      exact ⟨inv.1, inv.2⟩
  | cons e rest ih =>
    intro col items r ds hg hgi inv h
    rw [RecipeCollector.loopGo.eq_def] at h
    dsimp only [] at h
    have hgr : ∀ e2 ∈ rest, GoodEv e2 :=
      fun e2 he2 => hg e2 (List.mem_cons_of_mem _ he2)
    have hgnil : ∀ e2 ∈ ([] : List Event), GoodEv e2 :=
      fun e2 he2 => absurd he2 (List.not_mem_nil _)
    cases e with
    | metadataEv k v =>
      dsimp only [] at h
      obtain ⟨ctx', md, locs, dm, dupm, asc, heq⟩ := metadataFn_shape col k v
      rw [heq] at h
      refine ih _ _ _ _ hgr hgi ?_ h
      exact ⟨inv.1, inv.2⟩
    | sectionEv name =>
      dsimp only [] at h
      by_cases hemp : (!(RecipeCollector.mk col.extensions col.temperature_regex
          col.env col.content col.current_section col.define_mode
          col.duplicate_mode col.auto_scale_ingredients col.ctx col.locations
          1).current_section.is_empty) = true
      · rw [if_pos hemp] at h
        dsimp only [] at h
        refine ih _ _ _ _ hgr hgi ?_ h
        exact ⟨inv.1, inv.2⟩
      · rw [if_neg hemp] at h
        dsimp only [] at h
        refine ih _ _ _ _ hgr hgi ?_ h
        exact ⟨inv.1, inv.2⟩
    | startEv kind =>
      dsimp only [] at h
      exact ih _ _ _ _ hgr hgnil inv h
    | endEv kind =>
      dsimp only [] at h
      by_cases hdm : (col.define_mode == DefineMode.text) = true
      · rw [if_pos hdm] at h
        obtain ⟨ctx', htb⟩ := text_block_shape col items
        rw [htb] at h
        dsimp only [Content.is_text, Content.is_step] at h
        rw [if_pos (by simp)] at h
        refine ih _ _ _ _ hgr hgnil ?_ h
        exact ⟨inv.1, inv.2⟩
      · rw [if_neg hdm] at h
        cases kind with
        | text =>
          obtain ⟨ctx', htb⟩ := text_block_shape col items
          rw [htb] at h
          dsimp only [Content.is_text, Content.is_step] at h
          rw [if_pos (by simp)] at h
          refine ih _ _ _ _ hgr hgnil ?_ h
          exact ⟨inv.1, inv.2⟩
        | step =>
          rcases hst : col.stepFn items with ⟨st, col1⟩
          have hwf2 : WFState (col.stepFn items).2 := stepFn_wf hgi inv
          rw [hst] at h hwf2
          dsimp only [] at h hwf2
          dsimp only [Content.is_text, Content.is_step] at h
          by_cases hdc : (col1.define_mode != DefineMode.components) = true
          · rw [if_pos (by simp [hdc])] at h
            rw [if_pos rfl] at h
            refine ih _ _ _ _ hgr hgnil ?_ h
            exact ⟨hwf2.1, hwf2.2⟩
          · rw [if_neg (by simpa using hdc)] at h
            refine ih _ _ _ _ hgr hgnil ?_ h
            exact hwf2
    | textEv t =>
      dsimp only [] at h
      refine ih _ _ _ _ hgr ?_ inv h
      intro e2 he2
      rcases List.mem_append.mp he2 with h2 | h2
      · exact hgi e2 h2
      · simp at h2
        subst h2
        trivial
    | ingredientEv l =>
      dsimp only [] at h
      refine ih _ _ _ _ hgr ?_ inv h
      intro e2 he2
      rcases List.mem_append.mp he2 with h2 | h2
      · exact hgi e2 h2
      · simp at h2
        subst h2
        exact hg _ (List.mem_cons_self _ _)
    | cookwareEv c =>
      dsimp only [] at h
      refine ih _ _ _ _ hgr ?_ inv h
      intro e2 he2
      rcases List.mem_append.mp he2 with h2 | h2
      · exact hgi e2 h2
      · simp at h2
        subst h2
        trivial
    | timerEv tm =>
      dsimp only [] at h
      refine ih _ _ _ _ hgr ?_ inv h
      intro e2 he2
      rcases List.mem_append.mp he2 with h2 | h2
      · exact hgi e2 h2
      · simp at h2
        subst h2
        trivial
    | errorEv d =>
      dsimp only [] at h
      cases h
    | warningEv w =>
      dsimp only [] at h
      refine ih _ _ _ _ hgr hgi ?_ h
      exact ⟨inv.1, inv.2⟩

theorem parse_events_wf {env : AnalysisEnv} {ext : Extensions}
    {events : List Event} {r : ScalableRecipe} {ds : SourceReport}
    (hg : ∀ e ∈ events, GoodEv e)
    (h : parse_events env ext events = (some r, ds)) :
    IngWF r.ingredients ∧ CwWF r.cookware := by
  unfold parse_events at h
  dsimp only [] at h
  have hgnil : ∀ e2 ∈ ([] : List Event), GoodEv e2 :=
    fun e2 he2 => absurd he2 (List.not_mem_nil _)
  by_cases hext : ext.temperature = true
  · rw [if_pos hext] at h
    cases hre : env.temperatureRegexFn with
    | some re =>
      rw [hre] at h
      dsimp only [] at h
      exact loopGo_wf events _ _ _ _ hg hgnil ⟨ingWF_nil, cwWF_nil⟩ h
    | none =>
      rw [hre] at h
      dsimp only [] at h
      exact loopGo_wf events _ _ _ _ hg hgnil ⟨ingWF_nil, cwWF_nil⟩ h
  · rw [if_neg hext] at h
    dsimp only [] at h
    exact loopGo_wf events _ _ _ _ hg hgnil ⟨ingWF_nil, cwWF_nil⟩ h

set_option maxHeartbeats 1000000 in
/-- **C1.** On every successfully produced recipe the reference graph is
well-formed: every ingredient whose relation is a Reference with target
Ingredient points at an entry of the ingredient table whose relation is a
Definition (and likewise for cookware references); and every definition's
`referenced_from` list holds exactly the indices of the entries that
reference it, in strictly increasing order.  The hypothesis on the event
stream is the parser invariant the walker's `assert!` relies on: an
ingredient event carrying intermediate data has the REF modifier. -/
theorem claim_C1_reference_graph {env : AnalysisEnv} {ext : Extensions}
    {events : List Event} {r : ScalableRecipe} {ds : SourceReport}
    (hgood : ∀ l, Event.ingredientEv l ∈ events →
      l.val.intermediate_data ≠ none →
      l.val.modifiers.val.contains Modifiers.REF = true)
    (h : parse_events env ext events = (some r, ds)) :
    (∀ j g i, r.ingredients.get? j = some g →
      g.relation = .reference i .ingredient →
      ∃ tgt refs din, r.ingredients.get? i = some tgt ∧
        tgt.relation = .definition refs din) ∧
    (∀ j g refs din, r.ingredients.get? j = some g →
      g.relation = .definition refs din →
      (∀ k, k ∈ refs ↔ ∃ gr, r.ingredients.get? k = some gr ∧
        gr.relation = .reference j .ingredient) ∧
      List.Pairwise (· < ·) refs) ∧
    (∀ j g i, r.cookware.get? j = some g → g.relation = .reference i →
      ∃ tgt refs din, r.cookware.get? i = some tgt ∧
        tgt.relation = .definition refs din) ∧
    (∀ j g refs din, r.cookware.get? j = some g →
      g.relation = .definition refs din →
      (∀ k, k ∈ refs ↔ ∃ gr, r.cookware.get? k = some gr ∧
        gr.relation = .reference j) ∧
      List.Pairwise (· < ·) refs) := by
  have hg : ∀ e ∈ events, GoodEv e := by
    intro e he
    cases e with
    | ingredientEv l => exact hgood l he
    | metadataEv k v => trivial
    | sectionEv n => trivial
    | startEv k => trivial
    | endEv k => trivial
    | textEv t => trivial
    | cookwareEv c => trivial
    | timerEv tm => trivial
    | errorEv d => trivial
    | warningEv w => trivial
  obtain ⟨⟨hrefDef, hdefRefs, -⟩, hcrefDef, hcdefRefs, -⟩ := parse_events_wf hg h
  refine ⟨?_, ?_, ?_, ?_⟩
  · intro j g i hget hrel
    obtain ⟨-, tgt, refs, din, htgt, htrel⟩ := hrefDef j g i hget hrel
    exact ⟨tgt, refs, din, htgt, htrel⟩
  · intro j g refs din hget hrel
    have hre := hdefRefs j g refs din hget hrel
    refine ⟨?_, ?_⟩
    · intro k
      rw [hre, mem_idxWhere]
      constructor
      · rintro ⟨x, hx, hpx⟩
        exact ⟨x, hx, refsTo_iff.mp hpx⟩
      · rintro ⟨x, hx, hxr⟩
        exact ⟨x, hx, refsTo_iff.mpr hxr⟩
    · rw [hre]
      exact idxWhere_pairwise _ _
  · intro j g i hget hrel
    obtain ⟨-, tgt, refs, din, htgt, htrel⟩ := hcrefDef j g i hget hrel
    exact ⟨tgt, refs, din, htgt, htrel⟩
  · intro j g refs din hget hrel
    have hre := hcdefRefs j g refs din hget hrel
    refine ⟨?_, ?_⟩
    · intro k
      rw [hre, mem_idxWhere]
      constructor
      · rintro ⟨x, hx, hpx⟩
        exact ⟨x, hx, cw_refsTo_iff.mp hpx⟩
      · rintro ⟨x, hx, hxr⟩
        exact ⟨x, hx, cw_refsTo_iff.mpr hxr⟩
    · rw [hre]
      exact idxWhere_pairwise _ _

/-- An explicit reference event `&salt` following the `wSalt` definition. -/
def w2SaltRef : Located AstIngredient :=
  ⟨{ name := ⟨"salt", (4 : Span)⟩, aliasName := none, quantity := none,
     note := none, modifiers := ⟨Modifiers.REF, (5 : Span)⟩,
     intermediate_data := none }, (6 : Span)⟩

/-- A one-step stream defining `salt` and then referencing it. -/
def w2Events : List Event :=
  [.startEv .step, .ingredientEv wSalt, .ingredientEv w2SaltRef, .endEv .step]

def w2Def : Ingredient :=
  { name := "salt", aliasName := none, quantity := none, note := none,
    modifiers := Modifiers.empty, relation := .definition [1] true }

def w2Ref : Ingredient :=
  { name := "salt", aliasName := none, quantity := none, note := none,
    modifiers := Modifiers.REF, relation := .reference 0 .ingredient }

def w2Section : Section :=
  { name := none,
    content := [Content.step
      { items := [Item.ingredientIdx 0, Item.ingredientIdx 1], number := 1 }] }

/-- The recipe `w2Events` produces: the reference resolved to index 0 and
the definition's `referenced_from` was backfilled with index 1. -/
def w2Recipe : ScalableRecipe :=
  { metadata := { map := [], servings := none },
    sections := [w2Section],
    ingredients := [w2Def, w2Ref],
    cookware := [], timers := [], inline_quantities := [] }

/-- Witness for **C1**: the concrete run `w2Events` produces a recipe whose
second ingredient references the first, and the well-formedness conclusion
holds for its ingredient table. -/
theorem claim_C1_witness :
    parse_events testEnv testExt w2Events = (some w2Recipe, ([] : List SourceDiag)) ∧
    (∀ j g refs din, w2Recipe.ingredients.get? j = some g →
      g.relation = .definition refs din →
      (∀ k, k ∈ refs ↔ ∃ gr, w2Recipe.ingredients.get? k = some gr ∧
        gr.relation = .reference j .ingredient) ∧
      List.Pairwise (· < ·) refs) := by
  have hgood : ∀ l, Event.ingredientEv l ∈ w2Events →
      l.val.intermediate_data ≠ none →
      l.val.modifiers.val.contains Modifiers.REF = true := by
    intro l hl hne
    simp only [w2Events, List.mem_cons, List.mem_singleton] at hl
    rcases hl with hl | hl | hl | hl
    · cases hl
    · injection hl with hl
      subst hl
      exact absurd rfl hne
    · injection hl with hl
      subst hl
      exact absurd rfl hne
    · simp at hl
  have hparse : parse_events testEnv testExt w2Events =
      (some w2Recipe, ([] : List SourceDiag)) := by rfl
  exact ⟨hparse, (claim_C1_reference_graph hgood hparse).2.1⟩

end Cooklang
